import Mathlib

/-!
# Oomph anti-cheat: acknowledgement correlator and combat checks

A shallow embedding of the acknowledgement code in
`handler/acknowledgements.go` and `player/acknowledgements.go`, of the checks
in `check/reach.go`, `check/reach_a.go`, `check/kill_aura_b.go` and
`check/velocity_b.go`, and of `Flag`, `Disconnect` and `Close` in
`player/player.go`, together with the properties proved about them.

Modelling conventions.

* A Go `func()` callback is an opaque value of a type `κ`.  Calling it is
  recorded by appending it to a list of calls, in call order; a callback is
  taken not to re-enter the acknowledgement object that runs it.
* A Go `map[int64][]func()` is an association list read through `mapGet`
  (first entry with the key), `mapDelete` (drops every entry with the key) and
  `mapSet`.  `len(m) == 0` is `m = []`.
* `int64` timestamps are `Int`.  The code only divides them by 1000 (Go's
  division, truncating toward zero, `Int.tdiv`) and multiplies a `uint32` by
  1000, neither of which can leave the `int64` range.
* `rand.Uint32()` is a list of draws consumed from the front, each reduced
  modulo `2^32`.  A `Refresh` that has used up its draws without finding a free
  timestamp has not returned and yields `none`.
-/

namespace Oomph

/-! ## Go maps of callback lists -/

/-- The Go type `map[int64][]func()`. -/
abbrev CallbackMap (κ : Type) := List (Int × List κ)

/-- The two-valued read `v, ok := m[k]`. -/
def mapGet {κ : Type} : CallbackMap κ → Int → Option (List κ)
  | [], _ => none
  | (j, cs) :: rest, k => if j = k then some cs else mapGet rest k

/-- The one-valued read `m[k]`: the nil slice when the key is absent. -/
def mapIndex {κ : Type} (m : CallbackMap κ) (k : Int) : List κ :=
  (mapGet m k).getD []

/-- The statement `delete(m, k)`. -/
def mapDelete {κ : Type} : CallbackMap κ → Int → CallbackMap κ
  | [], _ => []
  | (j, cs) :: rest, k => if j = k then mapDelete rest k else (j, cs) :: mapDelete rest k

/-- The assignment `m[k] = v`. -/
def mapSet {κ : Type} (m : CallbackMap κ) (k : Int) (v : List κ) : CallbackMap κ :=
  (k, v) :: mapDelete m k

/-- The packet `packet.NetworkStackLatency`, reduced to its two fields. -/
structure NetworkStackLatency where
  Timestamp : Int
  NeedsResponse : Bool
  deriving DecidableEq, Repr

/-- One `rand.Uint32()` draw converted with `int64(...)`. -/
def drawTimestamp (r : Nat) : Int := ((r % 2 ^ 32 : Nat) : Int)

/-! ## `handler/acknowledgements.go` -/

/-- The constant `AckDivider`. -/
def AckDivider : Int := 1000

/-- The struct `AcknowledgementHandler`. -/
structure AcknowledgementHandler (κ : Type) where
  LegacyMode : Bool
  Playstation : Bool
  AckMap : CallbackMap κ
  CurrentTimestamp : Int
  deriving DecidableEq, Repr

/-- The result of running a method: the state left behind, the callbacks that
were called (in call order) and the returned value. -/
structure Ran (σ : Type) (κ : Type) (ρ : Type) where
  state : σ
  calls : List κ
  ret : ρ
  deriving DecidableEq, Repr

namespace AcknowledgementHandler

variable {κ : Type}

/-- The constructor `NewAcknowledgementHandler`. -/
def new : AcknowledgementHandler κ :=
  { LegacyMode := false, Playstation := false, AckMap := [], CurrentTimestamp := 0 }

/-- The method `AddCallback`. -/
def AddCallback (a : AcknowledgementHandler κ) (callback : κ) : AcknowledgementHandler κ :=
  let bucket := mapIndex a.AckMap a.CurrentTimestamp ++ [callback]
  { a with AckMap := mapSet a.AckMap a.CurrentTimestamp bucket }

/-- The method `tryExecute`. -/
def tryExecute (a : AcknowledgementHandler κ) (timestamp : Int) :
    Ran (AcknowledgementHandler κ) κ Bool :=
  match mapGet a.AckMap timestamp with
  | none => { state := a, calls := [], ret := false }
  | some callables =>
    { state := { a with AckMap := mapDelete a.AckMap timestamp },
      calls := callables, ret := true }

/-- The timestamp that `Execute` hands to `tryExecute`. -/
def decodeTimestamp (a : AcknowledgementHandler κ) (timestamp : Int) : Int :=
  if a.LegacyMode then timestamp
  else
    let timestamp := Int.tdiv timestamp AckDivider
    if !a.Playstation then Int.tdiv timestamp AckDivider else timestamp

/-- The method `Execute`. -/
def Execute (a : AcknowledgementHandler κ) (timestamp : Int) :
    Ran (AcknowledgementHandler κ) κ Bool :=
  if a.LegacyMode then tryExecute a timestamp
  else
    let timestamp := Int.tdiv timestamp AckDivider
    let timestamp := if !a.Playstation then Int.tdiv timestamp AckDivider else timestamp
    tryExecute a timestamp

/-- The method `Refresh`: one loop iteration per draw. -/
def Refresh (a : AcknowledgementHandler κ) :
    List Nat → Option (AcknowledgementHandler κ × List Nat)
  | [] => none
  | r :: draws =>
    let ts := drawTimestamp r
    let ts := if a.LegacyMode then ts * 1000 else ts
    let a := { a with CurrentTimestamp := ts }
    match mapGet a.AckMap a.CurrentTimestamp with
    | none => some (a, draws)
    | some _ => Refresh a draws

/-- The method `CreatePacket`. -/
def CreatePacket (a : AcknowledgementHandler κ) :
    AcknowledgementHandler κ × Option NetworkStackLatency :=
  if (mapIndex a.AckMap a.CurrentTimestamp).length = 0 then
    ({ a with AckMap := mapDelete a.AckMap a.CurrentTimestamp }, none)
  else
    let timestamp := a.CurrentTimestamp
    let timestamp :=
      if a.LegacyMode && a.Playstation then Int.tdiv timestamp AckDivider else timestamp
    (a, some { Timestamp := timestamp, NeedsResponse := true })

/-- The method `OnTick`: the packet written to the connection, if any, and the
state after the closing `Refresh`. -/
def OnTick (a : AcknowledgementHandler κ) (draws : List Nat) :
    Option ((AcknowledgementHandler κ × List Nat) × Option NetworkStackLatency) :=
  let (a, pk) := CreatePacket a
  (Refresh a draws).map (fun r => (r, pk))

end AcknowledgementHandler

/-- The packets `AcknowledgementHandler.HandleClientPacket` tells apart. -/
inductive AckPacket where
  | TickSync
  | NetworkStackLatency (Timestamp : Int)
  | otherPacket
  deriving DecidableEq, Repr

/-- The method `AcknowledgementHandler.HandleClientPacket`; `orbis` is the value
of `p.Conn().ClientData().DeviceOS == protocol.DeviceOrbis`.  The state holds the
handler and the draws `Refresh` did not use; the result is `none` when the draws
run out before `Refresh` finds a free timestamp. -/
def AcknowledgementHandler.HandleClientPacket {κ : Type} (a : AcknowledgementHandler κ)
    (pk : AckPacket) (orbis : Bool) (draws : List Nat) :
    Option (Ran (AcknowledgementHandler κ × List Nat) κ Bool) :=
  match pk with
  | AckPacket.TickSync =>
    let a := { a with Playstation := orbis }
    (a.Refresh draws).map (fun r => { state := r, calls := [], ret := true })
  | AckPacket.NetworkStackLatency Timestamp =>
    let r := a.Execute Timestamp
    some { state := (r.state, draws), calls := r.calls, ret := !r.ret }
  | AckPacket.otherPacket => some { state := (a, draws), calls := [], ret := true }

/-! ## `player/acknowledgements.go` -/

/-- The constant `DefaultNetworkStackLatencyDivider`. -/
def DefaultNetworkStackLatencyDivider : Int := 1000000

/-- The constant `PlaystationNetworkStackLatencyDivider`. -/
def PlaystationNetworkStackLatencyDivider : Int := 1000

/-- The struct `Acknowledgements` (without its mutex).  `awaitResTicks` is a
`uint64`: its increment wraps at `2^64`. -/
structure Acknowledgements (κ : Type) where
  AcknowledgeMap : CallbackMap κ
  CurrentTimestamp : Int
  HasTicked : Bool
  LegacyMode : Bool
  acknowledgementOrder : List Int
  awaitResTicks : Nat
  deriving DecidableEq, Repr

namespace Acknowledgements

variable {κ : Type}

/-- The method `UseLegacy`. -/
def UseLegacy (a : Acknowledgements κ) (b : Bool) : Acknowledgements κ :=
  { a with LegacyMode := b }

/-- The method `Add`. -/
def Add (a : Acknowledgements κ) (f : κ) : Acknowledgements κ :=
  let bucket := mapIndex a.AcknowledgeMap a.CurrentTimestamp ++ [f]
  { a with AcknowledgeMap := mapSet a.AcknowledgeMap a.CurrentTimestamp bucket }

/-- The method `AddMap`. -/
def AddMap (a : Acknowledgements κ) (m : List κ) (t : Int) : Acknowledgements κ :=
  { a with AcknowledgeMap := mapSet a.AcknowledgeMap t m }

/-- The method `GetMap`. -/
def GetMap (a : Acknowledgements κ) (t : Int) : List κ × Bool :=
  match mapGet a.AcknowledgeMap t with
  | none => ([], false)
  | some m => (m, true)

/-- The method `Remove`. -/
def Remove (a : Acknowledgements κ) (i : Int) : Acknowledgements κ :=
  { a with AcknowledgeMap := mapDelete a.AcknowledgeMap i }

/-- The method `tryHandle`. -/
def tryHandle (a : Acknowledgements κ) (i : Int) : Ran (Acknowledgements κ) κ Bool :=
  match mapGet a.AcknowledgeMap i with
  | some calls =>
    let a := { a with awaitResTicks := 0 }
    let a := Remove a i
    { state := a, calls := calls, ret := true }
  | none => { state := a, calls := [], ret := false }

/-- The method `Refresh`: one loop iteration per draw. -/
def Refresh (a : Acknowledgements κ) : List Nat → Option (Acknowledgements κ × List Nat)
  | [] => none
  | r :: draws =>
    let ts := drawTimestamp r
    let ts := if a.LegacyMode then ts * 1000 else ts
    let a := { a with CurrentTimestamp := ts }
    match mapGet a.AcknowledgeMap a.CurrentTimestamp with
    | none => some (a, draws)
    | some _ => Refresh a draws

/-- The method `Create`. -/
def Create (a : Acknowledgements κ) : Option NetworkStackLatency :=
  if (mapIndex a.AcknowledgeMap a.CurrentTimestamp).length = 0 then none
  else some { Timestamp := a.CurrentTimestamp, NeedsResponse := true }

/-- The method `Validate`. -/
def Validate (a : Acknowledgements κ) : Acknowledgements κ × Bool :=
  if !a.HasTicked then (a, true)
  else
    let a := { a with HasTicked := false }
    if a.AcknowledgeMap.length = 0 then
      ({ a with awaitResTicks := 0 }, true)
    else
      let a := { a with awaitResTicks := (a.awaitResTicks + 1) % 2 ^ 64 }
      (a, decide (a.awaitResTicks < 200))

/-- The method `Clear`. -/
def Clear (a : Acknowledgements κ) : Acknowledgements κ :=
  { a with AcknowledgeMap := [], awaitResTicks := 0, acknowledgementOrder := [] }

/-- One call `Validate()` made right after the player ticked (`HasTicked = true`). -/
def tickedValidate (a : Acknowledgements κ) : Acknowledgements κ × Bool :=
  Validate { a with HasTicked := true }

/-- The returned values of `n` successive ticked `Validate()` calls with nothing
in between, oldest first, and the state they leave. -/
def tickedValidates (a : Acknowledgements κ) : Nat → Acknowledgements κ × List Bool
  | 0 => (a, [])
  | n + 1 =>
    let r := tickedValidate a
    let rest := tickedValidates r.1 n
    (rest.1, r.2 :: rest.2)

end Acknowledgements

/-- The method `Player.handleNetworkStackLatency`; the argument `acks` is what
`p.Acknowledgements()` returns, `none` for a nil pointer. -/
def Player.handleNetworkStackLatency {κ : Type} (acks : Option (Acknowledgements κ)) (i : Int) (ps4 : Bool) :
    Ran (Option (Acknowledgements κ)) κ Bool :=
  match acks with
  | none => { state := none, calls := [], ret := false }
  | some a =>
    if a.LegacyMode then
      let r := a.tryHandle i
      if ps4 && !r.ret then
        let i := Int.tdiv i 1000
        let r2 := r.state.tryHandle i
        { state := some r2.state, calls := r.calls ++ r2.calls, ret := r2.ret }
      else if ps4 then
        let m := mapDelete r.state.AcknowledgeMap (Int.tdiv i 1000)
        { state := some { r.state with AcknowledgeMap := m }, calls := r.calls, ret := r.ret }
      else
        { state := some r.state, calls := r.calls, ret := r.ret }
    else
      let i :=
        if ps4 then Int.tdiv i PlaystationNetworkStackLatencyDivider
        else Int.tdiv i DefaultNetworkStackLatencyDivider
      let r := a.tryHandle i
      if ps4 && r.ret then
        let i := Int.tdiv i PlaystationNetworkStackLatencyDivider
        let r2 := r.state.tryHandle i
        { state := some r2.state, calls := r.calls ++ r2.calls, ret := r2.ret }
      else
        { state := some r.state, calls := r.calls, ret := r.ret }

/-- What `Player.SendAck` leaves: the acknowledgements, the draws `Refresh` did
not use, the callbacks that were run and the packet handed to
`conn.WritePacket`, if any. -/
structure Sent (κ : Type) where
  acks : Acknowledgements κ
  draws : List Nat
  calls : List κ
  written : Option NetworkStackLatency
  deriving DecidableEq, Repr

/-- The deferred `acks.Refresh()` of `Player.SendAck`, run on the way out. -/
def Player.sendAckReturn {κ : Type} (acks : Acknowledgements κ) (draws : List Nat)
    (calls : List κ) (written : Option NetworkStackLatency) : Option (Sent κ) :=
  (acks.Refresh draws).map
    (fun r => { acks := r.1, draws := r.2, calls := calls, written := written })

/-- The method `Player.SendAck`; `orbis` is the value of
`p.ClientData().DeviceOS == protocol.DeviceOrbis`.  The result is `none` when
the draws run out before the deferred `Refresh` finds a free timestamp. -/
def Player.SendAck {κ : Type} (acks : Acknowledgements κ) (inDimensionChange orbis : Bool)
    (draws : List Nat) : Option (Sent κ) :=
  match acks.Create with
  | none => some { acks := acks, draws := draws, calls := [], written := none }
  | some pk =>
    let got := acks.GetMap acks.CurrentTimestamp
    if !got.2 then Player.sendAckReturn acks draws [] none
    else if got.1.length = 0 then
      Player.sendAckReturn (acks.Remove acks.CurrentTimestamp) draws [] none
    else if inDimensionChange then
      let r := acks.tryHandle acks.CurrentTimestamp
      Player.sendAckReturn (r.state.Remove r.state.CurrentTimestamp) draws r.calls none
    else
      let acks :=
        if orbis && acks.LegacyMode then
          acks.AddMap got.1 (Int.tdiv acks.CurrentTimestamp 1000)
        else acks
      Player.sendAckReturn acks draws [] (some pk)

/-- One step of an interleaving of calls on an `Acknowledgements` value.  `tick`
is the player setting `HasTicked = true`. -/
inductive AckOp (κ : Type) where
  | add (f : κ)
  | refresh (draws : List Nat)
  | tryHandle (i : Int)
  | tick
  | validate
  deriving DecidableEq, Repr

/-- What an interleaving lets one observe: the value returned by each `tryHandle`
and by each `Validate`, the latter with the `HasTicked` it was called under. -/
inductive AckEvent where
  | handled (found : Bool)
  | validated (ticked : Bool) (responsive : Bool)
  deriving DecidableEq, Repr

/-- One call of an interleaving: the state it leaves and what it lets one
observe; `none` when it is a `Refresh` that does not return. -/
def stepAckOp {κ : Type} (a : Acknowledgements κ) :
    AckOp κ → Option (Acknowledgements κ × List AckEvent)
  | AckOp.add f => some (a.Add f, [])
  | AckOp.refresh draws => (a.Refresh draws).map (fun p => (p.1, []))
  | AckOp.tryHandle i => some ((a.tryHandle i).state, [AckEvent.handled (a.tryHandle i).ret])
  | AckOp.tick => some ({ a with HasTicked := true }, [])
  | AckOp.validate => some (a.Validate.1, [AckEvent.validated a.HasTicked a.Validate.2])

/-- Runs an interleaving from left to right. -/
def runAckOps {κ : Type} (a : Acknowledgements κ) :
    List (AckOp κ) → Option (Acknowledgements κ × List AckEvent)
  | [] => some (a, [])
  | op :: ops =>
    match stepAckOp a op with
    | none => none
    | some (a, es) => (runAckOps a ops).map (fun p => (p.1, es ++ p.2))

/-- Whether key `k` is pending before the run and after each of its calls. -/
def pendingThroughout {κ : Type} (k : Int) (a : Acknowledgements κ) : List (AckOp κ) → Bool
  | [] => (mapGet a.AcknowledgeMap k).isSome
  | op :: ops =>
    (mapGet a.AcknowledgeMap k).isSome &&
      match stepAckOp a op with
      | none => false
      | some (a, _) => pendingThroughout k a ops

/-- Whether an event is a `Validate` call made with `HasTicked = true`. -/
def AckEvent.isTickedValidate : AckEvent → Bool
  | AckEvent.validated true _ => true
  | _ => false

/-- The number of `Validate` calls of a run that were made with `HasTicked = true`. -/
def tickedValidateCount (es : List AckEvent) : Nat :=
  es.countP AckEvent.isTickedValidate

/-- A state with two pending buckets, 1 and 2, and no tick counted yet. -/
def twoBucketState : Acknowledgements Nat :=
  { AcknowledgeMap := [(1, [0]), (2, [1])], CurrentTimestamp := 3, HasTicked := false,
    LegacyMode := false, acknowledgementOrder := [], awaitResTicks := 0 }

/-- The calls of `n` ticks: the player ticks, then `Validate()` is called. -/
def tickedValidateOps (n : Nat) : List (AckOp Nat) :=
  (List.replicate n [AckOp.tick, AckOp.validate]).flatten

/-- An interleaving with 200 ticked `Validate()` calls in which bucket 2 is
answered after the first 100 and bucket 1 is never answered. -/
def answerOtherBucketOps : List (AckOp Nat) :=
  tickedValidateOps 100 ++ [AckOp.tryHandle 2] ++ tickedValidateOps 100

/-! ## `check/reach.go`

`float64` values are rationals, and the arithmetic of the check is exact here
but for the average of the hit distances, which decides between the legitimate
and the raycast branch: its additions and its division are fields of `Geometry`,
so that they may round as `float64` does, and the average is compared with the
`float64` value of the literal `3.0001`.  Square roots and trigonometry live in
functions the check calls from other packages; they are fields of `Geometry`
too. -/

/-- The type `mgl64.Vec3`. -/
structure Vec3 where
  x : ℚ
  y : ℚ
  z : ℚ
  deriving DecidableEq, Repr

namespace Vec3

/-- The method `Vec3.Add`. -/
def Add (a b : Vec3) : Vec3 := ⟨a.x + b.x, a.y + b.y, a.z + b.z⟩

/-- The method `Vec3.Sub`. -/
def Sub (a b : Vec3) : Vec3 := ⟨a.x - b.x, a.y - b.y, a.z - b.z⟩

/-- The method `Vec3.Mul`, multiplication by a scalar. -/
def Mul (a : Vec3) (c : ℚ) : Vec3 := ⟨a.x * c, a.y * c, a.z * c⟩

end Vec3

/-- The type `cube.BBox`. -/
structure BBox where
  min : Vec3
  max : Vec3
  deriving DecidableEq, Repr

namespace BBox

/-- The method `BBox.Translate`. -/
def Translate (b : BBox) (v : Vec3) : BBox := ⟨b.min.Add v, b.max.Add v⟩

/-- The method `BBox.Grow`: every face moves outward by `d`. -/
def Grow (b : BBox) (d : ℚ) : BBox :=
  ⟨⟨b.min.x - d, b.min.y - d, b.min.z - d⟩, ⟨b.max.x + d, b.max.y + d, b.max.z + d⟩⟩

end BBox

/-- The functions the checks call from the packages `game`, `trace`, `physics`,
`math` and `mgl64`, none of which is part of the checks, and the two `float64`
operations with which `check/reach.go` averages the hit distances: what they
round to is left to the geometry, so that what is proved of the average holds
for the rounding of `float64`. -/
structure Geometry where
  /-- `game.AABBVectorDistance` -/
  AABBVectorDistance : BBox → Vec3 → ℚ
  /-- `game.DirectionVector`, applied to yaw and pitch -/
  DirectionVector : ℚ → ℚ → Vec3
  /-- `trace.BBoxIntercept`, giving `result.Position()` when `ok` -/
  BBoxIntercept : BBox → Vec3 → Vec3 → Option Vec3
  /-- `Vec3.Len` -/
  Len : Vec3 → ℚ
  /-- `game.Round` -/
  Round : ℚ → Nat → ℚ
  /-- `math.Hypot` -/
  Hypot : ℚ → ℚ → ℚ
  /-- `AABB.IntersectsWith` -/
  IntersectsWith : BBox → BBox → Bool
  /-- the `float64` sum of `distAvg += dist` -/
  AddFloat64 : ℚ → ℚ → ℚ
  /-- the `float64` quotient of `distAvg /= totalHits` -/
  DivFloat64 : ℚ → ℚ → ℚ

/-- The type `utils.AuthorityType` of `p.CombatMode()`. -/
inductive AuthorityType where
  | ModeClientAuthoritative
  | ModeSemiAuthoritative
  | ModeFullAuthoritative
  deriving DecidableEq, Repr

/-- The constant `protocol.UseItemOnEntityActionAttack`. -/
def UseItemOnEntityActionAttack : Nat := 1

/-- The constant `packet.InputModeTouch`. -/
def InputModeTouch : Nat := 2

/-- The struct `protocol.UseItemOnEntityTransactionData`, reduced to the fields
the check reads. -/
structure UseItemOnEntityTransactionData where
  TargetEntityRuntimeID : Nat
  ActionType : Nat
  Position : Vec3
  deriving DecidableEq, Repr

/-- The field `TransactionData` of an inventory transaction. -/
inductive TransactionData where
  | UseItemOnEntity (d : UseItemOnEntityTransactionData)
  | otherData
  deriving DecidableEq, Repr

/-- The packets the check tells apart. -/
inductive Packet where
  | InventoryTransaction (data : TransactionData)
  | PlayerAuthInput (InputMode : Nat)
  | otherPacket
  deriving DecidableEq, Repr

/-- An entity as `p.SearchEntity` returns it. -/
structure Entity where
  Position : Vec3
  LastPosition : Vec3
  AABB : BBox
  TeleportationTicks : Nat := 0
  deriving DecidableEq, Repr

/-- The attacker as `p.Entity()` returns it; a rotation holds the pitch in `x`
and the yaw in `z`. -/
structure PlayerEntity where
  Rotation : Vec3
  LastRotation : Vec3
  Position : Vec3 := ⟨0, 0, 0⟩
  LastPosition : Vec3 := ⟨0, 0, 0⟩
  AABB : BBox := ⟨⟨0, 0, 0⟩, ⟨0, 0, 0⟩⟩
  deriving DecidableEq, Repr

/-- Modelled from the spec: the embedded struct `basic` of every check, which
`check/reach.go` uses but does not declare; it carries the violation score and
the debounce buffer. -/
structure basic where
  violations : ℚ
  buffer : ℚ
  deriving DecidableEq, Repr

/-- Modelled from the spec: the method `basic.Buff`, which `check/reach.go` calls
but does not declare: it adds `delta` to the buffer, clamps the sum into
`[0, cap]` and returns the new value. -/
def basic.Buff (b : basic) (delta cap : ℚ) : basic × ℚ :=
  let v := max 0 (min cap (b.buffer + delta))
  ({ b with buffer := v }, v)

/-- The interface `Processor`, reduced to what the checks ask of it.
`TrackViolation` is what `Flag` does to the flagged check (`check.TrackViolation()`
in `Player.Flag`). -/
structure Processor where
  CombatMode : AuthorityType
  SearchEntity : Nat → Option Entity
  Entity : PlayerEntity
  TrackViolation : basic → basic
  ClientTick : Nat := 0
  ClientFrame : Nat := 0
  GameMode : Nat := 0
  Sneaking : Bool := false
  TakingKnockback : Bool := false
  OnGround : Bool := false
  OldServerMovement : Vec3 := ⟨0, 0, 0⟩
  ClientMovement : Vec3 := ⟨0, 0, 0⟩

/-- One call of `p.Flag`: the severity and the parameters `"type"` and `"dist"`. -/
structure FlagCall where
  severity : ℚ
  kind : String
  dist : Option ℚ
  deriving DecidableEq, Repr

/-- The constant `interpolationInterations`. -/
def interpolationInterations : Nat := 8

/-- The `float64` of the literal `3.0001` with which `check/reach.go` compares
the average hit distance: `6755624621037113 / 2^51`, which lies above 3.0001 by
less than `3 / 10^16`. -/
def legalAverage : ℚ := 6755624621037113 / 2251799813685248

/-- The struct `ReachA` of `check/reach.go`. -/
structure ReachA extends basic where
  attackData : Option UseItemOnEntityTransactionData
  currentEntPos : Vec3
  lastEntPos : Vec3
  cancelNext : Bool
  secondaryBuffer : ℚ
  deriving DecidableEq, Repr

/-- What a call of `Process` does: the check afterwards, the calls of `p.Flag`
in order, and the returned value. -/
structure Processed where
  check : ReachA
  flags : List FlagCall
  ret : Bool
  deriving DecidableEq, Repr

/-- The variables of the raycast loops. -/
structure RayState where
  entPos : Vec3
  rot : Vec3
  minDist : ℚ
  valid : Bool
  distAvg : ℚ
  totalHits : ℚ
  deriving DecidableEq, Repr

namespace ReachA

/-- The effect of `p.Flag(r, severity, ...)` on the check, after `Player.Flag`:
nothing for a severity of at most 0, `TrackViolation` otherwise. -/
def flagged (p : Processor) (r : ReachA) (severity : ℚ) : ReachA :=
  if severity ≤ 0 then r else { r with tobasic := p.TrackViolation r.tobasic }

/-- The call `r.Buff(delta, cap)` on the embedded `basic`. -/
def Buff (r : ReachA) (delta cap : ℚ) : ReachA × ℚ :=
  let b := r.tobasic.Buff delta cap
  ({ r with tobasic := b.1 }, b.2)

/-- The step `dPos` of the target position between two samples. -/
def dPos (r : ReachA) : Vec3 :=
  (r.currentEntPos.Sub r.lastEntPos).Mul (1 / (interpolationInterations : ℚ))

/-- One iteration `i` of the box-distance loop on `(bbDist, entPos)`. -/
def boxDistanceStep (g : Geometry) (e : Entity) (attackPos dPos : Vec3) (st : ℚ × Vec3)
    (i : Nat) : ℚ × Vec3 :=
  let entPos := if i ≠ 0 then st.2.Add dPos else st.2
  let bb := (e.AABB.Translate entPos).Grow (1 / 10)
  let dist := g.AABBVectorDistance bb attackPos
  (if st.1 > dist then dist else st.1, entPos)

/-- The box-distance loop: `bbDist` after its 8 iterations. -/
def boxDistance (g : Geometry) (e : Entity) (r : ReachA) (attackPos : Vec3) : ℚ :=
  ((List.range interpolationInterations).foldl
    (boxDistanceStep g e attackPos r.dPos) (6969, r.lastEntPos)).1

/-- One iteration `x` of the inner raycast loop. -/
def rayStep (g : Geometry) (e : Entity) (attackPos dRot : Vec3) (st : RayState) (x : Nat) :
    RayState :=
  let rot := if x ≠ 0 then st.rot.Add dRot else st.rot
  let bb := (e.AABB.Translate st.entPos).Grow (1 / 10)
  match g.BBoxIntercept bb attackPos (attackPos.Add (rot.Mul 7)) with
  | none => { st with rot := rot }
  | some hit =>
    let dist := g.Len (hit.Sub attackPos)
    { st with
      rot := rot
      valid := true
      distAvg := g.AddFloat64 st.distAvg dist
      totalHits := st.totalHits + 1
      minDist := if st.minDist > dist then dist else st.minDist }

/-- One iteration `i` of the outer raycast loop. -/
def rayOuterStep (g : Geometry) (e : Entity) (attackPos dPos dRot : Vec3) (st : RayState)
    (i : Nat) : RayState :=
  let entPos := if i ≠ 0 then st.entPos.Add dPos else st.entPos
  (List.range interpolationInterations).foldl (rayStep g e attackPos dRot)
    { st with entPos := entPos }

/-- The raycast loops: their variables after the 8 x 8 iterations. -/
def raycast (g : Geometry) (p : Processor) (e : Entity) (r : ReachA) (attackPos : Vec3) :
    RayState :=
  let rot := g.DirectionVector p.Entity.LastRotation.z p.Entity.LastRotation.x
  let dRot := ((g.DirectionVector p.Entity.Rotation.z p.Entity.Rotation.x).Sub rot).Mul
    (1 / (interpolationInterations : ℚ))
  (List.range interpolationInterations).foldl (rayOuterStep g e attackPos r.dPos dRot)
    { entPos := r.lastEntPos, rot := rot, minDist := 6969, valid := false,
      distAvg := 0, totalHits := 0 }

/-- The branch of `Process` for a `PlayerAuthInput` packet with an attack
pending, before the deferred `r.attackData = nil`. -/
def resolve (g : Geometry) (r : ReachA) (p : Processor) (InputMode : Nat)
    (d : UseItemOnEntityTransactionData) : Processed :=
  let attackPos := d.Position
  match p.SearchEntity d.TargetEntityRuntimeID with
  | none => { check := r, flags := [], ret := false }
  | some e =>
    let bbDist := boxDistance g e r attackPos
    if bbDist > 315 / 100 then
      let r := flagged p r 1
      { check := { r with cancelNext := true },
        flags := [{ severity := 1, kind := "bb-dist", dist := some (g.Round bbDist 4) }],
        ret := false }
    else
      let r := { r with violations := max 0 (r.violations - 1 / 1000) }
      if InputMode = InputModeTouch then { check := r, flags := [], ret := false }
      else
        let rs := raycast g p e r attackPos
        if !rs.valid then
          let b := r.Buff 1 5
          if b.2 ≥ 45 / 10 then
            let r := flagged p b.1 1
            { check := { r with cancelNext := true },
              flags := [{ severity := 1, kind := "hitbox", dist := none }], ret := false }
          else { check := b.1, flags := [], ret := false }
        else
          let r := (r.Buff (-25 / 1000) 5).1
          let distAvg := g.DivFloat64 rs.distAvg rs.totalHits
          if distAvg ≤ legalAverage then
            let r := { r with secondaryBuffer := max 0 (r.secondaryBuffer - 75 / 10000) }
            let r := { r with violations := max 0 (r.violations - 1 / 1000) }
            { check := r, flags := [], ret := false }
          else
            let r := { r with secondaryBuffer := r.secondaryBuffer + 1 }
            let r := { r with secondaryBuffer := min r.secondaryBuffer 5 }
            if r.secondaryBuffer > 1 then
              let r := flagged p r 1
              { check := { r with cancelNext := true },
                flags := [{ severity := 1, kind := "raycast", dist := some (g.Round distAvg 4) }],
                ret := false }
            else { check := { r with cancelNext := true }, flags := [], ret := false }

/-- The method `ReachA.Process`. -/
def Process (g : Geometry) (r : ReachA) (p : Processor) (pk : Packet) : Processed :=
  if p.CombatMode ≠ AuthorityType.ModeSemiAuthoritative then
    { check := r, flags := [], ret := false }
  else
    match pk with
    | Packet.InventoryTransaction t =>
      match t with
      | TransactionData.otherData => { check := r, flags := [], ret := false }
      | TransactionData.UseItemOnEntity d =>
        if d.ActionType ≠ UseItemOnEntityActionAttack then
          { check := r, flags := [], ret := false }
        else if r.cancelNext then
          { check := { r with cancelNext := false }, flags := [], ret := true }
        else
          match p.SearchEntity d.TargetEntityRuntimeID with
          | none => { check := r, flags := [], ret := false }
          | some e =>
            { check := { r with
                lastEntPos := e.LastPosition
                currentEntPos := e.Position
                attackData := some d },
              flags := [], ret := false }
    | Packet.PlayerAuthInput InputMode =>
      match r.attackData with
      | none => { check := r, flags := [], ret := false }
      | some d =>
        let out := resolve g r p InputMode d
        { out with check := { out.check with attackData := none } }
    | Packet.otherPacket => { check := r, flags := [], ret := false }

end ReachA

/-! ## `check/kill_aura_b.go`

The map `entities` holds pointers to entities; an entry is modelled by the
state of the entity it points to.  Go ranges over a map in no fixed order; the
model ranges in list order, and the minimum it computes does not depend on the
order (`minDistance_le`, `minDistance_attained`). -/

/-- The constant `math.MaxFloat64`. -/
def MaxFloat64 : ℚ := 2 ^ 1024 - 2 ^ 971

/-- The method `basic.violationAfterTicks`, which the checks call but do not
declare: from the `basic` of the check, the tick and the window, the severity
it returns and the `basic` it leaves. -/
abbrev ViolationAfterTicks := basic → Nat → ℚ → ℚ × basic

/-- The Go type `map[uint64]*entity.Entity`. -/
abbrev EntityMap := List (Nat × Entity)

/-- The assignment `m[id] = e`. -/
def entitySet (m : EntityMap) (id : Nat) (e : Entity) : EntityMap :=
  (id, e) :: m.filter (fun x => decide (x.1 ≠ id))

/-- The struct `KillAuraB`. -/
structure KillAuraB extends basic where
  entities : EntityMap
  deriving DecidableEq, Repr

/-- One call of `p.Flag` by `KillAuraB`: the severity and the parameters
`"Minimum Distance"` and `"Entities"`. -/
structure KillAuraFlag where
  severity : ℚ
  MinimumDistance : ℚ
  Entities : Nat
  deriving DecidableEq, Repr

/-- What a call of `KillAuraB.Process` does: the check afterwards, the calls of
`p.Flag` in order, and the returned value. -/
structure KillAuraProcessed where
  check : KillAuraB
  flags : List KillAuraFlag
  ret : Bool
  deriving DecidableEq, Repr

namespace KillAuraB

/-- The constructor `NewKillAuraB`. -/
def new : KillAuraB := { violations := 0, buffer := 0, entities := [] }

/-- The distance the inner loop computes for `data` and `subData`: from the box
of `data`, grown by 0.1 and moved to its last position, to the last position of
`subData`. -/
def pairDistance (g : Geometry) (data subData : Entity) : ℚ :=
  g.AABBVectorDistance ((data.AABB.Grow (1 / 10)).Translate data.LastPosition)
    subData.LastPosition

/-- The two nested loops over `k.entities`: `minDist` after them. -/
def minDistance (g : Geometry) (m : EntityMap) : ℚ :=
  m.foldl
    (fun minDist a =>
      m.foldl
        (fun minDist b =>
          if b.1 ≠ a.1 then min minDist (pairDistance g a.2 b.2) else minDist)
        minDist)
    MaxFloat64

/-- The effect of `p.Flag(k, severity, ...)` on the check, after `Player.Flag`:
nothing for a severity of at most 0, `TrackViolation` otherwise. -/
def flagged (p : Processor) (k : KillAuraB) (severity : ℚ) : KillAuraB :=
  if severity ≤ 0 then k else { k with tobasic := p.TrackViolation k.tobasic }

/-- The method `KillAuraB.Process`. -/
def Process (g : Geometry) (vat : ViolationAfterTicks) (k : KillAuraB) (p : Processor)
    (pk : Packet) : KillAuraProcessed :=
  match pk with
  | Packet.InventoryTransaction (TransactionData.UseItemOnEntity data) =>
    if data.ActionType = UseItemOnEntityActionAttack then
      match p.SearchEntity data.TargetEntityRuntimeID with
      | some e =>
        { check := { k with entities := entitySet k.entities data.TargetEntityRuntimeID e },
          flags := [], ret := false }
      | none => { check := k, flags := [], ret := false }
    else { check := k, flags := [], ret := false }
  | Packet.InventoryTransaction TransactionData.otherData =>
    { check := k, flags := [], ret := false }
  | Packet.PlayerAuthInput _ =>
    if k.entities.length > 1 then
      let minDist := minDistance g k.entities
      if minDist < MaxFloat64 ∧ minDist > 15 / 10 then
        let severity := vat k.tobasic p.ClientTick 40
        let k := { k with tobasic := severity.2 }
        { check := flagged p k severity.1,
          flags := [{ severity := severity.1, MinimumDistance := g.Round minDist 2,
                      Entities := k.entities.length }],
          ret := true }
      else { check := { k with entities := [] }, flags := [], ret := false }
    else { check := { k with entities := [] }, flags := [], ret := false }
  | Packet.otherPacket => { check := k, flags := [], ret := false }

end KillAuraB

/-! ## `check/velocity_b.go` -/

/-- The struct `VelocityB`. -/
structure VelocityB extends basic where
  deriving DecidableEq, Repr

/-- One call of `p.Flag` by `VelocityB`: the severity and the parameters `"pct"`
(the rounded number, without the percent sign), `"xDiff"` and `"zDiff"`. -/
structure VelocityFlag where
  severity : ℚ
  pct : ℚ
  xDiff : ℚ
  zDiff : ℚ
  deriving DecidableEq, Repr

/-- What a call of `VelocityB.Process` does. -/
structure VelocityProcessed where
  check : VelocityB
  flags : List VelocityFlag
  ret : Bool
  deriving DecidableEq, Repr

namespace VelocityB

/-- The effect of `p.Flag(v, severity, ...)` on the check, after `Player.Flag`. -/
def flagged (p : Processor) (v : VelocityB) (severity : ℚ) : VelocityB :=
  if severity ≤ 0 then v else { v with tobasic := p.TrackViolation v.tobasic }

/-- The method `VelocityB.Process`. -/
def Process (g : Geometry) (vat : ViolationAfterTicks) (v : VelocityB) (p : Processor)
    (pk : Packet) : VelocityProcessed :=
  match pk with
  | Packet.PlayerAuthInput _ =>
    if !p.TakingKnockback then { check := v, flags := [], ret := false }
    else
      let xKb := p.OldServerMovement.x
      let zKb := p.OldServerMovement.z
      let xDiff := |xKb - p.ClientMovement.x|
      let zDiff := |zKb - p.ClientMovement.z|
      let pct := (g.Hypot p.ClientMovement.x p.ClientMovement.z / g.Hypot xKb zKb) * 100
      let threshold : ℚ := if p.OnGround then 6 / 1000 else 1 / 10000
      if xDiff ≤ threshold ∧ zDiff ≤ threshold then
        { check := { v with violations := max 0 (v.violations - 2 / 10) },
          flags := [], ret := false }
      else
        let severity := vat v.tobasic p.ClientFrame 200
        let v := { v with tobasic := severity.2 }
        { check := flagged p v severity.1,
          flags := [{ severity := severity.1, pct := g.Round pct 4,
                      xDiff := g.Round xDiff 4, zDiff := g.Round zDiff 4 }],
          ret := false }
  | _ => { check := v, flags := [], ret := false }

end VelocityB

/-! ## `check/reach_a.go`

The file declares a second `ReachA`, kept apart here in the namespace
`reach_a`.  `Buff` is called there with and without a cap; the cap it uses when
none is given is the parameter `defaultCap`. -/

namespace reach_a

/-- The constant `packet.GameTypeSurvival`. -/
def GameTypeSurvival : Nat := 0

/-- The constant `packet.GameTypeAdventure`. -/
def GameTypeAdventure : Nat := 2

/-- The struct `ReachA` of `check/reach_a.go`. -/
structure ReachA extends basic where
  awaitingTick : Bool
  inputMode : Nat
  attackedEntity : Nat
  attackPos : Vec3
  deriving DecidableEq, Repr

/-- One call of `p.Flag` by this check: the severity and the parameters
`"Distance"` and `"Type"` (the field `kind`). -/
structure ReachFlag where
  severity : ℚ
  Distance : ℚ
  kind : String
  deriving DecidableEq, Repr

/-- What a call of `Process` does: the check afterwards and the calls of
`p.Flag` in order (`Process` returns nothing). -/
structure ReachProcessed where
  check : ReachA
  flags : List ReachFlag
  deriving DecidableEq, Repr

namespace ReachA

/-- The effect of `p.Flag(r, severity, ...)` on the check, after `Player.Flag`. -/
def flagged (p : Processor) (r : ReachA) (severity : ℚ) : ReachA :=
  if severity ≤ 0 then r else { r with tobasic := p.TrackViolation r.tobasic }

/-- The call `r.Buff(delta, cap)` on the embedded `basic`. -/
def Buff (r : ReachA) (delta cap : ℚ) : ReachA × ℚ :=
  let b := r.tobasic.Buff delta cap
  ({ r with tobasic := b.1 }, b.2)

/-- The call `p.Flag(r, r.violationAfterTicks(p.ClientTick(), 600), ...)`. -/
def flagWith (vat : ViolationAfterTicks) (p : Processor) (r : ReachA) (distance : ℚ)
    (kind : String) : ReachProcessed :=
  let severity := vat r.tobasic p.ClientTick 600
  let r := { r with tobasic := severity.2 }
  { check := flagged p r severity.1,
    flags := [{ severity := severity.1, Distance := distance, kind := kind }] }

/-- One iteration of the raycast loop, for the counter `i`, on
`(minDist, valid)`. -/
def rayStep (g : Geometry) (targetAABB : BBox) (lDv lPos dvDiff posDiff : Vec3)
    (st : ℚ × Bool) (i : Nat) : ℚ × Bool :=
  let uDv := if i ≠ 0 then lDv.Add (dvDiff.Mul (((1 / i : Nat) : ℚ))) else lDv
  let uPos := if i ≠ 0 then lPos.Add (posDiff.Mul (((1 / i : Nat) : ℚ))) else lPos
  match g.BBoxIntercept targetAABB uPos (uPos.Add (uDv.Mul 14)) with
  | some hit => (min st.1 (g.Len (hit.Sub uPos)), true)
  | none => st

/-- The values of the loop counter `i`, from 30 down to 1. -/
def rayCounters : List Nat := (List.range 30).map (fun j => 30 - j)

/-- The branch of `Process` for an attack in survival or adventure mode. -/
def attack (g : Geometry) (vat : ViolationAfterTicks) (defaultCap : ℚ) (r : ReachA)
    (p : Processor) (data : UseItemOnEntityTransactionData) : ReachProcessed :=
  let r := { r with attackedEntity := data.TargetEntityRuntimeID, attackPos := data.Position }
  let r := if p.Sneaking then
      { r with attackPos := ⟨r.attackPos.x, r.attackPos.y - 8 / 100, r.attackPos.z⟩ }
    else r
  match p.SearchEntity data.TargetEntityRuntimeID with
  | none => { check := r, flags := [] }
  | some t =>
    if t.TeleportationTicks ≥ 40 then
      if r.inputMode = InputModeTouch then
        let dist := g.AABBVectorDistance (t.AABB.Translate t.Position) r.attackPos
        if dist > 315 / 100 then
          let b := r.Buff 1 10
          if b.2 ≥ 5 then flagWith vat p b.1 (g.Round dist 4) "Raw"
          else { check := b.1, flags := [] }
        else
          let r := (r.Buff (-5 / 100) defaultCap).1
          { check := { r with violations := max (r.violations - 1 / 100) 0 }, flags := [] }
      else { check := { r with awaitingTick := true }, flags := [] }
    else { check := r, flags := [] }

/-- The branch of `Process` for a `PlayerAuthInput` packet while a tick is
awaited, before the closing `r.awaitingTick = false`. -/
def tick (g : Geometry) (vat : ViolationAfterTicks) (defaultCap : ℚ) (r : ReachA)
    (p : Processor) : ReachProcessed :=
  match p.SearchEntity r.attackedEntity with
  | none => { check := r, flags := [] }
  | some t =>
    let e := p.Entity
    let cDv := g.DirectionVector e.Rotation.z e.Rotation.x
    let lDv := g.DirectionVector e.LastRotation.z e.LastRotation.x
    let cPos := e.Position.Add ⟨0, 162 / 100, 0⟩
    let lPos := r.attackPos
    let cPos := if p.Sneaking then (⟨cPos.x, cPos.y - 8 / 100, cPos.z⟩ : Vec3) else cPos
    let aabb := e.AABB.Translate e.LastPosition
    let targetAABB := (t.AABB.Grow (1 / 10)).Translate t.LastPosition
    if !g.IntersectsWith aabb targetAABB then
      let dvDiff := cDv.Sub lDv
      let posDiff := cPos.Sub lPos
      let st := rayCounters.foldl (rayStep g targetAABB lDv lPos dvDiff posDiff) (69000, false)
      if st.2 then
        if st.1 ≥ 31 / 10 ∧ |st.1 - g.AABBVectorDistance targetAABB r.attackPos| < 4 / 10 then
          let b := r.Buff 1 6
          if b.2 ≥ 3 then flagWith vat p b.1 (g.Round st.1 2) "Raycast"
          else { check := b.1, flags := [] }
        else
          let r := (r.Buff (-1 / 100) defaultCap).1
          { check := { r with violations := max (r.violations - 75 / 10000) 0 }, flags := [] }
      else { check := r, flags := [] }
    else { check := r, flags := [] }

/-- The method `ReachA.Process` of `check/reach_a.go`. -/
def Process (g : Geometry) (vat : ViolationAfterTicks) (defaultCap : ℚ) (r : ReachA)
    (p : Processor) (pk : Packet) : ReachProcessed :=
  match pk with
  | Packet.InventoryTransaction (TransactionData.UseItemOnEntity data) =>
    if data.ActionType = UseItemOnEntityActionAttack then
      if p.GameMode = GameTypeSurvival ∨ p.GameMode = GameTypeAdventure then
        attack g vat defaultCap r p data
      else { check := r, flags := [] }
    else { check := r, flags := [] }
  | Packet.InventoryTransaction TransactionData.otherData => { check := r, flags := [] }
  | Packet.PlayerAuthInput InputMode =>
    let r := { r with inputMode := InputMode }
    if r.awaitingTick then
      let out := tick g vat defaultCap r p
      { out with check := { out.check with awaitingTick := false } }
    else { check := r, flags := [] }
  | Packet.otherPacket => { check := r, flags := [] }

end ReachA

/-- The body of the raycast loop after `uDv` and `uPos` are set: the ray from
`uPos` along `uDv`, on `(minDist, valid)`. -/
def castRay (g : Geometry) (targetAABB : BBox) (uDv uPos : Vec3) (st : ℚ × Bool) : ℚ × Bool :=
  match g.BBoxIntercept targetAABB uPos (uPos.Add (uDv.Mul 14)) with
  | some hit => (min st.1 (g.Len (hit.Sub uPos)), true)
  | none => st

end reach_a

/-! ## The violation-decay steps of the checks -/

/-- The four assignments that lower a violation score. -/
inductive DecayStep where
  /-- `r.violations = math.Max(0, r.violations-0.001)` in `check/reach.go` -/
  | reach
  /-- `r.violations = math.Max(r.violations-0.01, 0)` in `check/reach_a.go` -/
  | reachRaw
  /-- `r.violations = math.Max(r.violations-0.0075, 0)` in `check/reach_a.go` -/
  | reachRaycast
  /-- `v.violations = math.Max(0, v.violations-0.2)` in `check/velocity_b.go` -/
  | velocity
  deriving DecidableEq, Repr

/-- The violations a decay step leaves. -/
def DecayStep.apply : DecayStep → ℚ → ℚ
  | DecayStep.reach, v => max 0 (v - 1 / 1000)
  | DecayStep.reachRaw, v => max (v - 1 / 100) 0
  | DecayStep.reachRaycast, v => max (v - 75 / 10000) 0
  | DecayStep.velocity, v => max 0 (v - 2 / 10)

/-- The violations after the decay steps of a list, applied from left to right. -/
def decayAll (steps : List DecayStep) (v : ℚ) : ℚ :=
  steps.foldl (fun v step => step.apply v) v

/-! ## `player/player.go`: `Flag`, `Disconnect` and `Close`

The goroutine that `Flag` starts for the punishment is run to its end at the
point where it is started.  Closing a connection is taken to succeed. -/

/-- The methods of `check.Check` that `Player.Flag` calls: `Name()`,
`Violations()`, `MaxViolations()` and what `TrackViolation()` does to the
violations. -/
structure CheckView where
  Name : String × String
  Violations : ℚ
  MaxViolations : ℚ
  TrackViolation : ℚ → ℚ

/-- The `Handler` of the player: whether `HandleFlag` cancels its context, and
whether `HandlePunishment` cancels its context together with the message it
leaves behind the pointer it is given. -/
structure Handler where
  HandleFlag : String × String → Bool
  HandlePunishment : String × String → String → Bool × String

/-- The handler `NopHandler`. -/
def NopHandler : Handler :=
  { HandleFlag := fun _ => false
    HandlePunishment := fun _ message => (false, message) }

/-- What `Flag`, `Disconnect` and `Close` do that can be seen from outside. -/
inductive PlayerEvent where
  | handleFlag
  | logFlag
  | handlePunishment (message : String)
  | logPunishment
  | writeDisconnect (message : String)
  | connClose
  deriving DecidableEq, Repr

/-- The fields of `Player` that `Flag`, `Disconnect` and `Close` use, with the
events so far, oldest first. -/
structure PlayerState where
  closed : Bool
  events : List PlayerEvent
  deriving DecidableEq, Repr

namespace Player

/-- The method `Close`. -/
def Close (p : PlayerState) : PlayerState :=
  if p.closed then p
  else { closed := true, events := p.events ++ [PlayerEvent.connClose] }

/-- The method `Disconnect`. -/
def Disconnect (p : PlayerState) (reason : String) : PlayerState :=
  Close { p with events := p.events ++ [PlayerEvent.writeDisconnect reason] }

/-- The first statement of `Disconnect` alone, `p.conn.WritePacket(...)`: where
a goroutine running `Disconnect` stands before it calls `p.Close()`. -/
def disconnectWrite (p : PlayerState) (reason : String) : PlayerState :=
  { p with events := p.events ++ [PlayerEvent.writeDisconnect reason] }

/-- The message `Flag` formats for the punishment. -/
def punishmentMessage (name : String × String) : String :=
  "§7[§6oomph§7] §bCaught lackin!\n§6Reason: §b" ++ name.1 ++ name.2

/-- The method `Flag`. -/
def Flag (h : Handler) (p : PlayerState) (check : CheckView) (violations : ℚ) :
    PlayerState × CheckView :=
  if violations ≤ 0 then (p, check)
  else
    let name := check.Name
    let check := { check with Violations := check.TrackViolation check.Violations }
    let p := { p with events := p.events ++ [PlayerEvent.handleFlag] }
    if h.HandleFlag name then (p, check)
    else
      let p := { p with events := p.events ++ [PlayerEvent.logFlag] }
      if check.Violations ≥ check.MaxViolations then
        let message := punishmentMessage name
        let handled := h.HandlePunishment name message
        let p := { p with events := p.events ++ [PlayerEvent.handlePunishment message] }
        if handled.1 then (p, check)
        else
          let p := { p with events := p.events ++ [PlayerEvent.logPunishment] }
          (Disconnect p handled.2, check)
      else (p, check)

end Player

/-- The number of `Disconnect` packets handed to `conn.WritePacket`. -/
def disconnectCount (events : List PlayerEvent) : Nat :=
  events.countP (fun e => match e with
    | PlayerEvent.writeDisconnect _ => true
    | _ => false)

/-- A check "Reach" "A" with 14 of 15 violations whose `TrackViolation` adds 1. -/
def reachAtThreshold : CheckView :=
  { Name := ("Reach", "A"), Violations := 14, MaxViolations := 15,
    TrackViolation := fun v => v + 1 }

/-! ## `handler/combat.go`

`float32` values are exact rationals, as for the checks, so the rounding of the
accumulated `partialTicks` is not followed.  A `*entity.Entity` is an address:
`Deref` of the player gives the entity that stands behind it, and it stays
there when the registry no longer lists the entity.  `HandleClientPacket`
returns `true` on every path; the model returns the handler it leaves, or
`none` when the loop of `calculatePointingResults` does not come to an end. -/

/-- The constant `CombatPhaseNone`. -/
def CombatPhaseNone : Nat := 0

/-- The constant `CombatPhaseTransaction`. -/
def CombatPhaseTransaction : Nat := 1

/-- The constant `CombatPhaseTicked`. -/
def CombatPhaseTicked : Nat := 2

/-- The constant `packet.SoundEventAttackNoDamage`. -/
def SoundEventAttackNoDamage : Nat := 42

/-- The method `BBox.GrowVec3`: the faces move outward by the components of `v`. -/
def BBox.GrowVec3 (b : BBox) (v : Vec3) : BBox :=
  ⟨⟨b.min.x - v.x, b.min.y - v.y, b.min.z - v.z⟩, ⟨b.max.x + v.x, b.max.y + v.y, b.max.z + v.z⟩⟩

/-- The functions the handler calls: those of `Geometry` and
`game.ClosestPointToBBox`. -/
structure HandlerGeometry extends Geometry where
  /-- `game.ClosestPointToBBox` -/
  ClosestPointToBBox : Vec3 → BBox → Vec3

namespace entity

/-- The fields and the method `Box` of `entity.Entity` that the handler uses. -/
structure Entity where
  Position : Vec3
  Velocity : Vec3
  TicksSinceTeleport : Int
  IsPlayer : Bool
  Box : Vec3 → BBox

end entity

/-- The fields of `MovementHandler` that the combat handler reads. -/
structure MovementHandler where
  TicksSinceTeleport : Int
  Sneaking : Bool
  PrevClientPosition : Vec3
  ClientPosition : Vec3
  TeleportPos : Vec3
  PrevRotation : Vec3
  Rotation : Vec3
  deriving DecidableEq, Repr

/-- What the combat handler reads from `*player.Player`: the protocol id of
the connection with the constant `player.GameVersion1_20_10` it is compared to,
`ClientFrame`, the method `Find` of the entities handler (the address of the
entity listed under a runtime id), the entities behind the addresses, and the
movement handler. -/
structure CombatPlayer where
  ProtocolID : Int
  GameVersion1_20_10 : Int
  ClientFrame : Int
  Find : Nat → Option Nat
  Deref : Nat → entity.Entity
  Movement : MovementHandler

/-- The packets `HandleClientPacket` tells apart.  `MissedSwing` is the value
of `utils.HasFlag(pk.InputData, packet.InputFlagMissedSwing)`. -/
inductive ClientPacket where
  | InventoryTransaction (TransactionData : TransactionData)
  | PlayerAuthInput (InputMode : Nat) (MissedSwing : Bool)
  | Animate
  | LevelSoundEvent (SoundType : Nat)
  | otherPacket
  deriving DecidableEq, Repr

/-- The conversion of an integer to `int64`, wrapping at `2^63`. -/
def wrapInt64 (x : Int) : Int := (x + 2 ^ 63) % 2 ^ 64 - 2 ^ 63

/-- The struct `CombatHandler`. -/
structure CombatHandler where
  Phase : Nat
  TargetedEntity : Option Nat
  InterpolationStep : ℚ
  AttackOffset : ℚ
  StartAttackPos : Vec3
  EndAttackPos : Vec3
  ClosestRawDistance : ℚ
  ClosestDirectionalResults : List ℚ
  RaycastResults : List ℚ
  LastSwingTick : Int
  Clicking : Bool
  Clicks : List Int
  ClickDelay : Int
  LastClickTick : Int
  CPS : Int
  deriving DecidableEq, Repr

/-- The constructor `NewCombatHandler`. -/
def NewCombatHandler : CombatHandler :=
  { Phase := 0, TargetedEntity := none, InterpolationStep := 1 / 10, AttackOffset := 0,
    StartAttackPos := ⟨0, 0, 0⟩, EndAttackPos := ⟨0, 0, 0⟩, ClosestRawDistance := 0,
    ClosestDirectionalResults := [], RaycastResults := [], LastSwingTick := 0,
    Clicking := false, Clicks := [], ClickDelay := 0, LastClickTick := 0, CPS := 0 }

namespace CombatHandler

/-- The method `click`. -/
def click (h : CombatHandler) (p : CombatPlayer) : CombatHandler :=
  let currentTick := p.ClientFrame
  let h := { h with Clicking := true }
  let h :=
    if h.Clicks.length > 0 then
      { h with ClickDelay := wrapInt64 (wrapInt64 (currentTick - h.LastClickTick) * 50) }
    else { h with ClickDelay := 0 }
  let h := { h with Clicks := h.Clicks ++ [currentTick] }
  let clicks := h.Clicks.filter (fun clickTick => decide (wrapInt64 (currentTick - clickTick) ≤ 20))
  { h with LastClickTick := currentTick, Clicks := clicks, CPS := clicks.length }

/-- The method `Defer`. -/
def Defer (h : CombatHandler) : CombatHandler :=
  let h := if h.Phase = CombatPhaseTicked then { h with Phase := CombatPhaseNone } else h
  { h with Clicking := false }

/-- The rotation `attackRotation` of the sample at `partialTicks`. -/
def attackRotation (startRotation rotationDelta : Vec3) (partialTicks : ℚ) : Vec3 :=
  startRotation.Add (rotationDelta.Mul partialTicks)

/-- The body of the loop of `calculatePointingResults` for one value of
`partialTicks`, on `h.RaycastResults`.  `target` is the entity behind
`h.TargetedEntity`. -/
def pointingSample (g : HandlerGeometry) (target : entity.Entity)
    (StartAttackPos attackPosDelta startRotation rotationDelta startEntityPos entityPosDelta
      adjustFactor : Vec3) (partialTicks : ℚ) (RaycastResults : List ℚ) : List ℚ :=
  let attackPos := StartAttackPos.Add (attackPosDelta.Mul partialTicks)
  let attackRotation := attackRotation startRotation rotationDelta partialTicks
  let entityPos := startEntityPos.Add (entityPosDelta.Mul partialTicks)
  let directionVector := g.DirectionVector attackRotation.z attackRotation.x
  let entityBB := (target.Box entityPos).GrowVec3 adjustFactor
  match g.BBoxIntercept entityBB attackPos (attackPos.Add (directionVector.Mul 14)) with
  | some result => RaycastResults ++ [g.Len (attackPos.Sub result)]
  | none => RaycastResults

/-- The loop `for partialTicks := 0; partialTicks <= 1; partialTicks += step`
with at most `fuel` iterations: `none` when the loop has not ended by then. -/
def pointingLoop (body : ℚ → List ℚ → List ℚ) (step : ℚ) :
    Nat → ℚ → List ℚ → Option (List ℚ)
  | 0, partialTicks, results => if partialTicks ≤ 1 then none else some results
  | fuel + 1, partialTicks, results =>
    if partialTicks ≤ 1 then
      pointingLoop body step fuel (partialTicks + step) (body partialTicks results)
    else some results

/-- The method `calculatePointingResults`; `target` is the entity behind
`h.TargetedEntity`, which the caller has found not to be nil.  The loop is given
one iteration more than the quotient of 1 by the step, which lets it end for
every step above 0; for a step of at most 0 it does not end. -/
def calculatePointingResults (g : HandlerGeometry) (h : CombatHandler) (p : CombatPlayer)
    (target : entity.Entity) : Option CombatHandler :=
  let movementHandler := p.Movement
  let attackPosDelta := h.EndAttackPos.Sub h.StartAttackPos
  let h :=
    if movementHandler.TicksSinceTeleport = 0 then
      { h with StartAttackPos := movementHandler.TeleportPos.Add ⟨0, h.AttackOffset, 0⟩,
               EndAttackPos := movementHandler.TeleportPos.Add ⟨0, h.AttackOffset, 0⟩ }
    else h
  let startRotation := movementHandler.PrevRotation
  let endRotation := movementHandler.Rotation
  let rotationDelta := startRotation.Sub endRotation
  if g.Len rotationDelta ≥ 180 then some h
  else
    let startEntityPos := target.Position
    let endEntityPos := target.Position
    let entityPosDelta := endEntityPos.Sub startEntityPos
    let adjustFactor : Vec3 :=
      ⟨1 / 10 + |target.Velocity.x|, 1 / 10 + |target.Velocity.y|, 1 / 10 + |target.Velocity.z|⟩
    let h := { h with ClosestDirectionalResults := [], RaycastResults := [] }
    (pointingLoop
        (pointingSample g target h.StartAttackPos attackPosDelta startRotation rotationDelta
          startEntityPos entityPosDelta adjustFactor)
        h.InterpolationStep ((Int.floor (1 / h.InterpolationStep)).toNat + 1) 0
        h.RaycastResults).map
      (fun results => { h with RaycastResults := results })

/-- The method `HandleClientPacket`. -/
def HandleClientPacket (g : HandlerGeometry) (h : CombatHandler) (pk : ClientPacket)
    (p : CombatPlayer) : Option CombatHandler :=
  match pk with
  | ClientPacket.InventoryTransaction data =>
    if h.Phase ≠ CombatPhaseNone then some h
    else
      match data with
      | TransactionData.otherData => some h
      | TransactionData.UseItemOnEntity dat =>
        if dat.ActionType ≠ UseItemOnEntityActionAttack then some h
        else
          let h := h.click p
          match p.Find dat.TargetEntityRuntimeID with
          | none => some h
          | some address =>
            let entity := p.Deref address
            if entity.TicksSinceTeleport ≤ 20 ∨ entity.IsPlayer = false then some h
            else
              let movementHandler := p.Movement
              if movementHandler.TicksSinceTeleport ≤ 20 then some h
              else
                let h := { h with AttackOffset := 162 / 100 }
                let h := if movementHandler.Sneaking then { h with AttackOffset := 154 / 100 } else h
                let h :=
                  { h with
                    Phase := CombatPhaseTransaction
                    TargetedEntity := some address
                    StartAttackPos := movementHandler.PrevClientPosition.Add ⟨0, h.AttackOffset, 0⟩
                    EndAttackPos := movementHandler.ClientPosition.Add ⟨0, h.AttackOffset, 0⟩ }
                let entityBB := (entity.Box entity.Position).Grow (1 / 10)
                let point1 := g.ClosestPointToBBox h.StartAttackPos entityBB
                let point2 := g.ClosestPointToBBox h.EndAttackPos entityBB
                some { h with
                  ClosestRawDistance :=
                    min (g.Len (point1.Sub h.StartAttackPos)) (g.Len (point2.Sub h.EndAttackPos)) }
  | ClientPacket.PlayerAuthInput InputMode MissedSwing =>
    let h := if p.ProtocolID ≥ p.GameVersion1_20_10 ∧ MissedSwing = true then h.click p else h
    if h.Phase ≠ CombatPhaseTransaction then some h
    else
      let h := { h with Phase := CombatPhaseTicked }
      match h.TargetedEntity with
      | none => some { h with Phase := CombatPhaseNone }
      | some address =>
        if InputMode = InputModeTouch then some h
        else calculatePointingResults g h p (p.Deref address)
  | ClientPacket.Animate => some { h with LastSwingTick := p.ClientFrame }
  | ClientPacket.LevelSoundEvent SoundType =>
    if p.ProtocolID < p.GameVersion1_20_10 ∧ SoundType = SoundEventAttackNoDamage then
      some (h.click p)
    else some h
  | ClientPacket.otherPacket => some h

end CombatHandler

/-! ## `detection/kill_aura_a.go` and `detection/bad_packet_b.go`

`Fail` of `BaseDetection` is recorded as a call with the entries of its data in
the order they were set.  `int` is taken to be 64 bits wide. -/

namespace detection

/-- The packets the two detections tell apart. -/
inductive Packet where
  | InventoryTransaction (TransactionData : TransactionData)
  | MovePlayer (Position : Vec3)
  | PlayerAuthInput
  | otherPacket
  deriving DecidableEq, Repr

/-- What a call of `HandleClientPacket` of a detection does: the detection
afterwards, the data of the calls of `d.Fail` and the returned value. -/
structure Handled (σ : Type) where
  state : σ
  fails : List (List (String × Int))
  ret : Bool
  deriving DecidableEq, Repr

/-- What `KillAuraA` reads from `*player.Player`: `p.ClientCombat().LastSwing()`,
`p.ClientFrame`, and the level of the mining-fatigue effect when
`p.Effects().Get(packet.EffectMiningFatigue)` finds one. -/
structure KillAuraAPlayer where
  LastSwing : Int
  ClientFrame : Int
  MiningFatigue : Option Int
  deriving DecidableEq, Repr

/-- The struct `KillAuraA`: nothing besides the `BaseDetection`, which only
`Fail` touches. -/
structure KillAuraA where
  deriving DecidableEq, Repr

namespace KillAuraA

/-- The value `tickDiff` of `HandleClientPacket`, an `int64` difference. -/
def tickDiff (p : KillAuraAPlayer) : Int := wrapInt64 (p.ClientFrame - p.LastSwing)

/-- The value `maxTickDiff` of `HandleClientPacket`. -/
def maxTickDiff (p : KillAuraAPlayer) : Int :=
  match p.MiningFatigue with
  | some Level => wrapInt64 (10 + wrapInt64 Level)
  | none => 10

/-- The method `KillAuraA.HandleClientPacket`. -/
def HandleClientPacket (d : KillAuraA) (pk : Packet) (p : KillAuraAPlayer) : Handled KillAuraA :=
  match pk with
  | Packet.InventoryTransaction tpk =>
    let lastSwung := p.LastSwing
    match tpk with
    | TransactionData.UseItemOnEntity data =>
      if data.ActionType = UseItemOnEntityActionAttack then
        let currentTick := p.ClientFrame
        let tickDiff := tickDiff p
        let maxTickDiff := maxTickDiff p
        if tickDiff > maxTickDiff then
          { state := d
            fails := [[("tick_diff", tickDiff), ("current_tick", currentTick),
                       ("last_tick", lastSwung)]]
            ret := false }
        else { state := d, fails := [], ret := true }
      else { state := d, fails := [], ret := true }
    | TransactionData.otherData => { state := d, fails := [], ret := true }
  | _ => { state := d, fails := [], ret := true }

end KillAuraA

/-- The struct `BadPacketB`, without its `BaseDetection`. -/
structure BadPacketB where
  last : Int
  tick : Int
  deriving DecidableEq, Repr

/-- The constructor `NewBadPacketB`. -/
def NewBadPacketB : BadPacketB := { last := 0, tick := 0 }

/-- What `BadPacketB` reads from `*player.Player`: `p.Movement().NoClientPredictions()`
and, for the position of a `MovePlayer` packet, whether `p.World.GetChunk` of
the chunk position computed from it is not nil. -/
structure BadPacketBPlayer where
  NoClientPredictions : Bool
  ChunkLoaded : Vec3 → Bool

namespace BadPacketB

/-- The method `BadPacketB.HandleClientPacket`. -/
def HandleClientPacket (d : BadPacketB) (pk : Packet) (p : BadPacketBPlayer) :
    Handled BadPacketB :=
  match pk with
  | Packet.MovePlayer Position =>
    let speed := wrapInt64 (d.tick - d.last)
    if speed < 2 ∧ p.NoClientPredictions = false ∧ p.ChunkLoaded Position = true then
      { state := d, fails := [[("speed", speed)]], ret := false }
    else { state := d, fails := [], ret := true }
  | Packet.PlayerAuthInput =>
    { state := { d with tick := wrapInt64 (d.tick + 1) }, fails := [], ret := true }
  | _ => { state := d, fails := [], ret := true }

/-- The detection after a run of packets, each with the player as it is when
the packet arrives, and what each call did, oldest first. -/
def run (d : BadPacketB) :
    List (Packet × BadPacketBPlayer) → BadPacketB × List (List (List (String × Int)) × Bool)
  | [] => (d, [])
  | (pk, p) :: rest =>
    let r := HandleClientPacket d pk p
    let out := run r.state rest
    (out.1, (r.fails, r.ret) :: out.2)

end BadPacketB

/-- The number of `PlayerAuthInput` packets in a run. -/
def authInputs (pks : List (Packet × BadPacketBPlayer)) : Nat :=
  pks.countP (fun x => decide (x.1 = Packet.PlayerAuthInput))

end detection

/-- The fields of `Player` that `Click` uses, with `clientTick`, the value of
`p.ClientTick()`. -/
structure PlayerClicks where
  clientTick : Nat
  clicking : Bool
  clicks : List Nat
  lastClickTick : Nat
  clickDelay : Nat
  cps : Int
  deriving DecidableEq, Repr

/-- The `uint64` difference `a - b`, wrapping at `2^64`. -/
def subUint64 (a b : Nat) : Nat := (a + (2 ^ 64 - b % 2 ^ 64)) % 2 ^ 64

/-- The method `Player.Click`. -/
def Player.Click (p : PlayerClicks) : PlayerClicks :=
  let currentTick := p.clientTick
  let p := { p with clicking := true }
  let p :=
    if p.clicks.length > 0 then
      { p with clickDelay := (subUint64 currentTick p.lastClickTick * 50) % 2 ^ 64 }
    else { p with clickDelay := 0 }
  let p := { p with clicks := p.clicks ++ [currentTick] }
  let clicks := p.clicks.filter (fun clickTick => decide (subUint64 currentTick clickTick ≤ 20))
  { p with lastClickTick := currentTick, clicks := clicks, cps := clicks.length }

/-! ## `utils/text.go`

A Go string is the list of its bytes, so `len` is the length of the list; the
byte of a space is 32 and the byte of a newline is 10. -/

/-- The function `strings.Repeat`, which panics (`none`) on a negative count. -/
def stringsRepeat (s : List Nat) (count : Int) : Option (List Nat) :=
  if count < 0 then none else some (List.replicate count.toNat s).flatten

/-- The function `strings.Join`. -/
def stringsJoin : List (List Nat) → List Nat → List Nat
  | [], _ => []
  | [a], _ => a
  | a :: b :: rest, sep => a ++ sep ++ stringsJoin (b :: rest) sep

/-- The first loop of `CenterAlignText`: `maxLength` after it. -/
def longestLength (text : List (List Nat)) : Int :=
  text.foldl
    (fun maxLength line => if (line.length : Int) > maxLength then (line.length : Int) else maxLength)
    0

/-- The body of the second loop of `CenterAlignText`: `centeredLine` for `line`. -/
def centerLine (maxLength : Int) (line : List Nat) : Option (List Nat) :=
  let totalSpaces := maxLength - line.length
  let leftPadding := Int.tdiv totalSpaces 2
  match stringsRepeat [32] leftPadding, stringsRepeat [32] (totalSpaces - leftPadding) with
  | some left, some right => some (left ++ line ++ right)
  | _, _ => none

/-- The second loop of `CenterAlignText`, on `centeredLines`. -/
def centerLines (maxLength : Int) : List (List Nat) → List (List Nat) → Option (List (List Nat))
  | [], centeredLines => some centeredLines
  | line :: rest, centeredLines =>
    match centerLine maxLength line with
    | some centeredLine => centerLines maxLength rest (centeredLines ++ [centeredLine])
    | none => none

/-- The function `CenterAlignText`: `none` would be a panic of `strings.Repeat`. -/
def CenterAlignText (text : List (List Nat)) : Option (List Nat) :=
  if text.length = 0 then some []
  else
    (centerLines (longestLength text) text []).map
      (fun centeredLines => stringsJoin centeredLines [10])

/-- The line of the claim for an input: the input with `(max - len) / 2` spaces
before it and the remaining spaces after it. -/
def centeredAsClaimed (max : Nat) (line : List Nat) : List Nat :=
  List.replicate ((max - line.length) / 2) 32 ++ line
    ++ List.replicate ((max - line.length) - (max - line.length) / 2) 32

/-! ## A concrete geometry

The functions of `Geometry` written out over the rationals, for evaluating the
check on concrete scenes.  Square roots are exact on squares of rationals and
rounded down otherwise; sines and cosines are exact at 0, 90, -90 and 180
degrees, which is where the scenes below use them. -/

/-- Newton's iteration for the integer square root of `n` from the guess `g`,
for at most `fuel` steps. -/
def natSqrtFrom (n : Nat) : Nat → Nat → Nat
  | 0, g => g
  | fuel + 1, g =>
    let next := (g + n / g) / 2
    if next < g then natSqrtFrom n fuel next else g

/-- The integer square root, rounded down. -/
def natSqrt (n : Nat) : Nat :=
  if n ≤ 1 then n else natSqrtFrom n n (n / 2)

/-- The square root of a non-negative rational `a / b`, as `sqrt (a * b) / b`. -/
def sqrtQ (q : ℚ) : ℚ := (natSqrt (q.num.toNat * q.den) : ℚ) / (q.den : ℚ)

/-- The sine of an angle in degrees, at the right angles. -/
def sinDeg (d : ℚ) : ℚ := if d = 90 then 1 else if d = -90 then -1 else 0

/-- The cosine of an angle in degrees, at the right angles. -/
def cosDeg (d : ℚ) : ℚ := if d = 0 then 1 else if d = 180 ∨ d = -180 then -1 else 0

/-- The Euclidean length of a vector. -/
def vecLen (v : Vec3) : ℚ := sqrtQ (v.x * v.x + v.y * v.y + v.z * v.z)

/-- The distance from a point to a box: the length of the per-axis gaps. -/
def boxPointDistance (b : BBox) (v : Vec3) : ℚ :=
  let x := max (b.min.x - v.x) (max 0 (v.x - b.max.x))
  let y := max (b.min.y - v.y) (max 0 (v.y - b.max.y))
  let z := max (b.min.z - v.z) (max 0 (v.z - b.max.z))
  vecLen ⟨x, y, z⟩

/-- The direction of a yaw and a pitch given in degrees. -/
def directionOf (yaw pitch : ℚ) : Vec3 :=
  let m := cosDeg pitch
  ⟨-m * sinDeg yaw, -sinDeg pitch, m * cosDeg yaw⟩

/-- The point of the segment from `s` to `e` on the plane `x = c`, if any. -/
def onLineWithX (s e : Vec3) (c : ℚ) : Option Vec3 :=
  if e.x = s.x then none
  else
    let f := (c - s.x) / (e.x - s.x)
    if f < 0 ∨ f > 1 then none
    else some ⟨c, s.y + (e.y - s.y) * f, s.z + (e.z - s.z) * f⟩

/-- The point of the segment from `s` to `e` on the plane `y = c`, if any. -/
def onLineWithY (s e : Vec3) (c : ℚ) : Option Vec3 :=
  if e.y = s.y then none
  else
    let f := (c - s.y) / (e.y - s.y)
    if f < 0 ∨ f > 1 then none
    else some ⟨s.x + (e.x - s.x) * f, c, s.z + (e.z - s.z) * f⟩

/-- The point of the segment from `s` to `e` on the plane `z = c`, if any. -/
def onLineWithZ (s e : Vec3) (c : ℚ) : Option Vec3 :=
  if e.z = s.z then none
  else
    let f := (c - s.z) / (e.z - s.z)
    if f < 0 ∨ f > 1 then none
    else some ⟨s.x + (e.x - s.x) * f, s.y + (e.y - s.y) * f, c⟩

/-- Keeps a candidate point when it satisfies `inside`. -/
def keepIf (inside : Vec3 → Bool) : Option Vec3 → Option Vec3
  | some v => if inside v then some v else none
  | none => none

/-- The nearer to `s` of the best point so far and a candidate. -/
def nearerTo (s : Vec3) (best : Option Vec3) (cand : Option Vec3) : Option Vec3 :=
  match best, cand with
  | b, none => b
  | none, some v => some v
  | some b, some v =>
    let db := (s.Sub b).x * (s.Sub b).x + (s.Sub b).y * (s.Sub b).y + (s.Sub b).z * (s.Sub b).z
    let dv := (s.Sub v).x * (s.Sub v).x + (s.Sub v).y * (s.Sub v).y + (s.Sub v).z * (s.Sub v).z
    if dv < db then some v else some b

/-- The first point at which the segment from `s` to `e` meets a face of the
box, if it meets one. -/
def segmentBoxIntercept (b : BBox) (s e : Vec3) : Option Vec3 :=
  let inYZ := fun v : Vec3 =>
    decide (b.min.y ≤ v.y ∧ v.y ≤ b.max.y ∧ b.min.z ≤ v.z ∧ v.z ≤ b.max.z)
  let inXZ := fun v : Vec3 =>
    decide (b.min.x ≤ v.x ∧ v.x ≤ b.max.x ∧ b.min.z ≤ v.z ∧ v.z ≤ b.max.z)
  let inXY := fun v : Vec3 =>
    decide (b.min.x ≤ v.x ∧ v.x ≤ b.max.x ∧ b.min.y ≤ v.y ∧ v.y ≤ b.max.y)
  [keepIf inYZ (onLineWithX s e b.min.x), keepIf inYZ (onLineWithX s e b.max.x),
   keepIf inXZ (onLineWithY s e b.min.y), keepIf inXZ (onLineWithY s e b.max.y),
   keepIf inXY (onLineWithZ s e b.min.z), keepIf inXY (onLineWithZ s e b.max.z)].foldl
    (nearerTo s) none

/-- Rounding to `n` decimals, halves upward. -/
def roundTo (q : ℚ) (n : Nat) : ℚ := (Int.floor (q * 10 ^ n + 1 / 2) : ℚ) / 10 ^ n

/-- The concrete geometry, exact throughout: its sum and its quotient do not
round. -/
def exactGeometry : Geometry :=
  { AABBVectorDistance := boxPointDistance
    DirectionVector := directionOf
    BBoxIntercept := segmentBoxIntercept
    Len := vecLen
    Round := roundTo
    Hypot := fun x y => sqrtQ (x * x + y * y)
    IntersectsWith := fun a b =>
      decide (b.min.x < a.max.x ∧ a.min.x < b.max.x ∧ b.min.y < a.max.y ∧ a.min.y < b.max.y ∧
        b.min.z < a.max.z ∧ a.min.z < b.max.z)
    AddFloat64 := fun a b => a + b
    DivFloat64 := fun a b => a / b }

/-! ## The rounding of `float64`

Go computes a `float64` sum or quotient as the exact result rounded to the
nearest `float64`, a tie going to the even mantissa (IEEE 754 binary64, 53 bits
of mantissa).  Values too large or too small for a normal `float64` are not
followed. -/

/-- The scaling of a positive rational into the range of a 53-bit mantissa:
`(m, e)` with `m * 2^e` the value and `2^52 <= m < 2^53`, found in at most
`fuel` doublings or halvings. -/
def float64Scale : Nat → ℚ → Int → ℚ × Int
  | 0, m, e => (m, e)
  | fuel + 1, m, e =>
    if m < 2 ^ 52 then float64Scale fuel (m * 2) (e - 1)
    else if m ≥ 2 ^ 53 then float64Scale fuel (m / 2) (e + 1)
    else (m, e)

/-- The integer nearest to a rational, a tie going to the even one. -/
def roundHalfEven (m : ℚ) : Int :=
  let f := Int.floor m
  if m - f < 1 / 2 then f
  else if m - f > 1 / 2 then f + 1
  else if f % 2 = 0 then f else f + 1

/-- The `float64` nearest to a rational. -/
def float64Round (q : ℚ) : ℚ :=
  if q = 0 then 0
  else
    let s := float64Scale 2200 |q| 0
    let m : ℚ := roundHalfEven s.1
    let v := if s.2 ≥ 0 then m * 2 ^ s.2.toNat else m / 2 ^ (-s.2).toNat
    if q < 0 then -v else v

/-- The `float64` sum. -/
def float64Add (a b : ℚ) : ℚ := float64Round (a + b)

/-- The `float64` quotient. -/
def float64Div (a b : ℚ) : ℚ := float64Round (a / b)

/-- A geometry that reports what it is told to: every box is `boxDist` away from
every point, every ray meets its box `hitDist` further along the z axis than it
starts, and the length of a vector is the sum of the sizes of its components,
which is its length when it runs along an axis.  The sum and the quotient of
the average round as `float64` does. -/
def reportingGeometry (boxDist hitDist : ℚ) : Geometry :=
  { AABBVectorDistance := fun _ _ => boxDist
    DirectionVector := fun _ _ => ⟨0, 0, 1⟩
    BBoxIntercept := fun _ start _ => some (start.Add ⟨0, 0, hitDist⟩)
    Len := fun v => |v.x| + |v.y| + |v.z|
    Round := roundTo
    Hypot := fun x y => |x| + |y|
    IntersectsWith := fun _ _ => false
    AddFloat64 := float64Add
    DivFloat64 := float64Div }

/-- The `float64` just below the `float64` of the literal 3.0001, printed by Go
as 3.0000999999999998: it is `844453077629639 / 2^48`. -/
def justBelowLegal : ℚ := 844453077629639 / 281474976710656


/-- A target whose box, 0.6 wide and 1.8 high, is centred `dist` units in front
of the origin along the z axis, and which does not move. -/
def stillTarget (dist : ℚ) : Entity :=
  { Position := ⟨0, -9 / 10, dist⟩
    LastPosition := ⟨0, -9 / 10, dist⟩
    AABB := ⟨⟨-3 / 10, 0, -3 / 10⟩, ⟨3 / 10, 9 / 5, 3 / 10⟩⟩ }

/-- A processor in semi-authoritative mode that knows the entity 1 as
`stillTarget dist`, with the attacker looking along the z axis (yaw 0, pitch 0)
and a `TrackViolation` that adds 1 to the violations. -/
def sceneProcessor (dist : ℚ) : Processor :=
  { CombatMode := AuthorityType.ModeSemiAuthoritative
    SearchEntity := fun id => if id = 1 then some (stillTarget dist) else none
    Entity := { Rotation := ⟨0, 0, 0⟩, LastRotation := ⟨0, 0, 0⟩ }
    TrackViolation := fun b => { b with violations := b.violations + 1 } }

/-- The attack on entity 1 claimed from the origin. -/
def originAttack : UseItemOnEntityTransactionData :=
  { TargetEntityRuntimeID := 1, ActionType := UseItemOnEntityActionAttack, Position := ⟨0, 0, 0⟩ }

/-- The check with `originAttack` pending on `stillTarget dist`, 3 violations,
a buffer of 1 and a secondary buffer of 1/2. -/
def pendingCheck (dist : ℚ) : ReachA :=
  { violations := 3, buffer := 1, attackData := some originAttack,
    currentEntPos := (stillTarget dist).Position, lastEntPos := (stillTarget dist).LastPosition,
    cancelNext := false, secondaryBuffer := 1 / 2 }

/-- The processor of `sceneProcessor dist` with the attacker looking away from
the target, along the negative z axis (yaw 180), before and after the tick. -/
def awayProcessor (dist : ℚ) : Processor :=
  { sceneProcessor dist with
    Entity := { Rotation := ⟨0, 0, 180⟩, LastRotation := ⟨0, 0, 180⟩ } }

/-- The processor of `sceneProcessor dist` with the attacker turning during the
tick from the z axis (yaw 0) to the x axis (yaw -90). -/
def turningProcessor (dist : ℚ) : Processor :=
  { sceneProcessor dist with
    Entity := { Rotation := ⟨0, 0, -90⟩, LastRotation := ⟨0, 0, 0⟩ } }

/-- The attack packet carrying `originAttack`. -/
def originAttackPacket : Packet :=
  Packet.InventoryTransaction (TransactionData.UseItemOnEntity originAttack)

namespace ReachA

/-- One attack followed by its resolution: `Process` on the attack packet
carrying `d`, then on a `PlayerAuthInput` packet. -/
def attackRound (g : Geometry) (p : Processor) (d : UseItemOnEntityTransactionData)
    (InputMode : Nat) (r : ReachA) : Processed :=
  (r.Process g p (Packet.InventoryTransaction (TransactionData.UseItemOnEntity d))).check.Process
    g p (Packet.PlayerAuthInput InputMode)

/-- The flags of `n` consecutive rounds `attackRound`, one list per round. -/
def attackRounds (g : Geometry) (p : Processor) (d : UseItemOnEntityTransactionData)
    (InputMode : Nat) : Nat → ReachA → List (List FlagCall)
  | 0, _ => []
  | n + 1, r =>
    (attackRound g p d InputMode r).flags ::
      attackRounds g p d InputMode n (attackRound g p d InputMode r).check

end ReachA

/-- A target with a box 0.6 wide and 1.8 high standing still at `pos`. -/
def targetAt (pos : Vec3) : Entity :=
  { Position := pos, LastPosition := pos,
    AABB := ⟨⟨-3 / 10, 0, -3 / 10⟩, ⟨3 / 10, 9 / 5, 3 / 10⟩⟩ }

/-- A processor that knows two targets whose positions are `gap` units apart
along the x axis: entity 1 at the origin and entity 2 at `(gap, 0, 0)`. -/
def twoTargetProcessor (gap : ℚ) : Processor :=
  { CombatMode := AuthorityType.ModeSemiAuthoritative
    SearchEntity := fun id =>
      if id = 1 then some (targetAt ⟨0, 0, 0⟩)
      else if id = 2 then some (targetAt ⟨gap, 0, 0⟩) else none
    Entity := { Rotation := ⟨0, 0, 0⟩, LastRotation := ⟨0, 0, 0⟩ }
    TrackViolation := fun b => { b with violations := b.violations + 1 } }

/-- The attack packet on the entity `id`. -/
def attackPacketOn (id : Nat) : Packet :=
  Packet.InventoryTransaction (TransactionData.UseItemOnEntity
    { TargetEntityRuntimeID := id, ActionType := UseItemOnEntityActionAttack,
      Position := ⟨0, 0, 0⟩ })

/-- A `violationAfterTicks` that always answers with severity 1 and leaves the
check alone. -/
def unitSeverity : ViolationAfterTicks := fun b _ _ => (1, b)

/-- The check after attacks on the entities 1 and 2 of `twoTargetProcessor gap`,
starting from `NewKillAuraB()`. -/
def twoAttacked (gap : ℚ) : KillAuraB :=
  ((KillAuraB.new.Process exactGeometry unitSeverity (twoTargetProcessor gap)
      (attackPacketOn 1)).check.Process exactGeometry unitSeverity (twoTargetProcessor gap)
      (attackPacketOn 2)).check

/-- A legacy-mode `Acknowledgements` whose current bucket, under the timestamp
5000, holds the one callback 7. -/
def legacyPending : Acknowledgements Nat :=
  { AcknowledgeMap := [(5000, [7])], CurrentTimestamp := 5000, HasTicked := false,
    LegacyMode := true, acknowledgementOrder := [], awaitResTicks := 0 }

/-- The acknowledgements after `SendAck` for a Playstation client on
`legacyPending`, the deferred `Refresh` drawing 9. -/
def legacySent : Option (Acknowledgements Nat) :=
  (Player.SendAck legacyPending false true [9]).map (fun s => s.acks)

/-- An attacker at the origin who looked along the z axis on the last tick and
looks along the x axis now, and a target standing still at `(3, 0, 3)`. -/
def quarterTurnProcessor : Processor :=
  { CombatMode := AuthorityType.ModeSemiAuthoritative
    SearchEntity := fun id => if id = 1 then some (targetAt ⟨3, 0, 3⟩) else none
    Entity := { Rotation := ⟨0, 0, -90⟩, LastRotation := ⟨0, 0, 0⟩,
                Position := ⟨0, 0, 0⟩, LastPosition := ⟨0, 0, 0⟩,
                AABB := ⟨⟨-3 / 10, 0, -3 / 10⟩, ⟨3 / 10, 9 / 5, 3 / 10⟩⟩ }
    TrackViolation := fun b => { b with violations := b.violations + 1 } }

/-- The check of `check/reach_a.go` awaiting the tick after an attack on the
entity 1 from the eye position `(0, 1.62, 0)`. -/
def quarterTurnCheck : reach_a.ReachA :=
  { violations := 0, buffer := 0, awaitingTick := true, inputMode := 1, attackedEntity := 1,
    attackPos := ⟨0, 162 / 100, 0⟩ }

/-- The point of a box nearest to a point: each coordinate brought into the
range of the box. -/
def clampToBox (v : Vec3) (b : BBox) : Vec3 :=
  ⟨max b.min.x (min v.x b.max.x), max b.min.y (min v.y b.max.y), max b.min.z (min v.z b.max.z)⟩

/-- The concrete geometry of the handler. -/
def exactHandlerGeometry : HandlerGeometry :=
  { exactGeometry with ClosestPointToBBox := clampToBox }

/-- A player entity with a box 0.6 wide and 1.8 high, standing still at `pos`,
not teleported for 100 ticks. -/
def playerAt (pos : Vec3) : entity.Entity :=
  { Position := pos, Velocity := ⟨0, 0, 0⟩, TicksSinceTeleport := 100, IsPlayer := true
    Box := fun position => (⟨⟨-3 / 10, 0, -3 / 10⟩, ⟨3 / 10, 9 / 5, 3 / 10⟩⟩ : BBox).Translate position }

/-- An attacker standing at the origin, not teleported for 100 ticks, who turned
from `prevRotation` to `rotation`; the entity `playerAt pos` stands behind the
address 0 and the registry lists it under the runtime id 1 when `listed`. -/
def combatScene (pos prevRotation rotation : Vec3) (listed : Bool) : CombatPlayer :=
  { ProtocolID := 600, GameVersion1_20_10 := 594, ClientFrame := 10
    Find := fun id => if listed ∧ id = 1 then some 0 else none
    Deref := fun _ => playerAt pos
    Movement :=
      { TicksSinceTeleport := 100, Sneaking := false, PrevClientPosition := ⟨0, 0, 0⟩,
        ClientPosition := ⟨0, 0, 0⟩, TeleportPos := ⟨0, 0, 0⟩, PrevRotation := prevRotation,
        Rotation := rotation } }

/-- The handler after the attack packet on the entity 1 of `combatScene`, while
the registry lists it, starting from `NewCombatHandler()` with the
interpolation step `step`. -/
def afterAttack (step : ℚ) (pos prevRotation rotation : Vec3) : Option CombatHandler :=
  CombatHandler.HandleClientPacket exactHandlerGeometry
    { NewCombatHandler with InterpolationStep := step }
    (ClientPacket.InventoryTransaction (TransactionData.UseItemOnEntity originAttack))
    (combatScene pos prevRotation rotation true)

/-- The handler that holds the attack of `afterAttack` on a target 3 units
away along an axis, with its one click at the frame 10. -/
def heldAttack (step : ℚ) : CombatHandler :=
  { Phase := CombatPhaseTransaction, TargetedEntity := some 0, InterpolationStep := step,
    AttackOffset := 162 / 100, StartAttackPos := ⟨0, 162 / 100, 0⟩,
    EndAttackPos := ⟨0, 162 / 100, 0⟩, ClosestRawDistance := 13 / 5,
    ClosestDirectionalResults := [], RaycastResults := [], LastSwingTick := 0,
    Clicking := true, Clicks := [10], ClickDelay := 0, LastClickTick := 10, CPS := 1 }

/-- A player who predicts movement on the client and stands in a loaded chunk. -/
def predictingPlayer : detection.BadPacketBPlayer :=
  { NoClientPredictions := false, ChunkLoaded := fun _ => true }

/-- The handler after a first attack, on a target 3 units ahead, was resolved
by a `PlayerAuthInput` packet with mouse input. -/
def earlierAttackResolved : Option CombatHandler :=
  (afterAttack (1 / 2) ⟨0, 0, 3⟩ ⟨0, 0, 0⟩ ⟨0, 0, 0⟩).bind (fun h =>
    CombatHandler.HandleClientPacket exactHandlerGeometry h (ClientPacket.PlayerAuthInput 1 false)
      (combatScene ⟨0, 0, 3⟩ ⟨0, 0, 0⟩ ⟨0, 0, 0⟩ true))

/-- The handler of `earlierAttackResolved` after `Defer` and a second attack, on
a target 8 units ahead. -/
def secondAttackHeld : Option CombatHandler :=
  earlierAttackResolved.bind (fun h =>
    CombatHandler.HandleClientPacket exactHandlerGeometry h.Defer
      (ClientPacket.InventoryTransaction (TransactionData.UseItemOnEntity originAttack))
      (combatScene ⟨0, 0, 8⟩ ⟨0, 0, 0⟩ ⟨0, 0, 0⟩ true))

/-- The constructor `NewReachA` of `check/reach.go`. -/
def NewReachA : ReachA :=
  { violations := 0, buffer := 0, attackData := none, currentEntPos := ⟨0, 0, 0⟩,
    lastEntPos := ⟨0, 0, 0⟩, cancelNext := false, secondaryBuffer := 0 }

/-- The processor of `sceneProcessor dist` in the full-authoritative mode and
with no entity known to it. -/
def fullAuthorityProcessor (dist : ℚ) : Processor :=
  { sceneProcessor dist with
    CombatMode := AuthorityType.ModeFullAuthoritative, SearchEntity := fun _ => none }

section MapFacts

variable {κ : Type}

theorem mapGet_mapDelete_self (m : CallbackMap κ) (k : Int) :
    mapGet (mapDelete m k) k = none := by
  induction m with
  | nil => rfl
  | cons e rest ih =>
    obtain ⟨j, cs⟩ := e
    by_cases h : j = k <;> simp [mapDelete, mapGet, h, ih]

theorem mapGet_mapDelete_of_ne (m : CallbackMap κ) {j k : Int} (h : j ≠ k) :
    mapGet (mapDelete m k) j = mapGet m j := by
  induction m with
  | nil => rfl
  | cons e rest ih =>
    obtain ⟨i, cs⟩ := e
    by_cases hik : i = k
    · have hij : ¬ i = j := fun hij => h (hij ▸ hik)
      simp only [mapDelete, mapGet, if_pos hik, if_neg hij, ih]
    · by_cases hij : i = j
      · simp only [mapDelete, mapGet, if_neg hik, if_pos hij]
      · simp only [mapDelete, mapGet, if_neg hik, if_neg hij, ih]

theorem mapDelete_of_mapGet_none (m : CallbackMap κ) (k : Int) (h : mapGet m k = none) :
    mapDelete m k = m := by
  induction m with
  | nil => rfl
  | cons e rest ih =>
    obtain ⟨j, cs⟩ := e
    by_cases hjk : j = k
    · simp [mapGet, hjk] at h
    · simp only [mapGet, if_neg hjk] at h
      simp only [mapDelete, if_neg hjk, ih h]

theorem mapGet_mapSet_self (m : CallbackMap κ) (k : Int) (v : List κ) :
    mapGet (mapSet m k v) k = some v := by
  simp [mapSet, mapGet]

theorem mapGet_mapSet_of_ne (m : CallbackMap κ) {j k : Int} (v : List κ) (h : j ≠ k) :
    mapGet (mapSet m k v) j = mapGet m j := by
  have hkj : ¬ k = j := fun e => h e.symm
  simp [mapSet, mapGet, hkj, mapGet_mapDelete_of_ne m h]

theorem mapGet_ne_none_of_ne_nil (m : CallbackMap κ) (h : m ≠ []) :
    ∃ k cs, mapGet m k = some cs := by
  cases m with
  | nil => exact absurd rfl h
  | cons e rest => exact ⟨e.1, e.2, by simp [mapGet]⟩

end MapFacts

/-! ## The acknowledgement handler of `handler/acknowledgements.go` -/

section HandlerFacts

variable {κ : Type}

open AcknowledgementHandler

theorem mapGet_foldl_AddCallback (a : AcknowledgementHandler κ) (fs : List κ) (h : fs ≠ []) :
    mapGet (fs.foldl AddCallback a).AckMap a.CurrentTimestamp
      = some (mapIndex a.AckMap a.CurrentTimestamp ++ fs) ∧
    (fs.foldl AddCallback a).CurrentTimestamp = a.CurrentTimestamp := by
  induction fs generalizing a with
  | nil => exact absurd rfl h
  | cons f rest ih =>
    have hcur : (AddCallback a f).CurrentTimestamp = a.CurrentTimestamp := rfl
    have hget : mapGet (AddCallback a f).AckMap a.CurrentTimestamp
        = some (mapIndex a.AckMap a.CurrentTimestamp ++ [f]) := by
      simp [AddCallback, mapGet_mapSet_self]
    by_cases hrest : rest = []
    · subst hrest
      exact ⟨by simpa using hget, rfl⟩
    · have := ih (AddCallback a f) hrest
      rw [hcur] at this
      refine ⟨?_, this.2⟩
      rw [List.foldl_cons, this.1]
      simp [mapIndex, hget]

theorem Execute_eq_tryExecute (a : AcknowledgementHandler κ) (timestamp : Int) :
    a.Execute timestamp = a.tryExecute (a.decodeTimestamp timestamp) := by
  unfold Execute decodeTimestamp
  by_cases h : a.LegacyMode = true <;> simp [h]

theorem tdiv_thousand_of_lt {k r : Int} (hk : 0 ≤ k) (hr0 : 0 ≤ r) (hr : r < 1000) :
    Int.tdiv (k * 1000 + r) 1000 = k := by
  have h0 : 0 ≤ k * 1000 + r := by positivity
  rw [Int.tdiv_eq_ediv h0 (by norm_num)]
  omega

/-- C1: when timestamp `k` is pending with callback list `fs`, `tryExecute(k)`
calls exactly `fs`, in registration order, returns true, removes key `k` and
leaves every other bucket and every other field as it was; a second
`tryExecute(k)` right after calls nothing and returns false.  Such a list `fs`
is what successive `AddCallback` calls under the current timestamp `k` build. -/
theorem tryExecute_runs_bucket_once (a : AcknowledgementHandler κ) (k : Int) (fs : List κ)
    (h : mapGet a.AckMap k = some fs) :
    (a.tryExecute k).calls = fs ∧ (a.tryExecute k).ret = true ∧
    mapGet (a.tryExecute k).state.AckMap k = none ∧
    (∀ j, j ≠ k → mapGet (a.tryExecute k).state.AckMap j = mapGet a.AckMap j) ∧
    (a.tryExecute k).state.CurrentTimestamp = a.CurrentTimestamp ∧
    (a.tryExecute k).state.LegacyMode = a.LegacyMode ∧
    (a.tryExecute k).state.Playstation = a.Playstation ∧
    (a.tryExecute k).state.tryExecute k
      = { state := (a.tryExecute k).state, calls := [], ret := false } ∧
    (∀ (a₀ : AcknowledgementHandler κ) (gs : List κ), gs ≠ [] →
      mapGet a₀.AckMap a₀.CurrentTimestamp = none →
      mapGet (gs.foldl AddCallback a₀).AckMap a₀.CurrentTimestamp = some gs) := by
  have hrun : a.tryExecute k
      = { state := { a with AckMap := mapDelete a.AckMap k }, calls := fs, ret := true } := by
    simp [tryExecute, h]
  rw [hrun]
  refine ⟨rfl, rfl, mapGet_mapDelete_self _ _, fun j hj => mapGet_mapDelete_of_ne _ hj,
    rfl, rfl, rfl, ?_, ?_⟩
  · simp [tryExecute, mapGet_mapDelete_self]
  · intro a₀ gs hgs hfree
    have := (mapGet_foldl_AddCallback a₀ gs hgs).1
    simpa [mapIndex, hfree] using this

/-- C1, at a concrete state: three callbacks registered under timestamp 7 next
to a bucket under timestamp 9. -/
theorem tryExecute_runs_bucket_once_witness :
    mapGet ([10, 11, 12].foldl AddCallback
        ({ LegacyMode := false, Playstation := false, AckMap := [(9, [5])],
           CurrentTimestamp := 7 } : AcknowledgementHandler Nat)).AckMap 7
      = some [10, 11, 12] ∧
    (([10, 11, 12].foldl AddCallback
        ({ LegacyMode := false, Playstation := false, AckMap := [(9, [5])],
           CurrentTimestamp := 7 } : AcknowledgementHandler Nat)).tryExecute 7).calls
      = [10, 11, 12] :=
  ⟨by decide, (tryExecute_runs_bucket_once _ 7 [10, 11, 12] (by decide)).1⟩

theorem handler_Refresh_returns (a : AcknowledgementHandler κ)
    (draws : List Nat) (a' : AcknowledgementHandler κ) (rest : List Nat)
    (h : a.Refresh draws = some (a', rest)) :
    mapGet a'.AckMap a'.CurrentTimestamp = none ∧ a'.AckMap = a.AckMap ∧
    a'.LegacyMode = a.LegacyMode ∧ a'.Playstation = a.Playstation ∧
    ∃ r ∈ draws, a'.CurrentTimestamp
      = if a.LegacyMode then drawTimestamp r * 1000 else drawTimestamp r := by
  induction draws generalizing a with
  | nil => simp [Refresh] at h
  | cons r draws ih =>
    simp only [Refresh] at h
    split at h
    · rename_i hfree
      injection h with h
      injection h with h1 h2
      subst h1
      exact ⟨hfree, rfl, rfl, rfl, r, List.mem_cons_self _ _, rfl⟩
    · obtain ⟨h1, h2, h3, h4, r', hr', h5⟩ := ih _ h
      exact ⟨h1, h2, h3, h4, r', List.mem_cons_of_mem _ hr', h5⟩

theorem handler_Refresh_isSome (a : AcknowledgementHandler κ)
    (draws : List Nat)
    (h : ∃ r ∈ draws, mapGet a.AckMap
      (if a.LegacyMode then drawTimestamp r * 1000 else drawTimestamp r) = none) :
    (a.Refresh draws).isSome = true := by
  induction draws generalizing a with
  | nil => simp at h
  | cons r draws ih =>
    simp only [Refresh]
    split
    · rfl
    · rename_i cs hbusy
      obtain ⟨r', hr', hfree⟩ := h
      rcases List.mem_cons.mp hr' with rfl | hmem
      · simp only [hfree] at hbusy
        exact absurd hbusy (by simp)
      · exact ih _ ⟨r', hmem, hfree⟩

theorem player_Refresh_returns (a : Acknowledgements κ)
    (draws : List Nat) (a' : Acknowledgements κ) (rest : List Nat)
    (h : a.Refresh draws = some (a', rest)) :
    mapGet a'.AcknowledgeMap a'.CurrentTimestamp = none ∧
    a'.AcknowledgeMap = a.AcknowledgeMap ∧
    a'.LegacyMode = a.LegacyMode ∧ a'.HasTicked = a.HasTicked ∧
    a'.awaitResTicks = a.awaitResTicks ∧
    ∃ r ∈ draws, a'.CurrentTimestamp
      = if a.LegacyMode then drawTimestamp r * 1000 else drawTimestamp r := by
  induction draws generalizing a with
  | nil => simp [Acknowledgements.Refresh] at h
  | cons r draws ih =>
    simp only [Acknowledgements.Refresh] at h
    split at h
    · rename_i hfree
      injection h with h
      injection h with h1 h2
      subst h1
      exact ⟨hfree, rfl, rfl, rfl, rfl, r, List.mem_cons_self _ _, rfl⟩
    · obtain ⟨h1, h2, h3, h4, h5, r', hr', h6⟩ := ih _ h
      exact ⟨h1, h2, h3, h4, h5, r', List.mem_cons_of_mem _ hr', h6⟩

theorem player_Refresh_isSome (a : Acknowledgements κ) (draws : List Nat)
    (h : ∃ r ∈ draws, mapGet a.AcknowledgeMap
      (if a.LegacyMode then drawTimestamp r * 1000 else drawTimestamp r) = none) :
    (a.Refresh draws).isSome = true := by
  induction draws generalizing a with
  | nil => simp at h
  | cons r draws ih =>
    simp only [Acknowledgements.Refresh]
    split
    · rfl
    · rename_i cs hbusy
      obtain ⟨r', hr', hfree⟩ := h
      rcases List.mem_cons.mp hr' with rfl | hmem
      · simp only [hfree] at hbusy
        exact absurd hbusy (by simp)
      · exact ih _ ⟨r', hmem, hfree⟩

theorem legacy_timestamp_dvd (legacy : Bool) (r : Nat) (ts : Int)
    (h : ts = if legacy then drawTimestamp r * 1000 else drawTimestamp r)
    (hl : legacy = true) : (1000 : Int) ∣ ts := by
  subst hl
  simp only [if_true] at h
  exact ⟨drawTimestamp r, by rw [h]; ring⟩

/-- C2: whenever `Refresh` returns, on any state and any draws, the
`CurrentTimestamp` it leaves is not a key of the pending map, the map is the
one it started with, and in legacy mode the timestamp is a multiple of 1000.
This holds for `AcknowledgementHandler.Refresh` and for
`Acknowledgements.Refresh`; either returns as soon as one draw gives a free
timestamp. -/
theorem Refresh_leaves_free_timestamp (a : AcknowledgementHandler κ) (b : Acknowledgements κ)
    (draws : List Nat) :
    (∀ a' rest, a.Refresh draws = some (a', rest) →
      mapGet a'.AckMap a'.CurrentTimestamp = none ∧ a'.AckMap = a.AckMap ∧
      (a.LegacyMode = true → (1000 : Int) ∣ a'.CurrentTimestamp)) ∧
    (∀ b' rest, b.Refresh draws = some (b', rest) →
      mapGet b'.AcknowledgeMap b'.CurrentTimestamp = none ∧
      b'.AcknowledgeMap = b.AcknowledgeMap ∧
      (b.LegacyMode = true → (1000 : Int) ∣ b'.CurrentTimestamp)) ∧
    ((∃ r ∈ draws, mapGet a.AckMap
        (if a.LegacyMode then drawTimestamp r * 1000 else drawTimestamp r) = none) →
      (a.Refresh draws).isSome = true) ∧
    ((∃ r ∈ draws, mapGet b.AcknowledgeMap
        (if b.LegacyMode then drawTimestamp r * 1000 else drawTimestamp r) = none) →
      (b.Refresh draws).isSome = true) := by
  refine ⟨?_, ?_, handler_Refresh_isSome a draws, player_Refresh_isSome b draws⟩
  · intro a' rest h
    obtain ⟨h1, h2, _, _, r, _, h5⟩ := handler_Refresh_returns a draws a' rest h
    exact ⟨h1, h2, legacy_timestamp_dvd _ r _ h5⟩
  · intro b' rest h
    obtain ⟨h1, h2, _, _, _, r, _, h5⟩ := player_Refresh_returns b draws b' rest h
    exact ⟨h1, h2, legacy_timestamp_dvd _ r _ h5⟩

/-- C2, at a concrete legacy state whose first draw collides with the pending
key 3000: `Refresh` returns with the second draw. -/
theorem Refresh_leaves_free_timestamp_witness :
    ({ LegacyMode := true, Playstation := false, AckMap := [(3000, [1])],
       CurrentTimestamp := 0 } : AcknowledgementHandler Nat).Refresh [3, 8]
      = some ({ LegacyMode := true, Playstation := false, AckMap := [(3000, [1])],
                CurrentTimestamp := 8000 }, []) ∧
    mapGet ([(3000, [1])] : CallbackMap Nat) 8000 = none ∧
    (1000 : Int) ∣ 8000 :=
  ⟨by decide,
   ((Refresh_leaves_free_timestamp
      ({ LegacyMode := true, Playstation := false, AckMap := [(3000, [1])],
         CurrentTimestamp := 0 } : AcknowledgementHandler Nat)
      ({ AcknowledgeMap := [], CurrentTimestamp := 0, HasTicked := false, LegacyMode := false,
         acknowledgementOrder := [], awaitResTicks := 0 } : Acknowledgements Nat)
      [3, 8]).1 { LegacyMode := true, Playstation := false, AckMap := [(3000, [1])],
                  CurrentTimestamp := 8000 } [] (by decide)).1,
   ((Refresh_leaves_free_timestamp
      ({ LegacyMode := true, Playstation := false, AckMap := [(3000, [1])],
         CurrentTimestamp := 0 } : AcknowledgementHandler Nat)
      ({ AcknowledgeMap := [], CurrentTimestamp := 0, HasTicked := false, LegacyMode := false,
         acknowledgementOrder := [], awaitResTicks := 0 } : Acknowledgements Nat)
      [3, 8]).1 { LegacyMode := true, Playstation := false, AckMap := [(3000, [1])],
                  CurrentTimestamp := 8000 } [] (by decide)).2.2 rfl⟩

/-- C3: when the decoded response timestamp is not a pending key, `Execute`
returns false, calls no callback and leaves the handler, `AckMap` and
`CurrentTimestamp` included, exactly as it was. -/
theorem Execute_unmatched_is_noop (a : AcknowledgementHandler κ) (timestamp : Int)
    (h : mapGet a.AckMap (a.decodeTimestamp timestamp) = none) :
    a.Execute timestamp = { state := a, calls := [], ret := false } := by
  rw [Execute_eq_tryExecute]
  simp [tryExecute, h]

/-- C3, at a concrete modern state: the response 8000000 decodes to 8, which
is not pending. -/
theorem Execute_unmatched_is_noop_witness :
    ({ LegacyMode := false, Playstation := false, AckMap := [(7, [1, 2])],
       CurrentTimestamp := 9 } : AcknowledgementHandler Nat).Execute 8000000
      = { state := { LegacyMode := false, Playstation := false, AckMap := [(7, [1, 2])],
                     CurrentTimestamp := 9 },
          calls := [], ret := false } :=
  Execute_unmatched_is_noop _ 8000000 (by decide)

/-- C7: for a pending key `k` with `0 ≤ k < 2^32`, a modern client that is not
a Playstation answering `k * 1000000 + r` with `0 ≤ r < 1000000` has its
response decoded by the two divisions by 1000 to `k`, and `Execute` runs bucket
`k`; a modern Playstation client answering `k * 1000 + r` with `0 ≤ r < 1000`
is decoded by one division to `k`; a legacy client has its response looked up
unchanged.  The responses fit in an `int64`. -/
theorem Execute_decodes_response (a : AcknowledgementHandler κ) (k r : Int) (fs : List κ)
    (hk0 : 0 ≤ k) (hk : k < 2 ^ 32) (hr0 : 0 ≤ r) (hpend : mapGet a.AckMap k = some fs) :
    (a.LegacyMode = false → a.Playstation = false → r < 1000000 →
      k * 1000000 + r < 2 ^ 63 ∧
      Int.tdiv (Int.tdiv (k * 1000000 + r) AckDivider) AckDivider = k ∧
      a.decodeTimestamp (k * 1000000 + r) = k ∧
      a.Execute (k * 1000000 + r) = a.tryExecute k ∧
      (a.Execute (k * 1000000 + r)).calls = fs ∧
      (a.Execute (k * 1000000 + r)).ret = true) ∧
    (a.LegacyMode = false → a.Playstation = true → r < 1000 →
      k * 1000 + r < 2 ^ 63 ∧
      Int.tdiv (k * 1000 + r) AckDivider = k ∧
      a.decodeTimestamp (k * 1000 + r) = k ∧
      a.Execute (k * 1000 + r) = a.tryExecute k ∧
      (a.Execute (k * 1000 + r)).calls = fs ∧
      (a.Execute (k * 1000 + r)).ret = true) ∧
    (a.LegacyMode = true → ∀ timestamp : Int,
      a.decodeTimestamp timestamp = timestamp ∧
      a.Execute timestamp = a.tryExecute timestamp) := by
  have hrun : a.tryExecute k
      = { state := { a with AckMap := mapDelete a.AckMap k }, calls := fs, ret := true } := by
    simp [tryExecute, hpend]
  refine ⟨?_, ?_, ?_⟩
  · intro hl hp hr
    have hdiv : Int.tdiv (Int.tdiv (k * 1000000 + r) 1000) 1000 = k := by
      have h0 : 0 ≤ k * 1000000 + r := by positivity
      rw [Int.tdiv_eq_ediv h0 (by norm_num)]
      have h1 : 0 ≤ (k * 1000000 + r) / 1000 := by omega
      rw [Int.tdiv_eq_ediv h1 (by norm_num)]
      omega
    have hdec : a.decodeTimestamp (k * 1000000 + r) = k := by
      simp only [decodeTimestamp, hl, hp, AckDivider]
      simpa using hdiv
    refine ⟨by omega, hdiv, hdec, ?_, ?_, ?_⟩
    · rw [Execute_eq_tryExecute, hdec]
    · rw [Execute_eq_tryExecute, hdec, hrun]
    · rw [Execute_eq_tryExecute, hdec, hrun]
  · intro hl hp hr
    have hdiv : Int.tdiv (k * 1000 + r) 1000 = k := tdiv_thousand_of_lt hk0 hr0 hr
    have hdec : a.decodeTimestamp (k * 1000 + r) = k := by
      simp only [decodeTimestamp, hl, hp, AckDivider]
      simpa using hdiv
    refine ⟨by omega, hdiv, hdec, ?_, ?_, ?_⟩
    · rw [Execute_eq_tryExecute, hdec]
    · rw [Execute_eq_tryExecute, hdec, hrun]
    · rw [Execute_eq_tryExecute, hdec, hrun]
  · intro hl timestamp
    have hdec : a.decodeTimestamp timestamp = timestamp := by
      simp [decodeTimestamp, hl]
    exact ⟨hdec, by rw [Execute_eq_tryExecute, hdec]⟩

/-- C7, at a concrete modern state: the response 7000123 runs bucket 7. -/
theorem Execute_decodes_response_witness :
    (({ LegacyMode := false, Playstation := false, AckMap := [(7, [1, 2])],
        CurrentTimestamp := 9 } : AcknowledgementHandler Nat).Execute
      (7 * 1000000 + 123)).calls = [1, 2] :=
  ((Execute_decodes_response
    ({ LegacyMode := false, Playstation := false, AckMap := [(7, [1, 2])],
       CurrentTimestamp := 9 } : AcknowledgementHandler Nat)
    7 123 [1, 2] (by decide) (by decide) (by decide) (by decide)).1
      rfl rfl (by decide)).2.2.2.2.1

/-- C8: `CreatePacket` returns a packet exactly when the current bucket holds
at least one callback.  The packet then has `NeedsResponse = true` and carries
`CurrentTimestamp`, divided by 1000 only when `LegacyMode` and `Playstation`
are both set, and the handler is unchanged.  Otherwise it returns nil and
`CurrentTimestamp` is afterwards not a key of `AckMap`, whose other keys and
the timestamp itself are untouched. -/
theorem CreatePacket_iff_bucket_nonempty (a : AcknowledgementHandler κ) :
    (a.CreatePacket.2.isSome = true ↔
      ∃ c cs, mapGet a.AckMap a.CurrentTimestamp = some (c :: cs)) ∧
    ((∃ c cs, mapGet a.AckMap a.CurrentTimestamp = some (c :: cs)) →
      a.CreatePacket = (a, some
        { Timestamp := if a.LegacyMode && a.Playstation
            then Int.tdiv a.CurrentTimestamp 1000 else a.CurrentTimestamp,
          NeedsResponse := true })) ∧
    ((¬ ∃ c cs, mapGet a.AckMap a.CurrentTimestamp = some (c :: cs)) →
      a.CreatePacket.2 = none ∧
      mapGet a.CreatePacket.1.AckMap a.CreatePacket.1.CurrentTimestamp = none ∧
      a.CreatePacket.1.CurrentTimestamp = a.CurrentTimestamp ∧
      ∀ j, j ≠ a.CurrentTimestamp →
        mapGet a.CreatePacket.1.AckMap j = mapGet a.AckMap j) := by
  have hlen : (mapIndex a.AckMap a.CurrentTimestamp).length = 0 ↔
      ¬ ∃ c cs, mapGet a.AckMap a.CurrentTimestamp = some (c :: cs) := by
    unfold mapIndex
    cases hget : mapGet a.AckMap a.CurrentTimestamp with
    | none => simp
    | some l => cases l <;> simp
  by_cases hb : ∃ c cs, mapGet a.AckMap a.CurrentTimestamp = some (c :: cs)
  · have hne : ¬ (mapIndex a.AckMap a.CurrentTimestamp).length = 0 := fun h => hlen.mp h hb
    have hpk : a.CreatePacket = (a, some
        { Timestamp := if a.LegacyMode && a.Playstation
            then Int.tdiv a.CurrentTimestamp 1000 else a.CurrentTimestamp,
          NeedsResponse := true }) := by
      simp only [CreatePacket, if_neg hne, AckDivider]
    refine ⟨⟨fun _ => hb, fun _ => by rw [hpk]; rfl⟩, fun _ => hpk, fun h => absurd hb h⟩
  · have hz : (mapIndex a.AckMap a.CurrentTimestamp).length = 0 := hlen.mpr hb
    have hpk : a.CreatePacket
        = ({ a with AckMap := mapDelete a.AckMap a.CurrentTimestamp }, none) := by
      simp only [CreatePacket, if_pos hz]
    refine ⟨⟨fun h => ?_, fun h => absurd h hb⟩, fun h => absurd h hb, fun _ => ?_⟩
    · rw [hpk] at h
      simp at h
    · rw [hpk]
      exact ⟨rfl, mapGet_mapDelete_self _ _, rfl, fun j hj => mapGet_mapDelete_of_ne _ hj⟩

/-- C8, at a concrete legacy Playstation state with one callback in the
current bucket 5000: the packet carries 5. -/
theorem CreatePacket_iff_bucket_nonempty_witness :
    ({ LegacyMode := true, Playstation := true, AckMap := [(5000, [1])],
       CurrentTimestamp := 5000 } : AcknowledgementHandler Nat).CreatePacket
      = ({ LegacyMode := true, Playstation := true, AckMap := [(5000, [1])],
           CurrentTimestamp := 5000 },
         some { Timestamp := 5, NeedsResponse := true }) :=
  (CreatePacket_iff_bucket_nonempty
    ({ LegacyMode := true, Playstation := true, AckMap := [(5000, [1])],
       CurrentTimestamp := 5000 } : AcknowledgementHandler Nat)).2.1 ⟨1, [], by decide⟩

end HandlerFacts

/-! ## The acknowledgements of `player/acknowledgements.go` -/

section PlayerFacts

variable {κ : Type}

open Acknowledgements

theorem tickedValidate_of_pending (a : Acknowledgements κ) (hp : a.AcknowledgeMap ≠ []) :
    a.tickedValidate
      = ({ a with HasTicked := false, awaitResTicks := (a.awaitResTicks + 1) % 2 ^ 64 },
         decide ((a.awaitResTicks + 1) % 2 ^ 64 < 200)) := by
  have hlen : ¬ a.AcknowledgeMap.length = 0 := by
    intro h
    exact hp (List.length_eq_zero.mp h)
  simp only [tickedValidate, Validate, Bool.not_true, Bool.false_eq_true, if_false, if_neg hlen]

theorem tickedValidates_of_pending (n : Nat) (a : Acknowledgements κ)
    (hp : a.AcknowledgeMap ≠ []) (hw : a.awaitResTicks + n < 2 ^ 64) :
    (a.tickedValidates n).2
      = (List.range n).map (fun j => decide (a.awaitResTicks + j + 1 < 200)) := by
  induction n generalizing a with
  | zero => rfl
  | succ n ih =>
    have hmod : (a.awaitResTicks + 1) % 2 ^ 64 = a.awaitResTicks + 1 :=
      Nat.mod_eq_of_lt (by omega)
    have hstep := tickedValidate_of_pending a hp
    rw [hmod] at hstep
    simp only [tickedValidates, hstep]
    have hih := ih { a with HasTicked := false, awaitResTicks := a.awaitResTicks + 1 } hp
      (by show a.awaitResTicks + 1 + n < 2 ^ 64; omega)
    rw [hih, List.range_succ_eq_map, List.map_cons, List.map_map]
    congr 1
    apply List.map_congr_left
    intro j _
    simp only [Function.comp, Nat.succ_eq_add_one]
    congr 1
    apply propext
    constructor <;> intro h <;> omega

theorem map_range_lt_200 (n : Nat) (hn : n ≤ 199) :
    (List.range n).map (fun j => decide (0 + j + 1 < 200)) = List.replicate n true := by
  apply List.ext_getElem
  · simp
  · intro i h1 h2
    simp only [List.length_map, List.length_range] at h1
    simp only [List.getElem_map, List.getElem_range, List.getElem_replicate, zero_add,
      decide_eq_true_eq]
    omega

/-- C4: from `awaitResTicks = 0`, with a bucket pending and never answered and
`HasTicked` set before every call, the first 199 calls of `Validate` return
true and the 200th returns false. -/
theorem Validate_unresponsive_at_200 (a : Acknowledgements κ) (h0 : a.awaitResTicks = 0)
    (hp : a.AcknowledgeMap ≠ []) :
    (a.tickedValidates 200).2 = List.replicate 199 true ++ [false] ∧
    ∀ n, n ≤ 199 → (a.tickedValidates n).2 = List.replicate n true := by
  constructor
  · rw [tickedValidates_of_pending 200 a hp (by rw [h0]; norm_num), h0, List.range_succ,
      List.map_append, map_range_lt_200 199 (le_refl _)]
    rfl
  · intro n hn
    rw [tickedValidates_of_pending n a hp (by rw [h0]; omega), h0]
    exact map_range_lt_200 n hn

/-- C4, at a concrete state with one pending bucket. -/
theorem Validate_unresponsive_at_200_witness :
    ((({ AcknowledgeMap := [(1, [0])], CurrentTimestamp := 3, HasTicked := false,
         LegacyMode := false, acknowledgementOrder := [], awaitResTicks := 0 } :
        Acknowledgements Nat).tickedValidates 200).2) = List.replicate 199 true ++ [false] :=
  (Validate_unresponsive_at_200 _ rfl (by decide)).1

/-- C6: `Clear` leaves the pending map empty and `awaitResTicks = 0` and, being
a plain assignment, calls no callback; afterwards `tryHandle` on any timestamp,
one that was pending before included, returns false, calls nothing and changes
nothing. -/
theorem Clear_invalidates_every_bucket (a : Acknowledgements κ) :
    a.Clear.AcknowledgeMap = [] ∧ a.Clear.awaitResTicks = 0 ∧
    (∀ i, mapGet a.Clear.AcknowledgeMap i = none) ∧
    ∀ i, a.Clear.tryHandle i = { state := a.Clear, calls := [], ret := false } :=
  ⟨rfl, rfl, fun _ => rfl, fun _ => rfl⟩

theorem mapGet_isSome_ne_nil (m : CallbackMap κ) (k : Int)
    (h : (mapGet m k).isSome = true) : m ≠ [] := by
  intro hm
  subst hm
  simp [mapGet] at h

theorem tickedValidateCount_append (es fs : List AckEvent) :
    tickedValidateCount (es ++ fs) = tickedValidateCount es + tickedValidateCount fs := by
  simp [tickedValidateCount, List.countP_append]

theorem unanswered_run_counts (ops : List (AckOp κ)) (a final : Acknowledgements κ)
    (es : List AckEvent) (k : Int)
    (hrun : runAckOps a ops = some (final, es))
    (hpend : pendingThroughout k a ops = true)
    (hwrap : a.awaitResTicks + 1 < 2 ^ 64)
    (hnone : AckEvent.handled true ∉ es)
    (hresp : AckEvent.validated true false ∉ es) :
    tickedValidateCount es = 0 ∨ a.awaitResTicks + tickedValidateCount es < 200 := by
  induction ops generalizing a es with
  | nil =>
    simp only [runAckOps, Option.some.injEq, Prod.mk.injEq] at hrun
    left
    rw [← hrun.2]
    rfl
  | cons op ops ih =>
    simp only [pendingThroughout, Bool.and_eq_true] at hpend
    obtain ⟨hk, hpend⟩ := hpend
    have hne : a.AcknowledgeMap ≠ [] := mapGet_isSome_ne_nil _ k hk
    simp only [runAckOps] at hrun
    cases hstep : stepAckOp a op with
    | none => simp [hstep] at hrun
    | some st =>
      obtain ⟨a₁, es₁⟩ := st
      simp only [hstep] at hrun hpend
      cases hrest : runAckOps a₁ ops with
      | none => simp [hrest] at hrun
      | some res =>
        obtain ⟨fin, es₂⟩ := res
        simp only [hrest, Option.map_some', Option.some.injEq, Prod.mk.injEq] at hrun
        obtain ⟨hfin, hes⟩ := hrun
        subst hfin hes
        have hnone₂ : AckEvent.handled true ∉ es₂ := fun h =>
          hnone (List.mem_append_right _ h)
        have hresp₂ : AckEvent.validated true false ∉ es₂ := fun h =>
          hresp (List.mem_append_right _ h)
        rw [tickedValidateCount_append]
        cases op with
        | add f =>
          simp only [stepAckOp, Option.some.injEq, Prod.mk.injEq] at hstep
          obtain ⟨h1, h2⟩ := hstep
          subst h1 h2
          have := ih (a.Add f) es₂ hrest hpend hwrap hnone₂ hresp₂
          simpa [tickedValidateCount, Acknowledgements.Add] using this
        | refresh draws =>
          simp only [stepAckOp, Option.map_eq_some', Prod.mk.injEq] at hstep
          obtain ⟨⟨a', rest⟩, hr, h1, h2⟩ := hstep
          simp only at h1
          subst h1 h2
          have hc := (player_Refresh_returns a draws a' rest hr).2.2.2.2.1
          have := ih a' es₂ hrest hpend (by rw [hc]; exact hwrap) hnone₂ hresp₂
          rw [hc] at this
          simpa [tickedValidateCount] using this
        | tryHandle i =>
          simp only [stepAckOp, Option.some.injEq, Prod.mk.injEq] at hstep
          obtain ⟨h1, h2⟩ := hstep
          subst h2
          have hmiss : mapGet a.AcknowledgeMap i = none := by
            cases hget : mapGet a.AcknowledgeMap i with
            | none => rfl
            | some cs =>
              exfalso
              apply hnone
              simp [tryHandle, hget]
          have hst : (a.tryHandle i).state = a := by simp [tryHandle, hmiss]
          rw [hst] at h1
          subst h1
          have := ih a es₂ hrest hpend hwrap hnone₂ hresp₂
          simpa [tickedValidateCount, AckEvent.isTickedValidate] using this
        | tick =>
          simp only [stepAckOp, Option.some.injEq, Prod.mk.injEq] at hstep
          obtain ⟨h1, h2⟩ := hstep
          subst h1 h2
          have := ih _ es₂ hrest hpend hwrap hnone₂ hresp₂
          simpa [tickedValidateCount] using this
        | validate =>
          simp only [stepAckOp, Option.some.injEq, Prod.mk.injEq] at hstep
          obtain ⟨h1, h2⟩ := hstep
          subst h2
          cases ht : a.HasTicked with
          | false =>
            have hv : a.Validate = (a, true) := by simp [Validate, ht]
            rw [hv] at h1
            simp only at h1
            subst h1
            have := ih a es₂ hrest hpend hwrap hnone₂ hresp₂
            simpa [tickedValidateCount, AckEvent.isTickedValidate, ht] using this
          | true =>
            have hmod : (a.awaitResTicks + 1) % 2 ^ 64 = a.awaitResTicks + 1 :=
              Nat.mod_eq_of_lt hwrap
            have hv : a.Validate
                = ({ a with HasTicked := false, awaitResTicks := a.awaitResTicks + 1 },
                   decide (a.awaitResTicks + 1 < 200)) := by
              have hlen : ¬ a.AcknowledgeMap.length = 0 := fun h =>
                hne (List.length_eq_zero.mp h)
              simp only [Validate, ht, Bool.not_true, Bool.false_eq_true, if_false,
                if_neg hlen, hmod]
            have hlt : a.awaitResTicks + 1 < 200 := by
              by_contra hge
              apply hresp
              simp [hv, ht, hge]
            rw [hv] at h1
            simp only at h1
            subst h1
            have := ih _ es₂ hrest hpend (by show a.awaitResTicks + 1 + 1 < 2 ^ 64; omega)
              hnone₂ hresp₂
            have hone : tickedValidateCount
                [AckEvent.validated true a.Validate.2] = 1 := by
              simp [tickedValidateCount, AckEvent.isTickedValidate]
            rw [hone]
            right
            rcases this with h | h
            · rw [h]; omega
            · simp only at h; omega

set_option maxRecDepth 100000 in
/-- C5 as stated fails: in `answerOtherBucketOps` bucket 1 is pending
throughout 200 ticked `Validate` calls, bucket 2 is answered after the first
100 of them, and every one of the 200 calls returns true. -/
theorem unanswered_bucket_missed_after_other_answer :
    runAckOps twoBucketState answerOtherBucketOps
      = some ({ twoBucketState with AcknowledgeMap := [(1, [0])], awaitResTicks := 100 },
          List.replicate 100 (AckEvent.validated true true) ++ [AckEvent.handled true] ++
            List.replicate 100 (AckEvent.validated true true)) ∧
    pendingThroughout 1 twoBucketState answerOtherBucketOps = true ∧
    tickedValidateCount (List.replicate 100 (AckEvent.validated true true) ++
      [AckEvent.handled true] ++ List.replicate 100 (AckEvent.validated true true)) = 200 ∧
    AckEvent.validated true false ∉ List.replicate 100 (AckEvent.validated true true) ++
      [AckEvent.handled true] ++ List.replicate 100 (AckEvent.validated true true) :=
  ⟨by decide, by decide, by decide, by decide⟩

/-- C5, amended: in any interleaving of `Add`, `Refresh`, `tryHandle`, ticks and
`Validate` that runs to its end, if some bucket stays pending throughout, no
`tryHandle` in it finds a bucket, `awaitResTicks` does not start at its largest
value, and at least 200 of the `Validate` calls are made with `HasTicked` set,
then one of those calls returns false. -/
theorem unanswered_run_reports_unresponsive (a final : Acknowledgements κ)
    (ops : List (AckOp κ)) (es : List AckEvent) (k : Int)
    (hrun : runAckOps a ops = some (final, es))
    (hpend : pendingThroughout k a ops = true)
    (hwrap : a.awaitResTicks + 1 < 2 ^ 64)
    (hnone : AckEvent.handled true ∉ es)
    (hcount : 200 ≤ tickedValidateCount es) :
    AckEvent.validated true false ∈ es := by
  by_contra hresp
  rcases unanswered_run_counts ops a final es k hrun hpend hwrap hnone hresp with h | h <;>
    omega

set_option maxRecDepth 100000 in
/-- C5, amended, at a concrete run: 200 ticks from `twoBucketState` with no
response at all; the 200th `Validate` returns false. -/
theorem unanswered_run_reports_unresponsive_witness :
    runAckOps twoBucketState (tickedValidateOps 200)
      = some ({ twoBucketState with awaitResTicks := 200 },
          List.replicate 199 (AckEvent.validated true true) ++
            [AckEvent.validated true false]) ∧
    AckEvent.validated true false ∈
      List.replicate 199 (AckEvent.validated true true) ++ [AckEvent.validated true false] :=
  ⟨by decide,
   unanswered_run_reports_unresponsive twoBucketState { twoBucketState with awaitResTicks := 200 }
     (tickedValidateOps 200)
     (List.replicate 199 (AckEvent.validated true true) ++ [AckEvent.validated true false]) 1
     (by decide) (by decide) (by decide) (by decide) (by decide)⟩

theorem handleNetworkStackLatency_modern_ps4 (a : Acknowledgements κ) (i : Int) (fs : List κ)
    (hmodern : a.LegacyMode = false)
    (hfound : mapGet a.AcknowledgeMap (Int.tdiv i 1000) = some fs)
    (hmiss : mapGet a.AcknowledgeMap (Int.tdiv (Int.tdiv i 1000) 1000) = none) :
    (Player.handleNetworkStackLatency (some a) i true).calls = fs ∧
    (Player.handleNetworkStackLatency (some a) i true).ret = false ∧
    (Player.handleNetworkStackLatency (some a) i true).state
      = some { a with awaitResTicks := 0,
                      AcknowledgeMap := mapDelete a.AcknowledgeMap (Int.tdiv i 1000) } := by
  have hne : Int.tdiv (Int.tdiv i 1000) 1000 ≠ Int.tdiv i 1000 := by
    intro h
    rw [h, hfound] at hmiss
    exact absurd hmiss (by simp)
  have h1 : a.tryHandle (Int.tdiv i 1000)
      = { state := { a with awaitResTicks := 0,
                            AcknowledgeMap := mapDelete a.AcknowledgeMap (Int.tdiv i 1000) },
          calls := fs, ret := true } := by
    simp [tryHandle, hfound, Remove]
  have h2 : mapGet (mapDelete a.AcknowledgeMap (Int.tdiv i 1000))
      (Int.tdiv (Int.tdiv i 1000) 1000) = none := by
    rw [mapGet_mapDelete_of_ne _ hne, hmiss]
  have h3 : ({ a with awaitResTicks := 0,
                      AcknowledgeMap := mapDelete a.AcknowledgeMap (Int.tdiv i 1000) } :
      Acknowledgements κ).tryHandle (Int.tdiv (Int.tdiv i 1000) 1000)
      = { state := { a with awaitResTicks := 0,
                            AcknowledgeMap := mapDelete a.AcknowledgeMap (Int.tdiv i 1000) },
          calls := [], ret := false } := by
    simp [tryHandle, h2]
  rw [hmodern] at h3
  simp only [Player.handleNetworkStackLatency, hmodern, PlaystationNetworkStackLatencyDivider,
    Bool.false_eq_true, if_false, if_true, h1, Bool.and_self, h3, List.append_nil, and_self]

/-- C9 fails for a modern Playstation client: with key 5 pending and nothing
else, the response 5000 is decoded to 5, bucket 5 is found, its callback is
run and the key is removed, and yet `handleNetworkStackLatency` returns false,
the value of a second lookup under 0. -/
theorem handleNetworkStackLatency_found_returns_false :
    Player.handleNetworkStackLatency
      (some ({ AcknowledgeMap := [(5, [42])], CurrentTimestamp := 9, HasTicked := true,
               LegacyMode := false, acknowledgementOrder := [], awaitResTicks := 3 } :
        Acknowledgements Nat)) 5000 true
      = { state := some { AcknowledgeMap := [], CurrentTimestamp := 9, HasTicked := true,
                          LegacyMode := false, acknowledgementOrder := [],
                          awaitResTicks := 0 },
          calls := [42], ret := false } := by
  decide

end PlayerFacts

/-! ## The reach check of `check/reach.go` -/

section ReachFacts

open ReachA

theorem raycast_congr (g : Geometry) (p : Processor) (e : Entity) (r r' : ReachA)
    (attackPos : Vec3) (hl : r'.lastEntPos = r.lastEntPos)
    (hc : r'.currentEntPos = r.currentEntPos) :
    raycast g p e r' attackPos = raycast g p e r attackPos := by
  simp only [raycast, dPos, hl, hc]

theorem resolve_legitimate (g : Geometry) (r : ReachA) (p : Processor) (InputMode : Nat)
    (d : UseItemOnEntityTransactionData) (e : Entity)
    (hent : p.SearchEntity d.TargetEntityRuntimeID = some e)
    (hbox : boxDistance g e r d.Position ≤ 315 / 100)
    (hinput : InputMode ≠ InputModeTouch)
    (hvalid : (raycast g p e r d.Position).valid = true)
    (havg : g.DivFloat64 (raycast g p e r d.Position).distAvg (raycast g p e r d.Position).totalHits
      ≤ legalAverage) :
    resolve g r p InputMode d
      = { check :=
            { r with
              violations := max 0 (max 0 (r.violations - 1 / 1000) - 1 / 1000)
              buffer := max 0 (min 5 (r.buffer + -25 / 1000))
              secondaryBuffer := max 0 (r.secondaryBuffer - 75 / 10000) },
          flags := [], ret := false } := by
  have hray : raycast g p e { r with violations := max 0 (r.violations - 1 / 1000) } d.Position
      = raycast g p e r d.Position := raycast_congr g p e r _ _ rfl rfl
  have hnot : ¬ boxDistance g e r d.Position > 315 / 100 := not_lt.mpr hbox
  simp only [resolve, hent, if_neg hnot, if_neg hinput, hray, hvalid, Bool.not_true,
    Bool.false_eq_true, if_false, if_pos havg, ReachA.Buff, basic.Buff]

/-- C10, amended: in semi-authoritative mode, on a `PlayerAuthInput` packet with
an input mode other than touch and an attack pending on an entity that is still
found, if the minimum box distance over the 8 target positions is at most 3.15,
some sampled ray hits the box and the average hit distance as `Process`
computes it, the `float64` sum of the hit distances in sampling order divided
by their number, is at most the `float64` of the literal 3.0001, as it is when
it is at most 3.0001, then `Process` calls `Flag` not at all,
returns false, leaves `cancelNext` as it was, sets the secondary buffer to
`max(0, secondaryBuffer - 0.0075)` and leaves violations that are not below 0
and, for a score that was not negative, not above what they were. -/
theorem Process_legitimate_hit_decays (g : Geometry) (r : ReachA) (p : Processor)
    (InputMode : Nat) (d : UseItemOnEntityTransactionData) (e : Entity)
    (hmode : p.CombatMode = AuthorityType.ModeSemiAuthoritative)
    (hattack : r.attackData = some d)
    (hent : p.SearchEntity d.TargetEntityRuntimeID = some e)
    (hbox : boxDistance g e r d.Position ≤ 315 / 100)
    (hinput : InputMode ≠ InputModeTouch)
    (hvalid : (raycast g p e r d.Position).valid = true)
    (havg : g.DivFloat64 (raycast g p e r d.Position).distAvg (raycast g p e r d.Position).totalHits
      ≤ legalAverage)
    (hviol : 0 ≤ r.violations) :
    (r.Process g p (Packet.PlayerAuthInput InputMode)).flags = [] ∧
    (r.Process g p (Packet.PlayerAuthInput InputMode)).ret = false ∧
    (r.Process g p (Packet.PlayerAuthInput InputMode)).check.cancelNext = r.cancelNext ∧
    (r.Process g p (Packet.PlayerAuthInput InputMode)).check.secondaryBuffer
      = max 0 (r.secondaryBuffer - 75 / 10000) ∧
    0 ≤ (r.Process g p (Packet.PlayerAuthInput InputMode)).check.violations ∧
    (r.Process g p (Packet.PlayerAuthInput InputMode)).check.violations ≤ r.violations := by
  have hres := resolve_legitimate g r p InputMode d e hent hbox hinput hvalid havg
  have hproc : r.Process g p (Packet.PlayerAuthInput InputMode)
      = { check :=
            { r with
              violations := max 0 (max 0 (r.violations - 1 / 1000) - 1 / 1000)
              buffer := max 0 (min 5 (r.buffer + -25 / 1000))
              secondaryBuffer := max 0 (r.secondaryBuffer - 75 / 10000)
              attackData := none },
          flags := [], ret := false } := by
    simp only [Process, hmode, ne_eq, not_true_eq_false, if_false, hattack, hres]
  rw [hproc]
  refine ⟨rfl, rfl, rfl, rfl, le_max_left _ _, ?_⟩
  show max 0 (max 0 (r.violations - 1 / 1000) - 1 / 1000) ≤ r.violations
  have h1 : max 0 (r.violations - 1 / 1000) ≤ r.violations :=
    max_le hviol (by linarith)
  exact max_le hviol (by linarith)

theorem boxDistance_stillTarget_two :
    boxDistance exactGeometry (stillTarget 2) (pendingCheck 2) originAttack.Position = 8 / 5 := by
  decide!

theorem raycast_stillTarget_two :
    raycast exactGeometry (sceneProcessor 2) (stillTarget 2) (pendingCheck 2)
      originAttack.Position
      = { entPos := ⟨0, -9 / 10, 2⟩, rot := ⟨0, 0, 1⟩, minDist := 8 / 5, valid := true,
          distAvg := 512 / 5, totalHits := 64 } := by
  decide!

/-- C10, amended, at the scene of the spec: the attacker at the origin faces the centre
of a still target's box 2.0 units away; the box is 1.6 away and each of the 64
rays hits it at 1.6. -/
theorem Process_legitimate_hit_decays_witness :
    boxDistance exactGeometry (stillTarget 2) (pendingCheck 2) originAttack.Position
      ≤ 315 / 100 ∧
    (raycast exactGeometry (sceneProcessor 2) (stillTarget 2) (pendingCheck 2)
      originAttack.Position).valid = true ∧
    ((pendingCheck 2).Process exactGeometry (sceneProcessor 2) (Packet.PlayerAuthInput 1)).flags
      = [] ∧
    ((pendingCheck 2).Process exactGeometry (sceneProcessor 2) (Packet.PlayerAuthInput 1)).ret
      = false ∧
    ((pendingCheck 2).Process exactGeometry (sceneProcessor 2)
      (Packet.PlayerAuthInput 1)).check.cancelNext = (pendingCheck 2).cancelNext ∧
    ((pendingCheck 2).Process exactGeometry (sceneProcessor 2)
      (Packet.PlayerAuthInput 1)).check.secondaryBuffer
      = max 0 ((pendingCheck 2).secondaryBuffer - 75 / 10000) ∧
    0 ≤ ((pendingCheck 2).Process exactGeometry (sceneProcessor 2)
      (Packet.PlayerAuthInput 1)).check.violations ∧
    ((pendingCheck 2).Process exactGeometry (sceneProcessor 2)
      (Packet.PlayerAuthInput 1)).check.violations ≤ (pendingCheck 2).violations :=
  ⟨by rw [boxDistance_stillTarget_two]; norm_num,
   by rw [raycast_stillTarget_two],
   Process_legitimate_hit_decays exactGeometry (pendingCheck 2) (sceneProcessor 2) 1
      originAttack (stillTarget 2) rfl rfl rfl
      (by rw [boxDistance_stillTarget_two]; norm_num) (by decide)
      (by rw [raycast_stillTarget_two]) (by rw [raycast_stillTarget_two]; decide!)
      (by decide!)⟩

theorem flagged_one (p : Processor) (r : ReachA) :
    flagged p r 1 = { r with tobasic := p.TrackViolation r.tobasic } := by
  have h : ¬ (1 : ℚ) ≤ 0 := by norm_num
  simp only [flagged, if_neg h]

theorem boxDistance_congr (g : Geometry) (e : Entity) (r r' : ReachA) (attackPos : Vec3)
    (hl : r'.lastEntPos = r.lastEntPos) (hc : r'.currentEntPos = r.currentEntPos) :
    boxDistance g e r' attackPos = boxDistance g e r attackPos := by
  simp only [boxDistance, dPos, hl, hc]

theorem resolve_box_distance_flag (g : Geometry) (r : ReachA) (p : Processor) (InputMode : Nat)
    (d : UseItemOnEntityTransactionData) (e : Entity)
    (hent : p.SearchEntity d.TargetEntityRuntimeID = some e)
    (hbox : 315 / 100 < boxDistance g e r d.Position) :
    resolve g r p InputMode d
      = { check := { flagged p r 1 with cancelNext := true },
          flags := [{ severity := 1, kind := "bb-dist",
                      dist := some (g.Round (boxDistance g e r d.Position) 4) }],
          ret := false } := by
  have hgt : boxDistance g e r d.Position > 315 / 100 := hbox
  simp only [resolve, hent, if_pos hgt]

theorem boxDistance_stillTarget_ten :
    boxDistance exactGeometry (stillTarget 10) (pendingCheck 10) originAttack.Position
      = 48 / 5 := by
  decide!

/-- C11 as stated fails: with the still target moved to 10.0 units the box
distance is 9.6 and `Process` flags with severity 1, but it returns false for
the `PlayerAuthInput` packet that triggered the resolution; it only sets
`cancelNext`. -/
theorem Process_box_distance_flag_returns_false :
    315 / 100 < boxDistance exactGeometry (stillTarget 10) (pendingCheck 10)
      originAttack.Position ∧
    (pendingCheck 10).Process exactGeometry (sceneProcessor 10) (Packet.PlayerAuthInput 1)
      = { check :=
            { violations := 4, buffer := 1, attackData := none,
              currentEntPos := ⟨0, -9 / 10, 10⟩, lastEntPos := ⟨0, -9 / 10, 10⟩,
              cancelNext := true, secondaryBuffer := 1 / 2 },
          flags := [{ severity := 1, kind := "bb-dist", dist := some (48 / 5) }],
          ret := false } := by
  constructor
  · rw [boxDistance_stillTarget_ten]; norm_num
  · decide!

/-- C11, amended: in semi-authoritative mode, when the minimum over the 8
target positions of the distance from the claimed attack position to the grown
target box exceeds 3.15, `Process` calls `Flag` once with severity 1 and type
"bb-dist", whatever the rays and the input mode are, returns false for the
`PlayerAuthInput` packet, clears the pending attack and sets `cancelNext`; the
packet that is cancelled is the next attack, for which `Process` returns true
and clears `cancelNext` without recording the attack. -/
theorem Process_box_distance_flag_cancels_next (g : Geometry) (r : ReachA) (p : Processor)
    (InputMode : Nat) (d : UseItemOnEntityTransactionData) (e : Entity)
    (hmode : p.CombatMode = AuthorityType.ModeSemiAuthoritative)
    (hattack : r.attackData = some d)
    (hent : p.SearchEntity d.TargetEntityRuntimeID = some e)
    (hbox : 315 / 100 < boxDistance g e r d.Position) :
    (r.Process g p (Packet.PlayerAuthInput InputMode)).flags
      = [{ severity := 1, kind := "bb-dist",
           dist := some (g.Round (boxDistance g e r d.Position) 4) }] ∧
    (r.Process g p (Packet.PlayerAuthInput InputMode)).ret = false ∧
    (r.Process g p (Packet.PlayerAuthInput InputMode)).check.cancelNext = true ∧
    (r.Process g p (Packet.PlayerAuthInput InputMode)).check.attackData = none ∧
    (r.Process g p (Packet.PlayerAuthInput InputMode)).check.tobasic
      = p.TrackViolation r.tobasic ∧
    ∀ (g' : Geometry) (p' : Processor) (d' : UseItemOnEntityTransactionData),
      p'.CombatMode = AuthorityType.ModeSemiAuthoritative →
      d'.ActionType = UseItemOnEntityActionAttack →
      ((r.Process g p (Packet.PlayerAuthInput InputMode)).check.Process g' p'
        (Packet.InventoryTransaction (TransactionData.UseItemOnEntity d'))).ret = true ∧
      ((r.Process g p (Packet.PlayerAuthInput InputMode)).check.Process g' p'
        (Packet.InventoryTransaction (TransactionData.UseItemOnEntity d'))).check.cancelNext
        = false ∧
      ((r.Process g p (Packet.PlayerAuthInput InputMode)).check.Process g' p'
        (Packet.InventoryTransaction (TransactionData.UseItemOnEntity d'))).check.attackData
        = none := by
  have hres := resolve_box_distance_flag g r p InputMode d e hent hbox
  have hproc : r.Process g p (Packet.PlayerAuthInput InputMode)
      = { check := { flagged p r 1 with cancelNext := true, attackData := none },
          flags := [{ severity := 1, kind := "bb-dist",
                      dist := some (g.Round (boxDistance g e r d.Position) 4) }],
          ret := false } := by
    simp only [Process, hmode, ne_eq, not_true_eq_false, if_false, hattack, hres]
  rw [hproc]
  refine ⟨rfl, rfl, rfl, rfl, ?_, ?_⟩
  · rw [flagged_one]
  · intro g' p' d' hmode' hact
    simp [Process, hmode', hact]

/-- C11, amended, at the scene of the spec moved to 10.0 units. -/
theorem Process_box_distance_flag_cancels_next_witness :
    315 / 100 < boxDistance exactGeometry (stillTarget 10) (pendingCheck 10)
      originAttack.Position ∧
    ((pendingCheck 10).Process exactGeometry (sceneProcessor 10)
      (Packet.PlayerAuthInput 1)).ret = false ∧
    ((pendingCheck 10).Process exactGeometry (sceneProcessor 10)
      (Packet.PlayerAuthInput 1)).check.cancelNext = true ∧
    ((((pendingCheck 10).Process exactGeometry (sceneProcessor 10)
      (Packet.PlayerAuthInput 1)).check.Process exactGeometry (sceneProcessor 10)
        originAttackPacket).ret = true) :=
  ⟨by rw [boxDistance_stillTarget_ten]; norm_num,
   (Process_box_distance_flag_cancels_next exactGeometry (pendingCheck 10) (sceneProcessor 10) 1
     originAttack (stillTarget 10) rfl rfl rfl
     (by rw [boxDistance_stillTarget_ten]; norm_num)).2.1,
   (Process_box_distance_flag_cancels_next exactGeometry (pendingCheck 10) (sceneProcessor 10) 1
     originAttack (stillTarget 10) rfl rfl rfl
     (by rw [boxDistance_stillTarget_ten]; norm_num)).2.2.1,
   ((Process_box_distance_flag_cancels_next exactGeometry (pendingCheck 10) (sceneProcessor 10) 1
     originAttack (stillTarget 10) rfl rfl rfl
     (by rw [boxDistance_stillTarget_ten]; norm_num)).2.2.2.2.2
       exactGeometry (sceneProcessor 10) originAttack rfl rfl).1⟩

/-- C13, amended: in semi-authoritative mode, when a `PlayerAuthInput` packet arrives
with an attack pending whose target entity is no longer found, `Process`
returns false without calling `Flag`, clears the pending attack and leaves the
violations, the buffer, `secondaryBuffer`, `cancelNext` and the stored entity
positions as they were. -/
theorem Process_target_gone_is_inconclusive (g : Geometry) (r : ReachA) (p : Processor)
    (InputMode : Nat) (d : UseItemOnEntityTransactionData)
    (hmode : p.CombatMode = AuthorityType.ModeSemiAuthoritative)
    (hattack : r.attackData = some d)
    (hgone : p.SearchEntity d.TargetEntityRuntimeID = none) :
    r.Process g p (Packet.PlayerAuthInput InputMode)
      = { check := { r with attackData := none }, flags := [], ret := false } := by
  simp only [Process, hmode, ne_eq, not_true_eq_false, if_false, hattack, resolve, hgone]

/-- C13, amended, at the scene of the spec with the attacked entity 1 unknown to
the processor. -/
theorem Process_target_gone_is_inconclusive_witness :
    (pendingCheck 2).Process exactGeometry
        { sceneProcessor 2 with SearchEntity := fun _ => none } (Packet.PlayerAuthInput 1)
      = { check := { pendingCheck 2 with attackData := none }, flags := [], ret := false } :=
  Process_target_gone_is_inconclusive exactGeometry (pendingCheck 2)
    { sceneProcessor 2 with SearchEntity := fun _ => none } 1 originAttack rfl rfl rfl

theorem resolve_miss (g : Geometry) (r : ReachA) (p : Processor) (InputMode : Nat)
    (d : UseItemOnEntityTransactionData) (e : Entity)
    (hent : p.SearchEntity d.TargetEntityRuntimeID = some e)
    (hbox : boxDistance g e r d.Position ≤ 315 / 100)
    (hinput : InputMode ≠ InputModeTouch)
    (hmiss : (raycast g p e r d.Position).valid = false) :
    resolve g r p InputMode d
      = if 45 / 10 ≤ max 0 (min 5 (r.buffer + 1)) then
          { check :=
              { flagged p
                  { r with
                    violations := max 0 (r.violations - 1 / 1000)
                    buffer := max 0 (min 5 (r.buffer + 1)) } 1 with
                cancelNext := true },
            flags := [{ severity := 1, kind := "hitbox", dist := none }], ret := false }
        else
          { check :=
              { r with
                violations := max 0 (r.violations - 1 / 1000)
                buffer := max 0 (min 5 (r.buffer + 1)) },
            flags := [], ret := false } := by
  have hray : raycast g p e { r with violations := max 0 (r.violations - 1 / 1000) } d.Position
      = raycast g p e r d.Position := raycast_congr g p e r _ _ rfl rfl
  have hnot : ¬ boxDistance g e r d.Position > 315 / 100 := not_lt.mpr hbox
  simp only [resolve, hent, if_neg hnot, if_neg hinput, hray, hmiss, Bool.not_false,
    if_true, ReachA.Buff, basic.Buff, ge_iff_le]

theorem attackRound_miss (g : Geometry) (p : Processor) (d : UseItemOnEntityTransactionData)
    (InputMode : Nat) (e : Entity) (r r₀ : ReachA)
    (hmode : p.CombatMode = AuthorityType.ModeSemiAuthoritative)
    (hact : d.ActionType = UseItemOnEntityActionAttack)
    (hent : p.SearchEntity d.TargetEntityRuntimeID = some e)
    (hinput : InputMode ≠ InputModeTouch)
    (hl : r₀.lastEntPos = e.LastPosition) (hc : r₀.currentEntPos = e.Position)
    (hbox : boxDistance g e r₀ d.Position ≤ 315 / 100)
    (hmiss : (raycast g p e r₀ d.Position).valid = false)
    (hcancel : r.cancelNext = false) :
    attackRound g p d InputMode r
      = if 45 / 10 ≤ max 0 (min 5 (r.buffer + 1)) then
          { check :=
              { flagged p
                  { r with
                    violations := max 0 (r.violations - 1 / 1000)
                    buffer := max 0 (min 5 (r.buffer + 1))
                    lastEntPos := e.LastPosition
                    currentEntPos := e.Position
                    attackData := some d } 1 with
                cancelNext := true, attackData := none },
            flags := [{ severity := 1, kind := "hitbox", dist := none }], ret := false }
        else
          { check :=
              { r with
                violations := max 0 (r.violations - 1 / 1000)
                buffer := max 0 (min 5 (r.buffer + 1))
                lastEntPos := e.LastPosition
                currentEntPos := e.Position
                attackData := none },
            flags := [], ret := false } := by
  have hfirst : (r.Process g p
      (Packet.InventoryTransaction (TransactionData.UseItemOnEntity d))).check
      = { r with lastEntPos := e.LastPosition, currentEntPos := e.Position,
                 attackData := some d } := by
    simp [Process, hmode, hact, hcancel, hent]
  have hres := resolve_miss g
    { r with lastEntPos := e.LastPosition, currentEntPos := e.Position, attackData := some d }
    p InputMode d e hent
    (by rw [boxDistance_congr g e r₀ _ _ hl.symm hc.symm]; exact hbox) hinput
    (by rw [raycast_congr g p e r₀ _ _ hl.symm hc.symm]; exact hmiss)
  unfold attackRound
  rw [hfirst]
  simp only [Process, hmode, ne_eq, not_true_eq_false, if_false, hres]
  split <;> rfl

theorem attackRound_miss_quiet (g : Geometry) (p : Processor)
    (d : UseItemOnEntityTransactionData) (InputMode : Nat) (e : Entity) (r r₀ : ReachA)
    (hmode : p.CombatMode = AuthorityType.ModeSemiAuthoritative)
    (hact : d.ActionType = UseItemOnEntityActionAttack)
    (hent : p.SearchEntity d.TargetEntityRuntimeID = some e)
    (hinput : InputMode ≠ InputModeTouch)
    (hl : r₀.lastEntPos = e.LastPosition) (hc : r₀.currentEntPos = e.Position)
    (hbox : boxDistance g e r₀ d.Position ≤ 315 / 100)
    (hmiss : (raycast g p e r₀ d.Position).valid = false)
    (hcancel : r.cancelNext = false) (hb0 : 0 ≤ r.buffer) (hb : r.buffer + 1 < 45 / 10) :
    (attackRound g p d InputMode r).flags = [] ∧
    (attackRound g p d InputMode r).check.cancelNext = false ∧
    (attackRound g p d InputMode r).check.buffer = r.buffer + 1 := by
  have hbuf : max 0 (min 5 (r.buffer + 1)) = r.buffer + 1 := by
    rw [min_eq_right (by linarith), max_eq_right (by linarith)]
  have hlow : ¬ 45 / 10 ≤ max 0 (min 5 (r.buffer + 1)) := by
    rw [hbuf]; exact not_le.mpr hb
  rw [attackRound_miss g p d InputMode e r r₀ hmode hact hent hinput hl hc hbox hmiss hcancel,
    if_neg hlow]
  exact ⟨rfl, hcancel, hbuf⟩

theorem attackRound_miss_flags (g : Geometry) (p : Processor)
    (d : UseItemOnEntityTransactionData) (InputMode : Nat) (e : Entity) (r r₀ : ReachA)
    (hmode : p.CombatMode = AuthorityType.ModeSemiAuthoritative)
    (hact : d.ActionType = UseItemOnEntityActionAttack)
    (hent : p.SearchEntity d.TargetEntityRuntimeID = some e)
    (hinput : InputMode ≠ InputModeTouch)
    (hl : r₀.lastEntPos = e.LastPosition) (hc : r₀.currentEntPos = e.Position)
    (hbox : boxDistance g e r₀ d.Position ≤ 315 / 100)
    (hmiss : (raycast g p e r₀ d.Position).valid = false)
    (hcancel : r.cancelNext = false) (hb : r.buffer = 4) :
    (attackRound g p d InputMode r).flags
      = [{ severity := 1, kind := "hitbox", dist := none }] := by
  have hhigh : 45 / 10 ≤ max 0 (min 5 (r.buffer + 1)) := by
    rw [hb]; norm_num
  rw [attackRound_miss g p d InputMode e r r₀ hmode hact hent hinput hl hc hbox hmiss hcancel,
    if_pos hhigh]

/-- C12: in semi-authoritative mode, for a resolution with box distance at most
3.15, an input mode other than touch and no sampled ray meeting the target box,
`Process` calls `Flag` (type "hitbox", severity 1) and sets `cancelNext` exactly
when the value returned by `Buff(1, 5)` is at least 4.5, and returns false
either way.  With `Buff` adding to the buffer and clamping into `[0, 5]`, five
consecutive all-miss attacks from an empty buffer raise no flag in the first
four rounds and the hitbox flag in the fifth. -/
theorem Process_miss_flags_at_buffer_threshold (g : Geometry) (p : Processor)
    (InputMode : Nat) (d : UseItemOnEntityTransactionData) (e : Entity)
    (hmode : p.CombatMode = AuthorityType.ModeSemiAuthoritative)
    (hent : p.SearchEntity d.TargetEntityRuntimeID = some e)
    (hinput : InputMode ≠ InputModeTouch) :
    (∀ r : ReachA, r.attackData = some d →
      boxDistance g e r d.Position ≤ 315 / 100 →
      (raycast g p e r d.Position).valid = false →
      (r.Process g p (Packet.PlayerAuthInput InputMode)).ret = false ∧
      (45 / 10 ≤ (r.Buff 1 5).2 →
        (r.Process g p (Packet.PlayerAuthInput InputMode)).flags
          = [{ severity := 1, kind := "hitbox", dist := none }] ∧
        (r.Process g p (Packet.PlayerAuthInput InputMode)).check.cancelNext = true) ∧
      ((r.Buff 1 5).2 < 45 / 10 →
        (r.Process g p (Packet.PlayerAuthInput InputMode)).flags = [] ∧
        (r.Process g p (Packet.PlayerAuthInput InputMode)).check.cancelNext = r.cancelNext ∧
        (r.Process g p (Packet.PlayerAuthInput InputMode)).check.buffer = (r.Buff 1 5).2)) ∧
    (∀ r r₀ : ReachA, d.ActionType = UseItemOnEntityActionAttack →
      r₀.lastEntPos = e.LastPosition → r₀.currentEntPos = e.Position →
      boxDistance g e r₀ d.Position ≤ 315 / 100 →
      (raycast g p e r₀ d.Position).valid = false →
      r.cancelNext = false → r.buffer = 0 →
      attackRounds g p d InputMode 5 r
        = [[], [], [], [], [{ severity := 1, kind := "hitbox", dist := none }]]) := by
  constructor
  · intro r hattack hbox hmiss
    have hres := resolve_miss g r p InputMode d e hent hbox hinput hmiss
    have hbuff : (r.Buff 1 5).2 = max 0 (min 5 (r.buffer + 1)) := rfl
    rw [hbuff]
    by_cases hthr : 45 / 10 ≤ max 0 (min 5 (r.buffer + 1))
    · rw [if_pos hthr] at hres
      have hproc : r.Process g p (Packet.PlayerAuthInput InputMode)
          = { check :=
                { flagged p
                    { r with
                      violations := max 0 (r.violations - 1 / 1000)
                      buffer := max 0 (min 5 (r.buffer + 1)) } 1 with
                  cancelNext := true, attackData := none },
              flags := [{ severity := 1, kind := "hitbox", dist := none }], ret := false } := by
        simp only [Process, hmode, ne_eq, not_true_eq_false, if_false, hattack, hres]
      rw [hproc]
      exact ⟨rfl, fun _ => ⟨rfl, rfl⟩, fun h => absurd hthr (not_le.mpr h)⟩
    · rw [if_neg hthr] at hres
      have hproc : r.Process g p (Packet.PlayerAuthInput InputMode)
          = { check :=
                { r with
                  violations := max 0 (r.violations - 1 / 1000)
                  buffer := max 0 (min 5 (r.buffer + 1))
                  attackData := none },
              flags := [], ret := false } := by
        simp only [Process, hmode, ne_eq, not_true_eq_false, if_false, hattack, hres]
      rw [hproc]
      exact ⟨rfl, fun h => absurd h hthr, fun _ => ⟨rfl, rfl, rfl⟩⟩
  · intro r r₀ hact hl hc hbox hmiss hcancel hb
    obtain ⟨f1, c1, b1⟩ := attackRound_miss_quiet g p d InputMode e r r₀ hmode hact hent hinput
      hl hc hbox hmiss hcancel (by rw [hb]) (by rw [hb]; norm_num)
    rw [hb] at b1
    obtain ⟨f2, c2, b2⟩ := attackRound_miss_quiet g p d InputMode e _ r₀ hmode hact hent hinput
      hl hc hbox hmiss c1 (by rw [b1]; norm_num) (by rw [b1]; norm_num)
    rw [b1] at b2
    obtain ⟨f3, c3, b3⟩ := attackRound_miss_quiet g p d InputMode e _ r₀ hmode hact hent hinput
      hl hc hbox hmiss c2 (by rw [b2]; norm_num) (by rw [b2]; norm_num)
    rw [b2] at b3
    obtain ⟨f4, c4, b4⟩ := attackRound_miss_quiet g p d InputMode e _ r₀ hmode hact hent hinput
      hl hc hbox hmiss c3 (by rw [b3]; norm_num) (by rw [b3]; norm_num)
    rw [b3] at b4
    have f5 := attackRound_miss_flags g p d InputMode e _ r₀ hmode hact hent hinput
      hl hc hbox hmiss c4 (by rw [b4]; norm_num)
    simp only [attackRounds, f1, f2, f3, f4, f5]

theorem raycast_away_two :
    (raycast exactGeometry (awayProcessor 2) (stillTarget 2) (pendingCheck 2)
      originAttack.Position).valid = false := by
  decide!

/-- C12, at the scene of the spec with the attacker looking away from the
target: every ray misses, and from an empty buffer the fifth round is the first
to flag. -/
theorem Process_miss_flags_at_buffer_threshold_witness :
    boxDistance exactGeometry (stillTarget 2) (pendingCheck 2) originAttack.Position
      ≤ 315 / 100 ∧
    (raycast exactGeometry (awayProcessor 2) (stillTarget 2) (pendingCheck 2)
      originAttack.Position).valid = false ∧
    attackRounds exactGeometry (awayProcessor 2) originAttack 1 5
        { pendingCheck 2 with buffer := 0 }
      = [[], [], [], [], [{ severity := 1, kind := "hitbox", dist := none }]] :=
  ⟨by rw [boxDistance_stillTarget_two]; norm_num, raycast_away_two,
   (Process_miss_flags_at_buffer_threshold exactGeometry (awayProcessor 2) 1 originAttack
      (stillTarget 2) rfl rfl (by decide)).2 { pendingCheck 2 with buffer := 0 } (pendingCheck 2)
      rfl rfl rfl (by rw [boxDistance_stillTarget_two]; norm_num) raycast_away_two rfl rfl⟩

theorem resolve_far_hit (g : Geometry) (r : ReachA) (p : Processor) (InputMode : Nat)
    (d : UseItemOnEntityTransactionData) (e : Entity)
    (hent : p.SearchEntity d.TargetEntityRuntimeID = some e)
    (hbox : boxDistance g e r d.Position ≤ 315 / 100)
    (hinput : InputMode ≠ InputModeTouch)
    (hvalid : (raycast g p e r d.Position).valid = true)
    (havg : legalAverage <
      g.DivFloat64 (raycast g p e r d.Position).distAvg (raycast g p e r d.Position).totalHits) :
    resolve g r p InputMode d
      = if 1 < min (r.secondaryBuffer + 1) 5 then
          { check :=
              { flagged p
                  { r with
                    violations := max 0 (r.violations - 1 / 1000)
                    buffer := max 0 (min 5 (r.buffer + -25 / 1000))
                    secondaryBuffer := min (r.secondaryBuffer + 1) 5 } 1 with
                cancelNext := true },
            flags := [{ severity := 1, kind := "raycast",
                        dist := some (g.Round (g.DivFloat64 (raycast g p e r d.Position).distAvg
                          (raycast g p e r d.Position).totalHits) 4) }],
            ret := false }
        else
          { check :=
              { r with
                violations := max 0 (r.violations - 1 / 1000)
                buffer := max 0 (min 5 (r.buffer + -25 / 1000))
                secondaryBuffer := min (r.secondaryBuffer + 1) 5
                cancelNext := true },
            flags := [], ret := false } := by
  have hray : raycast g p e { r with violations := max 0 (r.violations - 1 / 1000) } d.Position
      = raycast g p e r d.Position := raycast_congr g p e r _ _ rfl rfl
  have hnot : ¬ boxDistance g e r d.Position > 315 / 100 := not_lt.mpr hbox
  have hfar : ¬ g.DivFloat64 (raycast g p e r d.Position).distAvg
    (raycast g p e r d.Position).totalHits
      ≤ legalAverage := not_le.mpr havg
  simp only [resolve, hent, if_neg hnot, if_neg hinput, hray, hvalid, Bool.not_true,
    Bool.false_eq_true, if_false, if_neg hfar, ReachA.Buff, basic.Buff, gt_iff_lt]

theorem Process_far_hit (g : Geometry) (r : ReachA) (p : Processor) (InputMode : Nat)
    (d : UseItemOnEntityTransactionData) (e : Entity)
    (hmode : p.CombatMode = AuthorityType.ModeSemiAuthoritative)
    (hattack : r.attackData = some d)
    (hent : p.SearchEntity d.TargetEntityRuntimeID = some e)
    (hbox : boxDistance g e r d.Position ≤ 315 / 100)
    (hinput : InputMode ≠ InputModeTouch)
    (hvalid : (raycast g p e r d.Position).valid = true)
    (havg : legalAverage <
      g.DivFloat64 (raycast g p e r d.Position).distAvg (raycast g p e r d.Position).totalHits) :
    r.Process g p (Packet.PlayerAuthInput InputMode)
      = if 1 < min (r.secondaryBuffer + 1) 5 then
          { check :=
              { flagged p
                  { r with
                    violations := max 0 (r.violations - 1 / 1000)
                    buffer := max 0 (min 5 (r.buffer + -25 / 1000))
                    secondaryBuffer := min (r.secondaryBuffer + 1) 5 } 1 with
                cancelNext := true, attackData := none },
            flags := [{ severity := 1, kind := "raycast",
                        dist := some (g.Round (g.DivFloat64 (raycast g p e r d.Position).distAvg
                          (raycast g p e r d.Position).totalHits) 4) }],
            ret := false }
        else
          { check :=
              { r with
                violations := max 0 (r.violations - 1 / 1000)
                buffer := max 0 (min 5 (r.buffer + -25 / 1000))
                secondaryBuffer := min (r.secondaryBuffer + 1) 5
                cancelNext := true, attackData := none },
            flags := [], ret := false } := by
  have hres := resolve_far_hit g r p InputMode d e hent hbox hinput hvalid havg
  simp only [Process, hmode, ne_eq, not_true_eq_false, if_false, hattack, hres]
  split <;> rfl

/-- C15, amended: in semi-authoritative mode, for a resolution with box distance
at most 3.15, an input mode other than touch, at least one ray hit and an
average hit distance, as `Process` computes it in `float64`, above the
`float64` of the literal 3.0001, `Process` sets `secondaryBuffer` to
`min(secondaryBuffer + 1, 5)`, calls `Flag` (type "raycast", severity 1) exactly
when the new value is greater than 1, sets `cancelNext` either way and returns
false.  From `secondaryBuffer = 0` the first such resolution raises no flag; the
attack packet that follows is cancelled by `cancelNext` and not recorded, and
the resolution of the next recorded attack, the second such resolution in a
row, raises the flag. -/
theorem Process_far_hit_flags_above_one (g : Geometry) (p : Processor)
    (InputMode : Nat) (d : UseItemOnEntityTransactionData) (e : Entity)
    (hmode : p.CombatMode = AuthorityType.ModeSemiAuthoritative)
    (hent : p.SearchEntity d.TargetEntityRuntimeID = some e)
    (hinput : InputMode ≠ InputModeTouch) :
    (∀ r : ReachA, r.attackData = some d →
      boxDistance g e r d.Position ≤ 315 / 100 →
      (raycast g p e r d.Position).valid = true →
      legalAverage <
        g.DivFloat64 (raycast g p e r d.Position).distAvg (raycast g p e r d.Position).totalHits →
      (r.Process g p (Packet.PlayerAuthInput InputMode)).ret = false ∧
      (r.Process g p (Packet.PlayerAuthInput InputMode)).check.secondaryBuffer
        = min (r.secondaryBuffer + 1) 5 ∧
      (r.Process g p (Packet.PlayerAuthInput InputMode)).check.cancelNext = true ∧
      (1 < min (r.secondaryBuffer + 1) 5 →
        (r.Process g p (Packet.PlayerAuthInput InputMode)).flags
          = [{ severity := 1, kind := "raycast",
               dist := some (g.Round (g.DivFloat64 (raycast g p e r d.Position).distAvg
                 (raycast g p e r d.Position).totalHits) 4) }]) ∧
      (min (r.secondaryBuffer + 1) 5 ≤ 1 →
        (r.Process g p (Packet.PlayerAuthInput InputMode)).flags = [])) ∧
    (∀ r : ReachA, r.attackData = some d →
      d.ActionType = UseItemOnEntityActionAttack →
      r.lastEntPos = e.LastPosition → r.currentEntPos = e.Position →
      boxDistance g e r d.Position ≤ 315 / 100 →
      (raycast g p e r d.Position).valid = true →
      legalAverage <
        g.DivFloat64 (raycast g p e r d.Position).distAvg (raycast g p e r d.Position).totalHits →
      r.secondaryBuffer = 0 →
      (r.Process g p (Packet.PlayerAuthInput InputMode)).flags = [] ∧
      ((r.Process g p (Packet.PlayerAuthInput InputMode)).check.Process g p
        (Packet.InventoryTransaction (TransactionData.UseItemOnEntity d))).ret = true ∧
      ((r.Process g p (Packet.PlayerAuthInput InputMode)).check.Process g p
        (Packet.InventoryTransaction (TransactionData.UseItemOnEntity d))).check.attackData
        = none ∧
      (attackRound g p d InputMode
        ((r.Process g p (Packet.PlayerAuthInput InputMode)).check.Process g p
          (Packet.InventoryTransaction (TransactionData.UseItemOnEntity d))).check).flags
        = [{ severity := 1, kind := "raycast",
             dist := some (g.Round (g.DivFloat64 (raycast g p e r d.Position).distAvg
               (raycast g p e r d.Position).totalHits) 4) }]) := by
  constructor
  · intro r hattack hbox hvalid havg
    have hproc := Process_far_hit g r p InputMode d e hmode hattack hent hbox hinput hvalid havg
    by_cases hthr : 1 < min (r.secondaryBuffer + 1) 5
    · rw [if_pos hthr] at hproc
      rw [hproc]
      refine ⟨rfl, ?_, rfl, fun _ => rfl, fun h => absurd hthr (not_lt.mpr h)⟩
      rw [flagged_one]
    · rw [if_neg hthr] at hproc
      rw [hproc]
      exact ⟨rfl, rfl, rfl, fun h => absurd h hthr, fun _ => rfl⟩
  · intro r hattack hact hl hc hbox hvalid havg hsb
    have hproc := Process_far_hit g r p InputMode d e hmode hattack hent hbox hinput hvalid havg
    have hlow : ¬ 1 < min (r.secondaryBuffer + 1) 5 := by
      rw [hsb]; norm_num
    rw [if_neg hlow] at hproc
    rw [hproc]
    refine ⟨rfl, ?_, ?_, ?_⟩
    · simp [Process, hmode, hact]
    · simp [Process, hmode, hact]
    · have hcancelled : (({ r with
            violations := max 0 (r.violations - 1 / 1000)
            buffer := max 0 (min 5 (r.buffer + -25 / 1000))
            secondaryBuffer := min (r.secondaryBuffer + 1) 5
            cancelNext := true, attackData := none } : ReachA).Process g p
          (Packet.InventoryTransaction (TransactionData.UseItemOnEntity d))).check
          = { r with
              violations := max 0 (r.violations - 1 / 1000)
              buffer := max 0 (min 5 (r.buffer + -25 / 1000))
              secondaryBuffer := min (r.secondaryBuffer + 1) 5
              cancelNext := false, attackData := none } := by
        simp [Process, hmode, hact]
      rw [hcancelled]
      have hrecorded : (({ r with
            violations := max 0 (r.violations - 1 / 1000)
            buffer := max 0 (min 5 (r.buffer + -25 / 1000))
            secondaryBuffer := min (r.secondaryBuffer + 1) 5
            cancelNext := false, attackData := none } : ReachA).Process g p
          (Packet.InventoryTransaction (TransactionData.UseItemOnEntity d))).check
          = { r with
              violations := max 0 (r.violations - 1 / 1000)
              buffer := max 0 (min 5 (r.buffer + -25 / 1000))
              secondaryBuffer := min (r.secondaryBuffer + 1) 5
              cancelNext := false, attackData := some d } := by
        simp [Process, hmode, hact, hent, hl, hc]
      unfold attackRound
      rw [hrecorded]
      have hbd : boxDistance g e
          ({ r with
            violations := max 0 (r.violations - 1 / 1000)
            buffer := max 0 (min 5 (r.buffer + -25 / 1000))
            secondaryBuffer := min (r.secondaryBuffer + 1) 5
            cancelNext := false, attackData := some d } : ReachA) d.Position
          = boxDistance g e r d.Position := boxDistance_congr g e r _ _ rfl rfl
      have hrc : raycast g p e
          ({ r with
            violations := max 0 (r.violations - 1 / 1000)
            buffer := max 0 (min 5 (r.buffer + -25 / 1000))
            secondaryBuffer := min (r.secondaryBuffer + 1) 5
            cancelNext := false, attackData := some d } : ReachA) d.Position
          = raycast g p e r d.Position := raycast_congr g p e r _ _ rfl rfl
      have hsecond := Process_far_hit g
        { r with
          violations := max 0 (r.violations - 1 / 1000)
          buffer := max 0 (min 5 (r.buffer + -25 / 1000))
          secondaryBuffer := min (r.secondaryBuffer + 1) 5
          cancelNext := false, attackData := some d }
        p InputMode d e hmode rfl hent
        (by rw [hbd]; exact hbox) hinput
        (by rw [hrc]; exact hvalid)
        (by rw [hrc]; exact havg)
      have hhigh : 1 < min (min (r.secondaryBuffer + 1) 5 + 1) 5 := by
        rw [hsb]; norm_num
      rw [hsecond]
      simp only [if_pos hhigh, hrc]

theorem boxDistance_stillTarget_far :
    boxDistance exactGeometry (stillTarget (7 / 2)) (pendingCheck (7 / 2))
      originAttack.Position = 31 / 10 := by
  decide!

theorem raycast_stillTarget_far :
    raycast exactGeometry (sceneProcessor (7 / 2)) (stillTarget (7 / 2)) (pendingCheck (7 / 2))
      originAttack.Position
      = { entPos := ⟨0, -9 / 10, 7 / 2⟩, rot := ⟨0, 0, 1⟩, minDist := 31 / 10, valid := true,
          distAvg := 992 / 5, totalHits := 64 } := by
  decide!

/-- C15, amended, at the scene of the spec with the target 3.5 units away: the box is
3.1 away and each ray hits it at 3.1; with `secondaryBuffer = 1/2` the new value
3/2 is above 1 and the raycast flag is raised. -/
theorem Process_far_hit_flags_above_one_witness :
    boxDistance exactGeometry (stillTarget (7 / 2)) (pendingCheck (7 / 2))
      originAttack.Position ≤ 315 / 100 ∧
    (raycast exactGeometry (sceneProcessor (7 / 2)) (stillTarget (7 / 2))
      (pendingCheck (7 / 2)) originAttack.Position).valid = true ∧
    ((pendingCheck (7 / 2)).Process exactGeometry (sceneProcessor (7 / 2))
      (Packet.PlayerAuthInput 1)).check.secondaryBuffer
      = min ((pendingCheck (7 / 2)).secondaryBuffer + 1) 5 ∧
    ((pendingCheck (7 / 2)).Process exactGeometry (sceneProcessor (7 / 2))
      (Packet.PlayerAuthInput 1)).check.cancelNext = true :=
  ⟨by rw [boxDistance_stillTarget_far]; norm_num, by rw [raycast_stillTarget_far],
   ((Process_far_hit_flags_above_one exactGeometry (sceneProcessor (7 / 2)) 1 originAttack
      (stillTarget (7 / 2)) rfl rfl (by decide)).1 (pendingCheck (7 / 2)) rfl
      (by rw [boxDistance_stillTarget_far]; norm_num) (by rw [raycast_stillTarget_far])
      (by rw [raycast_stillTarget_far]; decide!)).2.1,
   ((Process_far_hit_flags_above_one exactGeometry (sceneProcessor (7 / 2)) 1 originAttack
      (stillTarget (7 / 2)) rfl rfl (by decide)).1 (pendingCheck (7 / 2)) rfl
      (by rw [boxDistance_stillTarget_far]; norm_num) (by rw [raycast_stillTarget_far])
      (by rw [raycast_stillTarget_far]; decide!)).2.2.1⟩

theorem rayStep_rot (g : Geometry) (e : Entity) (attackPos dRot : Vec3) (st : RayState)
    (x : Nat) :
    (rayStep g e attackPos dRot st x).rot = if x ≠ 0 then st.rot.Add dRot else st.rot := by
  unfold rayStep
  by_cases hx : x ≠ 0
  · simp only [if_pos hx]
    split <;> rfl
  · simp only [if_neg hx]
    split <;> rfl

theorem foldl_rayStep_rot (g : Geometry) (e : Entity) (attackPos dRot : Vec3) (xs : List Nat)
    (st : RayState) :
    (xs.foldl (rayStep g e attackPos dRot) st).rot
      = (fun v : Vec3 => v.Add dRot)^[xs.countP (fun x => decide (x ≠ 0))] st.rot := by
  induction xs generalizing st with
  | nil => rfl
  | cons x xs ih =>
    rw [List.foldl_cons, ih, rayStep_rot]
    by_cases hx : x = 0
    · simp [hx]
    · simp [hx, List.countP_cons, Function.iterate_succ_apply]

theorem rayOuterStep_rot (g : Geometry) (e : Entity) (attackPos dPos dRot : Vec3)
    (st : RayState) (i : Nat) :
    (rayOuterStep g e attackPos dPos dRot st i).rot
      = (fun v : Vec3 => v.Add dRot)^[7] st.rot := by
  unfold rayOuterStep
  rw [foldl_rayStep_rot]
  rfl

theorem foldl_rayOuterStep_rot (g : Geometry) (e : Entity) (attackPos dPos dRot : Vec3)
    (is : List Nat) (st : RayState) :
    (is.foldl (rayOuterStep g e attackPos dPos dRot) st).rot
      = (fun v : Vec3 => v.Add dRot)^[7 * is.length] st.rot := by
  induction is generalizing st with
  | nil => rfl
  | cons i is ih =>
    rw [List.foldl_cons, ih, rayOuterStep_rot, ← Function.iterate_add_apply, List.length_cons]
    congr 1

theorem raycast_rot (g : Geometry) (p : Processor) (e : Entity) (r : ReachA)
    (attackPos : Vec3) :
    (raycast g p e r attackPos).rot
      = (fun v : Vec3 => v.Add
          (((g.DirectionVector p.Entity.Rotation.z p.Entity.Rotation.x).Sub
            (g.DirectionVector p.Entity.LastRotation.z p.Entity.LastRotation.x)).Mul
              (1 / (interpolationInterations : ℚ))))^[56]
        (g.DirectionVector p.Entity.LastRotation.z p.Entity.LastRotation.x) := by
  unfold raycast
  rw [foldl_rayOuterStep_rot]
  rfl

/-- C14 fails on the code: `rot` is not set back to the last direction when the
outer loop moves to the next target position, so it keeps growing by a step of
one eighth of the turn at each of the 7 later inner iterations of each of the 8
outer ones.  For an attacker turning from the z axis, direction (0, 0, 1), to
the x axis, direction (1, 0, 0), the direction cast in the last sample is
(7, 0, -6), which is none of the eight blends `last + (k/8)*(current - last)`
with `0 ≤ k ≤ 7`. -/
theorem raycast_direction_overshoots :
    exactGeometry.DirectionVector (turningProcessor 2).Entity.LastRotation.z
      (turningProcessor 2).Entity.LastRotation.x = ⟨0, 0, 1⟩ ∧
    exactGeometry.DirectionVector (turningProcessor 2).Entity.Rotation.z
      (turningProcessor 2).Entity.Rotation.x = ⟨1, 0, 0⟩ ∧
    (raycast exactGeometry (turningProcessor 2) (stillTarget 2) (pendingCheck 2)
      originAttack.Position).rot = ⟨7, 0, -6⟩ ∧
    ((List.range 8).all fun k =>
      decide ((⟨7, 0, -6⟩ : Vec3) ≠
        (⟨0, 0, 1⟩ : Vec3).Add (((⟨1, 0, 0⟩ : Vec3).Sub ⟨0, 0, 1⟩).Mul ((k : ℚ) / 8)))) = true := by
  refine ⟨by decide!, by decide!, by decide!, by decide!⟩

theorem flagged_bounds (p : Processor) (r : ReachA) (severity : ℚ)
    (htrack : ∀ b : basic, 0 ≤ b.violations → 0 ≤ (p.TrackViolation b).violations)
    (hv : 0 ≤ r.violations) :
    0 ≤ (flagged p r severity).violations ∧
    (flagged p r severity).secondaryBuffer = r.secondaryBuffer := by
  unfold flagged
  split
  · exact ⟨hv, rfl⟩
  · exact ⟨htrack _ hv, rfl⟩

theorem resolve_preserves_bounds (g : Geometry) (r : ReachA) (p : Processor) (InputMode : Nat)
    (d : UseItemOnEntityTransactionData)
    (hsb0 : 0 ≤ r.secondaryBuffer) (hsb5 : r.secondaryBuffer ≤ 5) (hv : 0 ≤ r.violations)
    (htrack : ∀ b : basic, 0 ≤ b.violations → 0 ≤ (p.TrackViolation b).violations) :
    0 ≤ (resolve g r p InputMode d).check.secondaryBuffer ∧
    (resolve g r p InputMode d).check.secondaryBuffer ≤ 5 ∧
    0 ≤ (resolve g r p InputMode d).check.violations := by
  unfold resolve
  split
  · exact ⟨hsb0, hsb5, hv⟩
  · rename_i e hent
    simp only
    split
    · obtain ⟨h1, h2⟩ := flagged_bounds p r 1 htrack hv
      refine ⟨?_, ?_, h1⟩
      · exact le_of_le_of_eq hsb0 h2.symm
      · exact le_of_eq_of_le h2 hsb5
    · split
      · exact ⟨hsb0, hsb5, le_max_left _ _⟩
      · split
        · split
          · obtain ⟨h1, h2⟩ := flagged_bounds p
              ((({ r with violations := max 0 (r.violations - 1 / 1000) } : ReachA).Buff 1 5).1)
              1 htrack (le_max_left _ _)
            refine ⟨?_, ?_, h1⟩
            · exact le_of_le_of_eq hsb0 h2.symm
            · exact le_of_eq_of_le h2 hsb5
          · exact ⟨hsb0, hsb5, le_max_left _ _⟩
        · split
          · have hdec : r.secondaryBuffer - 75 / 10000 ≤ 5 := by linarith
            exact ⟨le_max_left _ _, max_le (by norm_num) hdec, le_max_left _ _⟩
          · split
            · obtain ⟨h1, h2⟩ := flagged_bounds p
                ({ (({ r with violations := max 0 (r.violations - 1 / 1000) } : ReachA).Buff
                      (-25 / 1000) 5).1 with
                   secondaryBuffer := min (r.secondaryBuffer + 1) 5 })
                1 htrack (le_max_left _ _)
              refine ⟨?_, ?_, h1⟩
              · have hinc : 0 ≤ r.secondaryBuffer + 1 := by linarith
                exact le_of_le_of_eq (le_min hinc (by norm_num)) h2.symm
              · exact le_of_eq_of_le h2 (min_le_right _ _)
            · have hinc : 0 ≤ r.secondaryBuffer + 1 := by linarith
              exact ⟨le_min hinc (by norm_num), min_le_right _ _, le_max_left _ _⟩

/-- C20: if `0 ≤ secondaryBuffer ≤ 5` and `violations ≥ 0` before a call, then
after `Process` on any packet, in any mode and in any branch,
`0 ≤ secondaryBuffer ≤ 5` and `violations ≥ 0`, provided the `TrackViolation`
behind `Flag` keeps a non-negative score non-negative (`Buff` touches the
buffer only). -/
theorem Process_preserves_score_bounds (g : Geometry) (r : ReachA) (p : Processor) (pk : Packet)
    (hsb0 : 0 ≤ r.secondaryBuffer) (hsb5 : r.secondaryBuffer ≤ 5) (hv : 0 ≤ r.violations)
    (htrack : ∀ b : basic, 0 ≤ b.violations → 0 ≤ (p.TrackViolation b).violations) :
    0 ≤ (r.Process g p pk).check.secondaryBuffer ∧
    (r.Process g p pk).check.secondaryBuffer ≤ 5 ∧
    0 ≤ (r.Process g p pk).check.violations := by
  unfold Process
  split
  · exact ⟨hsb0, hsb5, hv⟩
  · split
    · split
      · exact ⟨hsb0, hsb5, hv⟩
      · split
        · exact ⟨hsb0, hsb5, hv⟩
        · split
          · exact ⟨hsb0, hsb5, hv⟩
          · split
            · exact ⟨hsb0, hsb5, hv⟩
            · exact ⟨hsb0, hsb5, hv⟩
    · split
      · exact ⟨hsb0, hsb5, hv⟩
      · exact resolve_preserves_bounds g r p _ _ hsb0 hsb5 hv htrack
    · exact ⟨hsb0, hsb5, hv⟩

/-- C20, at the far-hit scene, where the raycast branch flags and raises
`secondaryBuffer` from 1/2 to 3/2. -/
theorem Process_preserves_score_bounds_witness :
    0 ≤ ((pendingCheck (7 / 2)).Process exactGeometry (sceneProcessor (7 / 2))
      (Packet.PlayerAuthInput 1)).check.secondaryBuffer ∧
    ((pendingCheck (7 / 2)).Process exactGeometry (sceneProcessor (7 / 2))
      (Packet.PlayerAuthInput 1)).check.secondaryBuffer ≤ 5 ∧
    0 ≤ ((pendingCheck (7 / 2)).Process exactGeometry (sceneProcessor (7 / 2))
      (Packet.PlayerAuthInput 1)).check.violations :=
  Process_preserves_score_bounds exactGeometry (pendingCheck (7 / 2)) (sceneProcessor (7 / 2))
    (Packet.PlayerAuthInput 1) (by decide!) (by decide!) (by decide!)
    (fun b hb => by
      show 0 ≤ b.violations + 1
      linarith)

end ReachFacts

/-! ## The multi-target check of `check/kill_aura_b.go` -/

section KillAuraFacts

open KillAuraB

theorem inner_fold_min (g : Geometry) (a : Nat × Entity) (l : EntityMap) (acc : ℚ) :
    l.foldl (fun m b => if b.1 ≠ a.1 then min m (pairDistance g a.2 b.2) else m) acc ≤ acc ∧
    (∀ b ∈ l, b.1 ≠ a.1 →
      l.foldl (fun m b => if b.1 ≠ a.1 then min m (pairDistance g a.2 b.2) else m) acc
        ≤ pairDistance g a.2 b.2) ∧
    (l.foldl (fun m b => if b.1 ≠ a.1 then min m (pairDistance g a.2 b.2) else m) acc = acc ∨
      ∃ b ∈ l, b.1 ≠ a.1 ∧
        l.foldl (fun m b => if b.1 ≠ a.1 then min m (pairDistance g a.2 b.2) else m) acc
          = pairDistance g a.2 b.2) := by
  induction l generalizing acc with
  | nil => exact ⟨le_refl _, fun b hb => absurd hb (List.not_mem_nil b), Or.inl rfl⟩
  | cons c l ih =>
    simp only [List.foldl_cons]
    by_cases hc : c.1 ≠ a.1
    · simp only [if_pos hc]
      obtain ⟨h1, h2, h3⟩ := ih (min acc (pairDistance g a.2 c.2))
      refine ⟨le_trans h1 (min_le_left _ _), ?_, ?_⟩
      · intro b hb hne
        rcases List.mem_cons.mp hb with rfl | hmem
        · exact le_trans h1 (min_le_right _ _)
        · exact h2 b hmem hne
      · rcases h3 with h | ⟨b, hb, hne, h⟩
        · rcases min_choice acc (pairDistance g a.2 c.2) with hm | hm
          · left; rw [h, hm]
          · right; exact ⟨c, List.mem_cons_self _ _, hc, by rw [h, hm]⟩
        · right; exact ⟨b, List.mem_cons_of_mem _ hb, hne, h⟩
    · simp only [if_neg hc]
      obtain ⟨h1, h2, h3⟩ := ih acc
      refine ⟨h1, ?_, ?_⟩
      · intro b hb hne
        rcases List.mem_cons.mp hb with rfl | hmem
        · exact absurd hne hc
        · exact h2 b hmem hne
      · rcases h3 with h | ⟨b, hb, hne, h⟩
        · left; exact h
        · right; exact ⟨b, List.mem_cons_of_mem _ hb, hne, h⟩

theorem outer_fold_min (g : Geometry) (l m : EntityMap) (acc : ℚ) :
    l.foldl (fun x a =>
      m.foldl (fun y b => if b.1 ≠ a.1 then min y (pairDistance g a.2 b.2) else y) x) acc
      ≤ acc ∧
    (∀ a ∈ l, ∀ b ∈ m, b.1 ≠ a.1 →
      l.foldl (fun x a =>
        m.foldl (fun y b => if b.1 ≠ a.1 then min y (pairDistance g a.2 b.2) else y) x) acc
        ≤ pairDistance g a.2 b.2) ∧
    (l.foldl (fun x a =>
        m.foldl (fun y b => if b.1 ≠ a.1 then min y (pairDistance g a.2 b.2) else y) x) acc
        = acc ∨
      ∃ a ∈ l, ∃ b ∈ m, b.1 ≠ a.1 ∧
        l.foldl (fun x a =>
          m.foldl (fun y b => if b.1 ≠ a.1 then min y (pairDistance g a.2 b.2) else y) x) acc
          = pairDistance g a.2 b.2) := by
  induction l generalizing acc with
  | nil => exact ⟨le_refl _, fun a ha => absurd ha (List.not_mem_nil a), Or.inl rfl⟩
  | cons c l ih =>
    simp only [List.foldl_cons]
    obtain ⟨i1, i2, i3⟩ := inner_fold_min g c m acc
    obtain ⟨h1, h2, h3⟩ := ih
      (m.foldl (fun y b => if b.1 ≠ c.1 then min y (pairDistance g c.2 b.2) else y) acc)
    refine ⟨le_trans h1 i1, ?_, ?_⟩
    · intro a ha b hb hne
      rcases List.mem_cons.mp ha with rfl | hmem
      · exact le_trans h1 (i2 b hb hne)
      · exact h2 a hmem b hb hne
    · rcases h3 with h | ⟨a, ha, b, hb, hne, h⟩
      · rcases i3 with i | ⟨b, hb, hne, i⟩
        · left; rw [h, i]
        · right; exact ⟨c, List.mem_cons_self _ _, b, hb, hne, by rw [h, i]⟩
      · right; exact ⟨a, List.mem_cons_of_mem _ ha, b, hb, hne, h⟩

theorem minDistance_le (g : Geometry) (m : EntityMap) (a b : Nat × Entity)
    (ha : a ∈ m) (hb : b ∈ m) (hne : b.1 ≠ a.1) :
    minDistance g m ≤ pairDistance g a.2 b.2 :=
  (outer_fold_min g m m MaxFloat64).2.1 a ha b hb hne

theorem minDistance_attained (g : Geometry) (m : EntityMap) :
    minDistance g m = MaxFloat64 ∨
    ∃ a ∈ m, ∃ b ∈ m, b.1 ≠ a.1 ∧ minDistance g m = pairDistance g a.2 b.2 :=
  (outer_fold_min g m m MaxFloat64).2.2

theorem exists_distinct_of_nodup (m : EntityMap) (hnodup : (m.map Prod.fst).Nodup)
    (hlen : 1 < m.length) : ∃ a ∈ m, ∃ b ∈ m, b.1 ≠ a.1 := by
  match m, hnodup, hlen with
  | a :: b :: rest, hnodup, _ =>
    refine ⟨a, List.mem_cons_self _ _, b, List.mem_cons_of_mem _ (List.mem_cons_self _ _), ?_⟩
    simp only [List.map_cons, List.nodup_cons, List.mem_cons, not_or] at hnodup
    exact fun h => hnodup.1.1 h.symm

theorem minDistance_condition_iff (g : Geometry) (m : EntityMap)
    (hnodup : (m.map Prod.fst).Nodup) (hlen : 1 < m.length)
    (hfin : ∀ a ∈ m, ∀ b ∈ m, pairDistance g a.2 b.2 < MaxFloat64) :
    (minDistance g m < MaxFloat64 ∧ minDistance g m > 15 / 10) ↔
      ∀ a ∈ m, ∀ b ∈ m, b.1 ≠ a.1 → 15 / 10 < pairDistance g a.2 b.2 := by
  constructor
  · rintro ⟨_, hgt⟩ a ha b hb hne
    exact lt_of_lt_of_le hgt (minDistance_le g m a b ha hb hne)
  · intro hall
    obtain ⟨a, ha, b, hb, hne⟩ := exists_distinct_of_nodup m hnodup hlen
    have hlt : minDistance g m < MaxFloat64 :=
      lt_of_le_of_lt (minDistance_le g m a b ha hb hne) (hfin a ha b hb)
    refine ⟨hlt, ?_⟩
    rcases minDistance_attained g m with h | ⟨a', ha', b', hb', hne', h⟩
    · exact absurd h (ne_of_lt hlt)
    · rw [h]; exact hall a' ha' b' hb' hne'

/-- C16: on a `PlayerAuthInput` packet `Process` calls `Flag`, with the severity
`violationAfterTicks(ClientTick, 40)`, and returns true exactly when more than
one distinct target id is recorded and every ordered pair of distinct recorded
entities has a distance above 1.5 from the one's box, grown by 0.1 and placed at
its last position, to the other's last position, that is when the minimum of
these distances is above 1.5; otherwise it raises no flag, returns false and
empties the set.  With at most one recorded id, also after repeated attacks on
one target, it never flags.  Attack packets and all other inventory
transactions return false without a flag.  The distances between recorded
entities are taken to be below `math.MaxFloat64`, and the ids of the set to be
distinct, as `Process` keeps them. -/
theorem KillAuraB_flags_iff_targets_apart (g : Geometry) (vat : ViolationAfterTicks)
    (k : KillAuraB) (p : Processor) (InputMode : Nat)
    (hnodup : (k.entities.map Prod.fst).Nodup)
    (hfin : ∀ a ∈ k.entities, ∀ b ∈ k.entities, pairDistance g a.2 b.2 < MaxFloat64) :
    ((k.Process g vat p (Packet.PlayerAuthInput InputMode)).ret = true ↔
      1 < k.entities.length ∧
      ∀ a ∈ k.entities, ∀ b ∈ k.entities, b.1 ≠ a.1 → 15 / 10 < pairDistance g a.2 b.2) ∧
    ((k.Process g vat p (Packet.PlayerAuthInput InputMode)).ret = true →
      15 / 10 < minDistance g k.entities ∧
      ∃ minimumDistance entities,
        (k.Process g vat p (Packet.PlayerAuthInput InputMode)).flags
          = [{ severity := (vat k.tobasic p.ClientTick 40).1,
               MinimumDistance := minimumDistance, Entities := entities }]) ∧
    ((k.Process g vat p (Packet.PlayerAuthInput InputMode)).ret = false →
      (k.Process g vat p (Packet.PlayerAuthInput InputMode)).flags = [] ∧
      (k.Process g vat p (Packet.PlayerAuthInput InputMode)).check.entities = []) ∧
    (k.entities.length ≤ 1 →
      (k.Process g vat p (Packet.PlayerAuthInput InputMode)).ret = false ∧
      (k.Process g vat p (Packet.PlayerAuthInput InputMode)).flags = []) ∧
    (∀ (id : Nat) (e e' : Entity),
      (entitySet (entitySet k.entities id e) id e').length
        = (entitySet k.entities id e).length) ∧
    (∀ t : TransactionData,
      (k.Process g vat p (Packet.InventoryTransaction t)).ret = false ∧
      (k.Process g vat p (Packet.InventoryTransaction t)).flags = []) := by
  have hshort : ∀ hlen : ¬ k.entities.length > 1,
      k.Process g vat p (Packet.PlayerAuthInput InputMode)
        = { check := { k with entities := [] }, flags := [], ret := false } := by
    intro hlen
    simp only [KillAuraB.Process, if_neg hlen]
  refine ⟨?_, ?_, ?_, ?_, ?_, ?_⟩
  · by_cases hlen : k.entities.length > 1
    · have hiff := minDistance_condition_iff g k.entities hnodup hlen hfin
      by_cases hcond : minDistance g k.entities < MaxFloat64 ∧ minDistance g k.entities > 15 / 10
      · simp only [KillAuraB.Process, if_pos hlen, if_pos hcond, true_iff]
        exact ⟨hlen, hiff.mp hcond⟩
      · simp only [KillAuraB.Process, if_pos hlen, if_neg hcond, Bool.false_eq_true, false_iff]
        exact fun h => hcond (hiff.mpr h.2)
    · rw [hshort hlen]
      simp only [Bool.false_eq_true, false_iff]
      exact fun h => hlen h.1
  · by_cases hlen : k.entities.length > 1
    · by_cases hcond : minDistance g k.entities < MaxFloat64 ∧ minDistance g k.entities > 15 / 10
      · intro _
        simp only [KillAuraB.Process, if_pos hlen, if_pos hcond]
        exact ⟨hcond.2, _, _, rfl⟩
      · simp only [KillAuraB.Process, if_pos hlen, if_neg hcond]
        intro h
        exact absurd h (by simp)
    · rw [hshort hlen]
      intro h
      exact absurd h (by simp)
  · by_cases hlen : k.entities.length > 1
    · by_cases hcond : minDistance g k.entities < MaxFloat64 ∧ minDistance g k.entities > 15 / 10
      · simp only [KillAuraB.Process, if_pos hlen, if_pos hcond]
        intro h
        exact absurd h (by simp)
      · have hproc : k.Process g vat p (Packet.PlayerAuthInput InputMode)
            = { check := { k with entities := [] }, flags := [], ret := false } := by
          simp only [KillAuraB.Process, if_pos hlen, if_neg hcond]
        rw [hproc]
        exact fun _ => ⟨rfl, rfl⟩
    · rw [hshort hlen]
      exact fun _ => ⟨rfl, rfl⟩
  · intro hle
    rw [hshort (not_lt.mpr hle)]
    exact ⟨rfl, rfl⟩
  · intro id e e'
    simp [entitySet, List.filter_filter]
  · intro t
    unfold KillAuraB.Process
    cases t with
    | otherData => exact ⟨rfl, rfl⟩
    | UseItemOnEntity data =>
      simp only
      split
      · split <;> exact ⟨rfl, rfl⟩
      · exact ⟨rfl, rfl⟩

theorem twoAttacked_five :
    twoAttacked 5 =
      { violations := 0, buffer := 0,
        entities := [(2, targetAt ⟨5, 0, 0⟩), (1, targetAt ⟨0, 0, 0⟩)] } := by
  decide!

theorem twoAttacked_five_distances :
    ∀ a ∈ (twoAttacked 5).entities, ∀ b ∈ (twoAttacked 5).entities,
      pairDistance exactGeometry a.2 b.2 < MaxFloat64 ∧
      (b.1 ≠ a.1 → pairDistance exactGeometry a.2 b.2 = 23 / 5) := by
  rw [twoAttacked_five]
  decide!

/-- C16, at two targets 5 units apart, both attacked before the tick packet:
the distance is 4.6 either way and `Process` returns true. -/
theorem KillAuraB_flags_iff_targets_apart_witness :
    ((twoAttacked 5).entities.map Prod.fst).Nodup ∧
    ((twoAttacked 5).Process exactGeometry unitSeverity (twoTargetProcessor 5)
      (Packet.PlayerAuthInput 1)).ret = true :=
  ⟨by rw [twoAttacked_five]; decide,
   ((KillAuraB_flags_iff_targets_apart exactGeometry unitSeverity (twoAttacked 5)
      (twoTargetProcessor 5) 1 (by rw [twoAttacked_five]; decide)
      (fun a ha b hb => (twoAttacked_five_distances a ha b hb).1)).1).mpr
      ⟨by rw [twoAttacked_five]; decide,
       fun a ha b hb hne => by
        rw [(twoAttacked_five_distances a ha b hb).2 hne]; norm_num⟩⟩

theorem Process_two_targets_five_apart :
    (twoAttacked 5).Process exactGeometry unitSeverity (twoTargetProcessor 5)
        (Packet.PlayerAuthInput 1)
      = { check :=
            { violations := 1, buffer := 0,
              entities := [(2, targetAt ⟨5, 0, 0⟩), (1, targetAt ⟨0, 0, 0⟩)] },
          flags := [{ severity := 1, MinimumDistance := 23 / 5, Entities := 2 }],
          ret := true } := by
  decide!

end KillAuraFacts

/-! ## `Player.Flag` of `player/player.go` -/

section FlagFacts

theorem Flag_punishment_path (h : Handler) (p : PlayerState) (check : CheckView)
    (violations : ℚ) (hpos : 0 < violations) (hcont : h.HandleFlag check.Name = false) :
    (check.TrackViolation check.Violations ≥ check.MaxViolations →
      (Player.Flag h p check violations).1
        = if (h.HandlePunishment check.Name (Player.punishmentMessage check.Name)).1 then
            { p with events := p.events ++ [PlayerEvent.handleFlag, PlayerEvent.logFlag,
                PlayerEvent.handlePunishment (Player.punishmentMessage check.Name)] }
          else
            Player.Disconnect
              { p with events := p.events ++ [PlayerEvent.handleFlag, PlayerEvent.logFlag,
                  PlayerEvent.handlePunishment (Player.punishmentMessage check.Name),
                  PlayerEvent.logPunishment] }
              (h.HandlePunishment check.Name (Player.punishmentMessage check.Name)).2) ∧
    (check.TrackViolation check.Violations < check.MaxViolations →
      (Player.Flag h p check violations).1
        = { p with events := p.events ++ [PlayerEvent.handleFlag, PlayerEvent.logFlag] }) := by
  have hnot : ¬ violations ≤ 0 := not_le.mpr hpos
  constructor
  · intro hge
    simp only [Player.Flag, if_neg hnot, hcont, Bool.false_eq_true, if_false, if_pos hge,
      List.append_assoc, List.singleton_append, List.cons_append, List.nil_append]
    split <;> rfl
  · intro hlt
    have hge : ¬ check.TrackViolation check.Violations ≥ check.MaxViolations := not_le.mpr hlt
    simp only [Player.Flag, if_neg hnot, hcont, Bool.false_eq_true, if_false, if_neg hge,
      List.append_assoc, List.singleton_append, List.cons_append, List.nil_append]

/-- C18 fails on the code in its last part: two `Flag` calls with severity 1 for
the check "Reach" "A", which reaches its 15 violations with the first call,
make `Disconnect` write two `Disconnect` packets, the second one after the
player is closed.  The punishment path ran both times, each time with the
reason string of the claim. -/
theorem Flag_twice_writes_two_disconnects :
    (Player.Flag NopHandler
      (Player.Flag NopHandler { closed := false, events := [] } reachAtThreshold 1).1
      (Player.Flag NopHandler { closed := false, events := [] } reachAtThreshold 1).2 1).1
      = { closed := true,
          events :=
            [PlayerEvent.handleFlag, PlayerEvent.logFlag,
             PlayerEvent.handlePunishment "§7[§6oomph§7] §bCaught lackin!\n§6Reason: §bReachA",
             PlayerEvent.logPunishment,
             PlayerEvent.writeDisconnect "§7[§6oomph§7] §bCaught lackin!\n§6Reason: §bReachA",
             PlayerEvent.connClose,
             PlayerEvent.handleFlag, PlayerEvent.logFlag,
             PlayerEvent.handlePunishment "§7[§6oomph§7] §bCaught lackin!\n§6Reason: §bReachA",
             PlayerEvent.logPunishment,
             PlayerEvent.writeDisconnect "§7[§6oomph§7] §bCaught lackin!\n§6Reason: §bReachA"] } ∧
    disconnectCount (Player.Flag NopHandler
      (Player.Flag NopHandler { closed := false, events := [] } reachAtThreshold 1).1
      (Player.Flag NopHandler { closed := false, events := [] } reachAtThreshold 1).2 1).1.events
      = 2 := by
  constructor <;> decide!

theorem Disconnect_eq_write_then_close (p : PlayerState) (reason : String) :
    Player.Disconnect p reason = Player.Close (Player.disconnectWrite p reason) := rfl

theorem interleaved_disconnects_both_written (p : PlayerState) (m₁ m₂ : String)
    (hopen : p.closed = false) :
    Player.Close (Player.Close (Player.disconnectWrite (Player.disconnectWrite p m₁) m₂))
      = { closed := true,
          events := p.events ++ [PlayerEvent.writeDisconnect m₁,
            PlayerEvent.writeDisconnect m₂, PlayerEvent.connClose] } := by
  simp [Player.Close, Player.disconnectWrite, hopen]

end FlagFacts

/-! ## The violation-decay steps -/

section DecayFacts

theorem DecayStep_apply_bounds (step : DecayStep) (v : ℚ) (hv : 0 ≤ v) :
    0 ≤ step.apply v ∧ step.apply v ≤ v := by
  cases step
  · exact ⟨le_max_left _ _, max_le hv (by linarith)⟩
  · exact ⟨le_max_right _ _, max_le (by linarith) hv⟩
  · exact ⟨le_max_right _ _, max_le (by linarith) hv⟩
  · exact ⟨le_max_left _ _, max_le hv (by linarith)⟩

theorem reach_touch_decays (g : Geometry) (r : ReachA) (p : Processor)
    (d : UseItemOnEntityTransactionData) (e : Entity)
    (hmode : p.CombatMode = AuthorityType.ModeSemiAuthoritative)
    (hattack : r.attackData = some d)
    (hent : p.SearchEntity d.TargetEntityRuntimeID = some e)
    (hbox : ReachA.boxDistance g e r d.Position ≤ 315 / 100) :
    (r.Process g p (Packet.PlayerAuthInput InputModeTouch)).check.violations
      = DecayStep.reach.apply r.violations ∧
    (r.Process g p (Packet.PlayerAuthInput InputModeTouch)).flags = [] := by
  have hnot : ¬ ReachA.boxDistance g e r d.Position > 315 / 100 := not_lt.mpr hbox
  simp only [ReachA.Process, hmode, ne_eq, not_true_eq_false, if_false, hattack,
    ReachA.resolve, hent, if_neg hnot, if_true, DecayStep.apply, and_self]

theorem reach_legitimate_decays_twice (g : Geometry) (r : ReachA) (p : Processor)
    (InputMode : Nat) (d : UseItemOnEntityTransactionData) (e : Entity)
    (hmode : p.CombatMode = AuthorityType.ModeSemiAuthoritative)
    (hattack : r.attackData = some d)
    (hent : p.SearchEntity d.TargetEntityRuntimeID = some e)
    (hbox : ReachA.boxDistance g e r d.Position ≤ 315 / 100)
    (hinput : InputMode ≠ InputModeTouch)
    (hvalid : (ReachA.raycast g p e r d.Position).valid = true)
    (havg : g.DivFloat64 (ReachA.raycast g p e r d.Position).distAvg
      (ReachA.raycast g p e r d.Position).totalHits ≤ legalAverage) :
    (r.Process g p (Packet.PlayerAuthInput InputMode)).check.violations
      = decayAll [DecayStep.reach, DecayStep.reach] r.violations := by
  have hres := resolve_legitimate g r p InputMode d e hent hbox hinput hvalid havg
  simp only [ReachA.Process, hmode, ne_eq, not_true_eq_false, if_false, hattack, hres]
  rfl

theorem velocity_within_threshold_decays (g : Geometry) (vat : ViolationAfterTicks)
    (v : VelocityB) (p : Processor) (InputMode : Nat)
    (hkb : p.TakingKnockback = true)
    (hx : |p.OldServerMovement.x - p.ClientMovement.x|
      ≤ if p.OnGround then 6 / 1000 else 1 / 10000)
    (hz : |p.OldServerMovement.z - p.ClientMovement.z|
      ≤ if p.OnGround then 6 / 1000 else 1 / 10000) :
    (v.Process g vat p (Packet.PlayerAuthInput InputMode)).check.violations
      = DecayStep.velocity.apply v.violations ∧
    (v.Process g vat p (Packet.PlayerAuthInput InputMode)).flags = [] := by
  have hboth : |p.OldServerMovement.x - p.ClientMovement.x|
      ≤ (if p.OnGround then 6 / 1000 else 1 / 10000 : ℚ) ∧
      |p.OldServerMovement.z - p.ClientMovement.z|
      ≤ (if p.OnGround then 6 / 1000 else 1 / 10000 : ℚ) := ⟨hx, hz⟩
  simp only [VelocityB.Process, hkb, Bool.not_true, Bool.false_eq_true, if_false, if_pos hboth,
    DecayStep.apply, and_self]

theorem reach_a_raw_decays (g : Geometry) (vat : ViolationAfterTicks) (defaultCap : ℚ)
    (r : reach_a.ReachA) (p : Processor) (data : UseItemOnEntityTransactionData) (t : Entity)
    (hact : data.ActionType = UseItemOnEntityActionAttack)
    (hgame : p.GameMode = reach_a.GameTypeSurvival ∨ p.GameMode = reach_a.GameTypeAdventure)
    (hstand : p.Sneaking = false)
    (hent : p.SearchEntity data.TargetEntityRuntimeID = some t)
    (htp : t.TeleportationTicks ≥ 40)
    (htouch : r.inputMode = InputModeTouch)
    (hdist : g.AABBVectorDistance (t.AABB.Translate t.Position) data.Position ≤ 315 / 100) :
    (r.Process g vat defaultCap p
      (Packet.InventoryTransaction (TransactionData.UseItemOnEntity data))).check.violations
      = DecayStep.reachRaw.apply r.violations ∧
    (r.Process g vat defaultCap p
      (Packet.InventoryTransaction (TransactionData.UseItemOnEntity data))).flags = [] := by
  have hnot : ¬ g.AABBVectorDistance (t.AABB.Translate t.Position) data.Position > 315 / 100 :=
    not_lt.mpr hdist
  simp only [reach_a.ReachA.Process, hact, if_true, if_pos hgame, reach_a.ReachA.attack, hstand,
    Bool.false_eq_true, if_false, hent, if_pos htp, htouch, if_neg hnot, reach_a.ReachA.Buff,
    basic.Buff, DecayStep.apply, and_self]

theorem reach_a_raycast_decays (g : Geometry) (vat : ViolationAfterTicks) (defaultCap : ℚ)
    (r : reach_a.ReachA) (p : Processor) (InputMode : Nat) (t : Entity)
    (hawait : r.awaitingTick = true)
    (hstand : p.Sneaking = false)
    (hent : p.SearchEntity r.attackedEntity = some t)
    (hapart : g.IntersectsWith (p.Entity.AABB.Translate p.Entity.LastPosition)
      ((t.AABB.Grow (1 / 10)).Translate t.LastPosition) = false)
    (hvalid : (reach_a.ReachA.rayCounters.foldl
      (reach_a.ReachA.rayStep g ((t.AABB.Grow (1 / 10)).Translate t.LastPosition)
        (g.DirectionVector p.Entity.LastRotation.z p.Entity.LastRotation.x) r.attackPos
        ((g.DirectionVector p.Entity.Rotation.z p.Entity.Rotation.x).Sub
          (g.DirectionVector p.Entity.LastRotation.z p.Entity.LastRotation.x))
        ((p.Entity.Position.Add ⟨0, 162 / 100, 0⟩).Sub r.attackPos)) (69000, false)).2 = true)
    (hnear : (reach_a.ReachA.rayCounters.foldl
      (reach_a.ReachA.rayStep g ((t.AABB.Grow (1 / 10)).Translate t.LastPosition)
        (g.DirectionVector p.Entity.LastRotation.z p.Entity.LastRotation.x) r.attackPos
        ((g.DirectionVector p.Entity.Rotation.z p.Entity.Rotation.x).Sub
          (g.DirectionVector p.Entity.LastRotation.z p.Entity.LastRotation.x))
        ((p.Entity.Position.Add ⟨0, 162 / 100, 0⟩).Sub r.attackPos)) (69000, false)).1
      < 31 / 10) :
    (r.Process g vat defaultCap p (Packet.PlayerAuthInput InputMode)).check.violations
      = DecayStep.reachRaycast.apply r.violations ∧
    (r.Process g vat defaultCap p (Packet.PlayerAuthInput InputMode)).flags = [] := by
  have hcond : ¬ ((reach_a.ReachA.rayCounters.foldl
      (reach_a.ReachA.rayStep g ((t.AABB.Grow (1 / 10)).Translate t.LastPosition)
        (g.DirectionVector p.Entity.LastRotation.z p.Entity.LastRotation.x) r.attackPos
        ((g.DirectionVector p.Entity.Rotation.z p.Entity.Rotation.x).Sub
          (g.DirectionVector p.Entity.LastRotation.z p.Entity.LastRotation.x))
        ((p.Entity.Position.Add ⟨0, 162 / 100, 0⟩).Sub r.attackPos)) (69000, false)).1
      ≥ 31 / 10 ∧
      |(reach_a.ReachA.rayCounters.foldl
      (reach_a.ReachA.rayStep g ((t.AABB.Grow (1 / 10)).Translate t.LastPosition)
        (g.DirectionVector p.Entity.LastRotation.z p.Entity.LastRotation.x) r.attackPos
        ((g.DirectionVector p.Entity.Rotation.z p.Entity.Rotation.x).Sub
          (g.DirectionVector p.Entity.LastRotation.z p.Entity.LastRotation.x))
        ((p.Entity.Position.Add ⟨0, 162 / 100, 0⟩).Sub r.attackPos)) (69000, false)).1
        - g.AABBVectorDistance ((t.AABB.Grow (1 / 10)).Translate t.LastPosition) r.attackPos|
        < 4 / 10) := fun h => absurd h.1 (not_le.mpr hnear)
  simp only [reach_a.ReachA.Process, hawait, if_true, reach_a.ReachA.tick, hent, hstand,
    Bool.false_eq_true, if_false, hapart, Bool.not_false, hvalid, if_neg hcond,
    reach_a.ReachA.Buff, basic.Buff, DecayStep.apply, and_self]

/-- C19: each violation-decay step of the checks, `max(0, v - 0.001)` in
`reach.go`, `max(v - 0.01, 0)` and `max(v - 0.0075, 0)` in `reach_a.go` and
`max(0, v - 0.2)` in `velocity_b.go`, maps a score `v ≥ 0` to a score between 0
and `v`, and so does any sequence of such steps. -/
theorem decay_steps_stay_between_zero_and_score (steps : List DecayStep) (v : ℚ)
    (hv : 0 ≤ v) :
    (∀ step : DecayStep, 0 ≤ step.apply v ∧ step.apply v ≤ v) ∧
    0 ≤ decayAll steps v ∧ decayAll steps v ≤ v := by
  refine ⟨fun step => DecayStep_apply_bounds step v hv, ?_⟩
  induction steps generalizing v with
  | nil => exact ⟨hv, le_refl _⟩
  | cons step steps ih =>
    obtain ⟨h0, h1⟩ := DecayStep_apply_bounds step v hv
    obtain ⟨h2, h3⟩ := ih (step.apply v) h0
    exact ⟨h2, le_trans h3 h1⟩

/-- C19, at the score 1/200 and one step of each kind: the score ends at 0. -/
theorem decay_steps_stay_between_zero_and_score_witness :
    (0 : ℚ) ≤ 1 / 200 ∧
    decayAll [DecayStep.reach, DecayStep.reachRaw, DecayStep.reachRaycast, DecayStep.velocity]
      (1 / 200) = 0 ∧
    0 ≤ decayAll
      [DecayStep.reach, DecayStep.reachRaw, DecayStep.reachRaycast, DecayStep.velocity]
      (1 / 200) :=
  ⟨by norm_num, by decide!,
   (decay_steps_stay_between_zero_and_score
      [DecayStep.reach, DecayStep.reachRaw, DecayStep.reachRaycast, DecayStep.velocity]
      (1 / 200) (by norm_num)).2.1⟩

end DecayFacts

/-! ## The pending attack and the cancellation of `check/reach.go` -/

section ReachPendingFacts
open ReachA

theorem Process_input_clears_attack (g : Geometry) (r : ReachA) (p : Processor)
    (InputMode : Nat) (hmode : p.CombatMode = AuthorityType.ModeSemiAuthoritative) :
    (r.Process g p (Packet.PlayerAuthInput InputMode)).check.attackData = none := by
  cases hattack : r.attackData with
  | none => simp only [Process, hmode, ne_eq, not_true_eq_false, if_false, hattack]
  | some d => simp only [Process, hmode, ne_eq, not_true_eq_false, if_false, hattack]

/-- C21 as stated fails in one part: an attack on an entity the processor does
not find, arriving while `originAttack` is pending, does not replace it. -/
theorem Process_unfound_attack_keeps_pending :
    (sceneProcessor 2).SearchEntity 2 = none ∧
    (pendingCheck 2).attackData = some originAttack ∧
    ((pendingCheck 2).Process exactGeometry (sceneProcessor 2) (attackPacketOn 2)).check.attackData
      = some originAttack ∧
    originAttack.TargetEntityRuntimeID ≠ 2 := by
  refine ⟨by decide, rfl, by decide!, by decide⟩

/-- C21, amended: in semi-authoritative mode, after `Process` handles a
`PlayerAuthInput` packet `attackData` is nil in every branch, and a second
`PlayerAuthInput` right after it changes nothing and raises no flag, so an
attack is validated at most once; an attack whose target entity is found,
arriving with `cancelNext` unset, replaces whatever attack was pending, while
an attack whose target is not found leaves the check as it was, and an attack
arriving with `cancelNext` set only clears `cancelNext`. -/
theorem Process_consumes_pending_attack (g : Geometry) (r : ReachA) (p : Processor)
    (hmode : p.CombatMode = AuthorityType.ModeSemiAuthoritative) :
    (∀ InputMode : Nat,
      (r.Process g p (Packet.PlayerAuthInput InputMode)).check.attackData = none) ∧
    (∀ (InputMode InputMode' : Nat) (g' : Geometry) (p' : Processor),
      p'.CombatMode = AuthorityType.ModeSemiAuthoritative →
      (r.Process g p (Packet.PlayerAuthInput InputMode)).check.Process g' p'
          (Packet.PlayerAuthInput InputMode')
        = { check := (r.Process g p (Packet.PlayerAuthInput InputMode)).check,
            flags := [], ret := false }) ∧
    (∀ (d : UseItemOnEntityTransactionData) (e : Entity),
      d.ActionType = UseItemOnEntityActionAttack → r.cancelNext = false →
      p.SearchEntity d.TargetEntityRuntimeID = some e →
      r.Process g p (Packet.InventoryTransaction (TransactionData.UseItemOnEntity d))
        = { check := { r with lastEntPos := e.LastPosition, currentEntPos := e.Position,
                              attackData := some d },
            flags := [], ret := false }) ∧
    (∀ d : UseItemOnEntityTransactionData,
      d.ActionType = UseItemOnEntityActionAttack → r.cancelNext = false →
      p.SearchEntity d.TargetEntityRuntimeID = none →
      r.Process g p (Packet.InventoryTransaction (TransactionData.UseItemOnEntity d))
        = { check := r, flags := [], ret := false }) ∧
    (∀ d : UseItemOnEntityTransactionData,
      d.ActionType = UseItemOnEntityActionAttack → r.cancelNext = true →
      r.Process g p (Packet.InventoryTransaction (TransactionData.UseItemOnEntity d))
        = { check := { r with cancelNext := false }, flags := [], ret := true }) := by
  refine ⟨fun im => Process_input_clears_attack g r p im hmode, ?_, ?_, ?_, ?_⟩
  · intro im im' g' p' hmode'
    have hnone := Process_input_clears_attack g r p im hmode
    generalize (r.Process g p (Packet.PlayerAuthInput im)).check = q at hnone
    simp only [Process, hmode', ne_eq, not_true_eq_false, if_false, hnone]
  · intro d e hact hcancel hent
    simp [Process, hmode, hact, hcancel, hent]
  · intro d hact hcancel hent
    simp [Process, hmode, hact, hcancel, hent]
  · intro d hact hcancel
    simp [Process, hmode, hact, hcancel]

/-- C21, amended, at the scene of the spec: the legitimate hit leaves no attack
pending. -/
theorem Process_consumes_pending_attack_witness :
    (sceneProcessor 2).CombatMode = AuthorityType.ModeSemiAuthoritative ∧
    ((pendingCheck 2).Process exactGeometry (sceneProcessor 2)
      (Packet.PlayerAuthInput 1)).check.attackData = none :=
  ⟨rfl, (Process_consumes_pending_attack exactGeometry (pendingCheck 2) (sceneProcessor 2)
    rfl).1 1⟩

/-- C29: `Process` returns true exactly when the combat mode is
semi-authoritative, the packet is an attack-type `UseItemOnEntity` inventory
transaction and `cancelNext` is set; it then clears `cancelNext` and changes
nothing else, so no attack is recorded.  In every other case it returns false,
and when the combat mode is not semi-authoritative it changes no field and
raises no flag. -/
theorem Process_returns_true_iff_cancelNext (g : Geometry) (r : ReachA) (p : Processor)
    (pk : Packet) :
    ((r.Process g p pk).ret = true ↔
      p.CombatMode = AuthorityType.ModeSemiAuthoritative ∧ r.cancelNext = true ∧
      ∃ d : UseItemOnEntityTransactionData,
        pk = Packet.InventoryTransaction (TransactionData.UseItemOnEntity d) ∧
        d.ActionType = UseItemOnEntityActionAttack) ∧
    ((r.Process g p pk).ret = true →
      r.Process g p pk
        = { check := { r with cancelNext := false }, flags := [], ret := true }) ∧
    (p.CombatMode ≠ AuthorityType.ModeSemiAuthoritative →
      r.Process g p pk = { check := r, flags := [], ret := false }) := by
  have hresolve : ∀ (im : Nat) (d : UseItemOnEntityTransactionData),
      (resolve g r p im d).ret = false := by
    intro im d
    unfold resolve
    split
    · rfl
    · simp only
      split
      · rfl
      · split
        · rfl
        · split
          · split <;> rfl
          · split
            · rfl
            · split <;> rfl
  by_cases hmode : p.CombatMode = AuthorityType.ModeSemiAuthoritative
  · cases pk with
    | otherPacket =>
      simp [Process, hmode]
    | PlayerAuthInput im =>
      cases hattack : r.attackData with
      | none => simp [Process, hmode, hattack]
      | some d =>
        have := hresolve im d
        simp [Process, hmode, hattack, this]
    | InventoryTransaction t =>
      cases t with
      | otherData => simp [Process, hmode]
      | UseItemOnEntity d =>
        by_cases hact : d.ActionType = UseItemOnEntityActionAttack
        · by_cases hcancel : r.cancelNext = true
          · simp [Process, hmode, hact, hcancel]
          · cases hent : p.SearchEntity d.TargetEntityRuntimeID <;>
              simp [Process, hmode, hact, hcancel, hent]
        · simp [Process, hmode, hact]
  · simp [Process, hmode]

/-- C29, at a check with `cancelNext` set and an attack packet. -/
theorem Process_returns_true_iff_cancelNext_witness :
    ({ pendingCheck 2 with cancelNext := true } : ReachA).Process exactGeometry
        (sceneProcessor 2) originAttackPacket
      = { check := { pendingCheck 2 with cancelNext := false }, flags := [], ret := true } :=
  (Process_returns_true_iff_cancelNext exactGeometry { pendingCheck 2 with cancelNext := true }
    (sceneProcessor 2) originAttackPacket).2.1
    ((Process_returns_true_iff_cancelNext exactGeometry
      { pendingCheck 2 with cancelNext := true } (sceneProcessor 2) originAttackPacket).1.mpr
      ⟨rfl, rfl, originAttack, rfl, rfl⟩)

end ReachPendingFacts

/-! ## The raycast loop of `check/reach_a.go` -/

section ReachAFacts
open reach_a reach_a.ReachA

theorem rayStep_eq_castRay (g : Geometry) (targetAABB : BBox)
    (lDv lPos dvDiff posDiff : Vec3) (st : ℚ × Bool) (i : Nat) (hi : i ≠ 0) :
    rayStep g targetAABB lDv lPos dvDiff posDiff st i
      = castRay g targetAABB (lDv.Add (dvDiff.Mul (((1 / i : Nat) : ℚ))))
          (lPos.Add (posDiff.Mul (((1 / i : Nat) : ℚ)))) st := by
  unfold rayStep castRay
  simp only [hi, ne_eq, not_false_eq_true, if_true]

theorem Vec3_blend_zero (l d : Vec3) : l.Add (d.Mul ((0 : Nat) : ℚ)) = l := by
  cases l; cases d
  simp [Vec3.Add, Vec3.Mul]

theorem Vec3_blend_one (l c : Vec3) : l.Add ((c.Sub l).Mul ((1 : Nat) : ℚ)) = c := by
  cases l; cases c
  simp [Vec3.Add, Vec3.Mul, Vec3.Sub]

/-- C25 fails: the factor `float64(1 / i)` of the loop is an integer quotient, 0
for the counters 30 down to 2 and 1 for the counter 1, so the 30 iterations
cast the ray of the last pose 29 times and the ray of the current pose once,
and never a pose between the two.  For the attacker who turned a quarter from
the z axis to the x axis next to a target at `(3, 0, 3)`, the ray of the pose
halfway between hits the target, no ray of the loop does, and `Process` leaves
the buffer and the violations as they were and raises no flag. -/
theorem raycast_loop_samples_only_end_poses :
    (∀ (g : Geometry) (targetAABB : BBox) (lDv lPos cDv cPos : Vec3) (st : ℚ × Bool),
      rayCounters.map (rayStep g targetAABB lDv lPos (cDv.Sub lDv) (cPos.Sub lPos) st)
        = List.replicate 29 (castRay g targetAABB lDv lPos st)
            ++ [castRay g targetAABB cDv cPos st]) ∧
    (castRay exactGeometry
        (((targetAt ⟨3, 0, 3⟩).AABB.Grow (1 / 10)).Translate ⟨3, 0, 3⟩)
        ((⟨0, 0, 1⟩ : Vec3).Add (((⟨1, 0, 0⟩ : Vec3).Sub ⟨0, 0, 1⟩).Mul (1 / 2)))
        ⟨0, 162 / 100, 0⟩ (69000, false)).2 = true ∧
    exactGeometry.IntersectsWith
        (quarterTurnProcessor.Entity.AABB.Translate quarterTurnProcessor.Entity.LastPosition)
        (((targetAt ⟨3, 0, 3⟩).AABB.Grow (1 / 10)).Translate ⟨3, 0, 3⟩) = false ∧
    quarterTurnCheck.Process exactGeometry unitSeverity 15 quarterTurnProcessor
        (Packet.PlayerAuthInput 1)
      = { check := { quarterTurnCheck with awaitingTick := false }, flags := [] } := by
  refine ⟨?_, by decide!, by decide!, by decide!⟩
  intro g targetAABB lDv lPos cDv cPos st
  have hzero : ∀ i ∈ (List.range 29).map (fun j => 30 - j),
      rayStep g targetAABB lDv lPos (cDv.Sub lDv) (cPos.Sub lPos) st i
        = castRay g targetAABB lDv lPos st := by
    intro i hi
    obtain ⟨j, hj, rfl⟩ := List.mem_map.mp hi
    have hj' : j < 29 := List.mem_range.mp hj
    have hne : 30 - j ≠ 0 := by omega
    have hdiv : 1 / (30 - j) = 0 := Nat.div_eq_of_lt (by omega)
    rw [rayStep_eq_castRay _ _ _ _ _ _ _ _ hne, hdiv, Vec3_blend_zero, Vec3_blend_zero]
  have hsplit : rayCounters = (List.range 29).map (fun j => 30 - j) ++ [1] := by decide
  rw [hsplit, List.map_append, List.map_singleton,
    rayStep_eq_castRay _ _ _ _ _ _ _ _ one_ne_zero, Nat.div_self one_pos,
    Vec3_blend_one, Vec3_blend_one]
  congr 1
  rw [List.eq_replicate_iff]
  refine ⟨by simp, ?_⟩
  intro b hb
  obtain ⟨i, hi, rfl⟩ := List.mem_map.mp hb
  exact hzero i hi

end ReachAFacts

/-! ## `Player.SendAck` and the Playstation responses -/

section SendAckFacts

theorem legacySent_eq :
    legacySent = some { AcknowledgeMap := [(5, [7]), (5000, [7])], CurrentTimestamp := 9000,
                        HasTicked := false, LegacyMode := true, acknowledgementOrder := [],
                        awaitResTicks := 0 } := by
  decide

/-- C26 fails on the divided response: after `SendAck` has registered the
callback 7 under the keys 5000 and 5, the response 5 with `ps4 = true` runs the
callback once and removes the key 5, but the key 5000 stays pending with the
callback in it, and a later response 5000 runs the callback a second time.  The
response 5000 itself behaves as claimed. -/
theorem legacy_divided_response_leaves_key_pending :
    legacySent.map (fun a => (mapGet a.AcknowledgeMap 5000, mapGet a.AcknowledgeMap 5))
      = some (some [7], some [7]) ∧
    (Player.handleNetworkStackLatency legacySent 5 true).calls = [7] ∧
    (Player.handleNetworkStackLatency legacySent 5 true).ret = true ∧
    (Player.handleNetworkStackLatency legacySent 5 true).state.map
        (fun a => (mapGet a.AcknowledgeMap 5000, mapGet a.AcknowledgeMap 5))
      = some (some [7], none) ∧
    (Player.handleNetworkStackLatency
        (Player.handleNetworkStackLatency legacySent 5 true).state 5000 true).calls = [7] ∧
    (Player.handleNetworkStackLatency legacySent 5000 true).calls = [7] ∧
    (Player.handleNetworkStackLatency legacySent 5000 true).state.map
        (fun a => (mapGet a.AcknowledgeMap 5000, mapGet a.AcknowledgeMap 5))
      = some (none, none) := by
  rw [legacySent_eq]
  decide

end SendAckFacts

/-! ## `Acknowledgements.Validate` -/

section ValidateFacts
open Acknowledgements
variable {κ : Type}

/-- C27: `Validate` called with `HasTicked = false` returns true and changes
nothing, so `awaitResTicks` and the map stay as they were; called with
`HasTicked = true` and an empty map it returns true and sets `awaitResTicks` to
0, changing nothing else but `HasTicked`; and after every call `HasTicked` is
false. -/
theorem Validate_counts_only_ticked (a : Acknowledgements κ) :
    (a.HasTicked = false → a.Validate = (a, true)) ∧
    (a.HasTicked = true → a.AcknowledgeMap.length = 0 →
      a.Validate = ({ a with HasTicked := false, awaitResTicks := 0 }, true)) ∧
    a.Validate.1.HasTicked = false := by
  refine ⟨?_, ?_, ?_⟩
  · intro h
    simp [Validate, h]
  · intro h hlen
    simp [Validate, h, hlen]
  · unfold Validate
    cases h : a.HasTicked
    · simp [h]
    · simp only [Bool.not_true, Bool.false_eq_true, if_false]
      split <;> rfl

/-- C27, at a check that counted 7 ticks: without a tick nothing changes, and
with a tick and an empty map the count returns to 0. -/
theorem Validate_counts_only_ticked_witness :
    ({ legacyPending with awaitResTicks := 7 } : Acknowledgements Nat).Validate
      = ({ legacyPending with awaitResTicks := 7 }, true) ∧
    ({ legacyPending with AcknowledgeMap := [], HasTicked := true, awaitResTicks := 7 }
        : Acknowledgements Nat).Validate
      = ({ legacyPending with AcknowledgeMap := [] }, true) :=
  ⟨(Validate_counts_only_ticked { legacyPending with awaitResTicks := 7 }).1 rfl,
   (Validate_counts_only_ticked
      { legacyPending with AcknowledgeMap := [], HasTicked := true, awaitResTicks := 7 }).2.1
      rfl rfl⟩

end ValidateFacts

/-! ## `Player.Flag` with no severity -/

section FlagNoopFacts

/-- C30: `Player.Flag` with a severity of at most 0 changes neither the player
nor the check: `TrackViolation` is not called and no event (flag handler, log
line, punishment, `Disconnect` packet, close) is added. -/
theorem Flag_nonpositive_is_noop (h : Handler) (p : PlayerState) (check : CheckView)
    (violations : ℚ) (hv : violations ≤ 0) :
    Player.Flag h p check violations = (p, check) ∧
    (Player.Flag h p check violations).1.events = p.events ∧
    (Player.Flag h p check violations).2.Violations = check.Violations ∧
    disconnectCount (Player.Flag h p check violations).1.events = disconnectCount p.events := by
  have hflag : Player.Flag h p check violations = (p, check) := by
    unfold Player.Flag
    rw [if_pos hv]
  rw [hflag]
  exact ⟨rfl, rfl, rfl, rfl⟩

/-- C30, at the check one violation short of its maximum with severity 0. -/
theorem Flag_nonpositive_is_noop_witness :
    Player.Flag NopHandler { closed := false, events := [] } reachAtThreshold 0
      = ({ closed := false, events := [] }, reachAtThreshold) :=
  (Flag_nonpositive_is_noop NopHandler { closed := false, events := [] } reachAtThreshold 0
    (le_refl 0)).1

end FlagNoopFacts

/-! ## The tick window of `check/kill_aura_b.go` -/

section KillAuraWindowFacts
open KillAuraB

/-- C28 fails on the flagging branch: for two targets 5 units apart, attacked
before the same `PlayerAuthInput`, `Process` flags and returns true with both
entities still in the set, and the next `PlayerAuthInput`, with no attack in
between, flags again on the same two entities. -/
theorem KillAuraB_flag_keeps_entities :
    ((twoAttacked 5).Process exactGeometry unitSeverity (twoTargetProcessor 5)
        (Packet.PlayerAuthInput 1)).ret = true ∧
    ((twoAttacked 5).Process exactGeometry unitSeverity (twoTargetProcessor 5)
        (Packet.PlayerAuthInput 1)).check.entities
      = [(2, targetAt ⟨5, 0, 0⟩), (1, targetAt ⟨0, 0, 0⟩)] ∧
    (((twoAttacked 5).Process exactGeometry unitSeverity (twoTargetProcessor 5)
        (Packet.PlayerAuthInput 1)).check.Process exactGeometry unitSeverity
        (twoTargetProcessor 5) (Packet.PlayerAuthInput 1)).flags
      = [{ severity := 1, MinimumDistance := 23 / 5, Entities := 2 }] := by
  rw [Process_two_targets_five_apart]
  refine ⟨rfl, rfl, ?_⟩
  decide!

end KillAuraWindowFacts

/-! ## The combat handler of `handler/combat.go` -/

section CombatFacts
open CombatHandler

theorem click_Phase (h : CombatHandler) (p : CombatPlayer) : (h.click p).Phase = h.Phase := by
  unfold click
  simp only
  split <;> rfl

theorem click_InterpolationStep (h : CombatHandler) (p : CombatPlayer) :
    (h.click p).InterpolationStep = h.InterpolationStep := by
  unfold click
  simp only
  split <;> rfl

theorem pointingLoop_isSome (body : ℚ → List ℚ → List ℚ) (step : ℚ) :
    ∀ (fuel : Nat) (partialTicks : ℚ) (results : List ℚ), 1 < partialTicks + fuel * step →
      (pointingLoop body step fuel partialTicks results).isSome = true := by
  intro fuel
  induction fuel with
  | zero =>
    intro t results ht
    have ht' : ¬ t ≤ 1 := by
      simp only [Nat.cast_zero, zero_mul, add_zero] at ht
      exact not_le.mpr ht
    simp [pointingLoop, ht']
  | succ fuel ih =>
    intro t results ht
    unfold pointingLoop
    split
    · apply ih
      have : t + step + fuel * step = t + ((fuel + 1 : Nat) : ℚ) * step := by
        push_cast
        ring
      rw [this]
      exact ht
    · rfl

theorem pointingLoop_from_zero_isSome (body : ℚ → List ℚ → List ℚ) (step : ℚ)
    (hstep : 0 < step) (results : List ℚ) :
    (pointingLoop body step ((Int.floor (1 / step)).toNat + 1) 0 results).isSome = true := by
  apply pointingLoop_isSome
  have hfloor : (1 / step) < (Int.floor (1 / step) : ℚ) + 1 := Int.lt_floor_add_one _
  have hnonneg : 0 ≤ Int.floor (1 / step) := Int.floor_nonneg.mpr (by positivity)
  have hcast : (((Int.floor (1 / step)).toNat : Nat) : ℚ) = (Int.floor (1 / step) : ℚ) := by
    have h1 : (((Int.floor (1 / step)).toNat : Nat) : Int) = Int.floor (1 / step) :=
      Int.toNat_of_nonneg hnonneg
    exact_mod_cast h1
  have hmul : 1 / step * step = 1 := by field_simp
  push_cast
  rw [hcast, zero_add]
  calc (1 : ℚ) = 1 / step * step := hmul.symm
    _ < ((Int.floor (1 / step) : ℚ) + 1) * step := by
        exact mul_lt_mul_of_pos_right hfloor hstep

theorem calculatePointingResults_isSome (g : HandlerGeometry) (h : CombatHandler)
    (p : CombatPlayer) (target : entity.Entity) (hstep : 0 < h.InterpolationStep) :
    (calculatePointingResults g h p target).isSome = true := by
  unfold calculatePointingResults
  by_cases ht : p.Movement.TicksSinceTeleport = 0
  · simp only [ht, if_true]
    split
    · rfl
    · rw [Option.isSome_map']
      exact pointingLoop_from_zero_isSome _ _ hstep _
  · simp only [ht, if_false]
    split
    · rfl
    · rw [Option.isSome_map']
      exact pointingLoop_from_zero_isSome _ _ hstep _

theorem calculatePointingResults_Phase (g : HandlerGeometry) (h h' : CombatHandler)
    (p : CombatPlayer) (target : entity.Entity)
    (hres : calculatePointingResults g h p target = some h') : h'.Phase = h.Phase := by
  unfold calculatePointingResults at hres
  by_cases ht : p.Movement.TicksSinceTeleport = 0
  · simp only [ht, if_true] at hres
    split at hres
    · injection hres with hres
      subst hres
      rfl
    · rw [Option.map_eq_some'] at hres
      obtain ⟨results, _, hres⟩ := hres
      subst hres
      rfl
  · simp only [ht, if_false] at hres
    split at hres
    · injection hres with hres
      subst hres
      rfl
    · rw [Option.map_eq_some'] at hres
      obtain ⟨results, _, hres⟩ := hres
      subst hres
      rfl

theorem HandleClientPacket_Phase (g : HandlerGeometry) (h h' : CombatHandler)
    (pk : ClientPacket) (p : CombatPlayer) (hres : HandleClientPacket g h pk p = some h') :
    h'.Phase = h.Phase ∨
    (h.Phase = CombatPhaseNone ∧ h'.Phase = CombatPhaseTransaction ∧
      ∃ (dat : UseItemOnEntityTransactionData) (address : Nat),
        pk = ClientPacket.InventoryTransaction (TransactionData.UseItemOnEntity dat) ∧
        dat.ActionType = UseItemOnEntityActionAttack ∧
        p.Find dat.TargetEntityRuntimeID = some address ∧
        (p.Deref address).IsPlayer = true ∧ 20 < (p.Deref address).TicksSinceTeleport ∧
        20 < p.Movement.TicksSinceTeleport) ∨
    (h.Phase = CombatPhaseTransaction ∧
      (h'.Phase = CombatPhaseTicked ∨ h'.Phase = CombatPhaseNone) ∧
      ∃ (InputMode : Nat) (MissedSwing : Bool),
        pk = ClientPacket.PlayerAuthInput InputMode MissedSwing) := by
  cases pk with
  | otherPacket =>
    simp only [HandleClientPacket, Option.some.injEq] at hres
    subst hres
    exact Or.inl rfl
  | Animate =>
    simp only [HandleClientPacket, Option.some.injEq] at hres
    subst hres
    exact Or.inl rfl
  | LevelSoundEvent SoundType =>
    simp only [HandleClientPacket] at hres
    split at hres <;>
      (simp only [Option.some.injEq] at hres; subst hres)
    · exact Or.inl (click_Phase h p)
    · exact Or.inl rfl
  | PlayerAuthInput InputMode MissedSwing =>
    simp only [HandleClientPacket] at hres
    have hclick : (if p.ProtocolID ≥ p.GameVersion1_20_10 ∧ MissedSwing = true then h.click p
        else h).Phase = h.Phase := by
      split
      · exact click_Phase h p
      · rfl
    generalize (if p.ProtocolID ≥ p.GameVersion1_20_10 ∧ MissedSwing = true then h.click p
        else h) = k at hres hclick
    by_cases hphase : k.Phase = CombatPhaseTransaction
    · rw [if_neg (not_not.mpr hphase)] at hres
      right; right
      refine ⟨hclick ▸ hphase, ?_, InputMode, MissedSwing, rfl⟩
      cases htarget : k.TargetedEntity with
      | none =>
        simp only [htarget, Option.some.injEq] at hres
        subst hres
        exact Or.inr rfl
      | some address =>
        simp only [htarget] at hres
        split at hres
        · simp only [Option.some.injEq] at hres
          subst hres
          exact Or.inl rfl
        · exact Or.inl (calculatePointingResults_Phase g _ h' p _ hres)
    · rw [if_pos hphase] at hres
      simp only [Option.some.injEq] at hres
      subst hres
      exact Or.inl hclick
  | InventoryTransaction data =>
    simp only [HandleClientPacket] at hres
    by_cases hphase : h.Phase = CombatPhaseNone
    · rw [if_neg (not_not.mpr hphase)] at hres
      cases data with
      | otherData =>
        simp only [Option.some.injEq] at hres
        subst hres
        exact Or.inl rfl
      | UseItemOnEntity dat =>
        simp only at hres
        by_cases hact : dat.ActionType = UseItemOnEntityActionAttack
        · rw [if_neg (not_not.mpr hact)] at hres
          cases hfind : p.Find dat.TargetEntityRuntimeID with
          | none =>
            simp only [hfind, Option.some.injEq] at hres
            subst hres
            exact Or.inl (click_Phase h p)
          | some address =>
            simp only [hfind] at hres
            by_cases hent : (p.Deref address).TicksSinceTeleport ≤ 20 ∨
                (p.Deref address).IsPlayer = false
            · rw [if_pos hent] at hres
              simp only [Option.some.injEq] at hres
              subst hres
              exact Or.inl (click_Phase h p)
            · rw [if_neg hent] at hres
              by_cases hmove : p.Movement.TicksSinceTeleport ≤ 20
              · rw [if_pos hmove] at hres
                simp only [Option.some.injEq] at hres
                subst hres
                exact Or.inl (click_Phase h p)
              · rw [if_neg hmove] at hres
                simp only [Option.some.injEq] at hres
                subst hres
                right; left
                push_neg at hent
                refine ⟨hphase, rfl, dat, address, rfl, hact, hfind, ?_, hent.1, not_le.mp hmove⟩
                cases hp : (p.Deref address).IsPlayer
                · exact absurd hp hent.2
                · rfl
        · rw [if_pos hact] at hres
          simp only [Option.some.injEq] at hres
          subst hres
          exact Or.inl rfl
    · rw [if_pos hphase] at hres
      simp only [Option.some.injEq] at hres
      subst hres
      exact Or.inl rfl

theorem HandleClientPacket_isSome (g : HandlerGeometry) (h : CombatHandler)
    (pk : ClientPacket) (p : CombatPlayer) (hstep : 0 < h.InterpolationStep) :
    (HandleClientPacket g h pk p).isSome = true := by
  cases pk with
  | otherPacket => rfl
  | Animate => rfl
  | LevelSoundEvent SoundType =>
    simp only [HandleClientPacket]
    split <;> rfl
  | PlayerAuthInput InputMode MissedSwing =>
    simp only [HandleClientPacket]
    have hclick : (if p.ProtocolID ≥ p.GameVersion1_20_10 ∧ MissedSwing = true then h.click p
        else h).InterpolationStep = h.InterpolationStep := by
      split
      · exact click_InterpolationStep h p
      · rfl
    generalize (if p.ProtocolID ≥ p.GameVersion1_20_10 ∧ MissedSwing = true then h.click p
        else h) = k at hclick
    split
    · rfl
    · split
      · rfl
      · split
        · rfl
        · apply calculatePointingResults_isSome
          show 0 < k.InterpolationStep
          rw [hclick]
          exact hstep
  | InventoryTransaction data =>
    simp only [HandleClientPacket]
    split
    · rfl
    · split
      · rfl
      · split
        · rfl
        · split
          · rfl
          · split
            · rfl
            · split <;> rfl

/-- C23: `HandleClientPacket` returns for every interpolation step above 0, and
whenever it returns it leaves `Phase` as it was, or takes it from None to
Transaction on an attack transaction whose target the registry finds, a player
entity, with both teleport counters above 20, or takes it from Transaction to
Ticked or None on a `PlayerAuthInput` packet; that attack transaction does take
None to Transaction; `Defer` leaves `Phase` as it was or takes it from Ticked to
None; and an inventory transaction that arrives while `Phase` is not None
leaves every field of the handler as it was. -/
theorem CombatHandler_phase_machine (g : HandlerGeometry) (h : CombatHandler)
    (pk : ClientPacket) (p : CombatPlayer) :
    (0 < h.InterpolationStep → (HandleClientPacket g h pk p).isSome = true) ∧
    (∀ h' : CombatHandler, HandleClientPacket g h pk p = some h' →
      h'.Phase = h.Phase ∨
      (h.Phase = CombatPhaseNone ∧ h'.Phase = CombatPhaseTransaction ∧
        ∃ (dat : UseItemOnEntityTransactionData) (address : Nat),
          pk = ClientPacket.InventoryTransaction (TransactionData.UseItemOnEntity dat) ∧
          dat.ActionType = UseItemOnEntityActionAttack ∧
          p.Find dat.TargetEntityRuntimeID = some address ∧
          (p.Deref address).IsPlayer = true ∧ 20 < (p.Deref address).TicksSinceTeleport ∧
          20 < p.Movement.TicksSinceTeleport) ∨
      (h.Phase = CombatPhaseTransaction ∧
        (h'.Phase = CombatPhaseTicked ∨ h'.Phase = CombatPhaseNone) ∧
        ∃ (InputMode : Nat) (MissedSwing : Bool),
          pk = ClientPacket.PlayerAuthInput InputMode MissedSwing)) ∧
    (∀ (dat : UseItemOnEntityTransactionData) (address : Nat),
      h.Phase = CombatPhaseNone → dat.ActionType = UseItemOnEntityActionAttack →
      p.Find dat.TargetEntityRuntimeID = some address →
      (p.Deref address).IsPlayer = true → 20 < (p.Deref address).TicksSinceTeleport →
      20 < p.Movement.TicksSinceTeleport →
      (HandleClientPacket g h
          (ClientPacket.InventoryTransaction (TransactionData.UseItemOnEntity dat)) p).map
          (fun h' => (h'.Phase, h'.TargetedEntity))
        = some (CombatPhaseTransaction, some address)) ∧
    ((Defer h).Phase = h.Phase ∨
      (h.Phase = CombatPhaseTicked ∧ (Defer h).Phase = CombatPhaseNone)) ∧
    (h.Phase ≠ CombatPhaseNone → ∀ data : TransactionData,
      HandleClientPacket g h (ClientPacket.InventoryTransaction data) p = some h) := by
  refine ⟨HandleClientPacket_isSome g h pk p, fun h' hres => HandleClientPacket_Phase g h h' pk p hres,
    ?_, ?_, ?_⟩
  · intro dat address hphase hact hfind hplayer hent hmove
    have hent' : ¬ ((p.Deref address).TicksSinceTeleport ≤ 20 ∨
        (p.Deref address).IsPlayer = false) := by
      rw [hplayer]
      simp only [Bool.true_eq_false, or_false, not_le]
      exact hent
    simp only [HandleClientPacket, hphase, ne_eq, not_true_eq_false, if_false, hact, hfind,
      if_neg hent', if_neg (not_le.mpr hmove), Option.map_some']
  · by_cases hphase : h.Phase = CombatPhaseTicked
    · right
      refine ⟨hphase, ?_⟩
      simp only [Defer, hphase, if_true]
    · left
      simp only [Defer, hphase, if_false]
  · intro hphase data
    simp only [HandleClientPacket, if_pos hphase]

/-- C23, at the handler that holds the attack on the entity 1: the same attack
sent again before the tick packet changes nothing. -/
theorem CombatHandler_phase_machine_witness :
    (heldAttack (1 / 2)).Phase ≠ CombatPhaseNone ∧
    HandleClientPacket exactHandlerGeometry (heldAttack (1 / 2))
        (ClientPacket.InventoryTransaction (TransactionData.UseItemOnEntity originAttack))
        (combatScene ⟨0, 0, 3⟩ ⟨0, 0, 0⟩ ⟨0, 0, 0⟩ true)
      = some (heldAttack (1 / 2)) :=
  ⟨by decide,
   (CombatHandler_phase_machine exactHandlerGeometry (heldAttack (1 / 2))
      (ClientPacket.InventoryTransaction (TransactionData.UseItemOnEntity originAttack))
      (combatScene ⟨0, 0, 3⟩ ⟨0, 0, 0⟩ ⟨0, 0, 0⟩ true)).2.2.2.2 (by decide)
      (TransactionData.UseItemOnEntity originAttack)⟩

theorem afterAttack_front :
    afterAttack (1 / 2) ⟨0, 0, 3⟩ ⟨0, 0, 0⟩ ⟨0, 0, 0⟩ = some (heldAttack (1 / 2)) := by
  decide!

theorem afterAttack_side :
    afterAttack 1 ⟨3, 0, 0⟩ ⟨0, 0, 0⟩ ⟨0, 0, -90⟩ = some (heldAttack 1) := by
  decide!

/-- C22 fails: the `PlayerAuthInput` branch never asks the registry, it only
looks at the address kept in `TargetedEntity`, so its result is the same
whatever `Find` answers.  After the attack on the entity 1 standing 3 units in
front of the attacker, with the registry no longer listing the entity when the
`PlayerAuthInput` packet arrives, the handler still casts its rays, gets the
distance 2.6 at each of the three samples and ends in the phase Ticked. -/
theorem removed_target_is_still_validated :
    (∀ (g : HandlerGeometry) (h : CombatHandler) (p : CombatPlayer) (InputMode : Nat)
        (MissedSwing : Bool) (find : Nat → Option Nat),
      HandleClientPacket g h (ClientPacket.PlayerAuthInput InputMode MissedSwing)
          { p with Find := find }
        = HandleClientPacket g h (ClientPacket.PlayerAuthInput InputMode MissedSwing) p) ∧
    (afterAttack (1 / 2) ⟨0, 0, 3⟩ ⟨0, 0, 0⟩ ⟨0, 0, 0⟩).map
        (fun h => (h.Phase, h.TargetedEntity))
      = some (CombatPhaseTransaction, some 0) ∧
    (combatScene ⟨0, 0, 3⟩ ⟨0, 0, 0⟩ ⟨0, 0, 0⟩ false).Find 1 = none ∧
    ((afterAttack (1 / 2) ⟨0, 0, 3⟩ ⟨0, 0, 0⟩ ⟨0, 0, 0⟩).bind
        (fun h => HandleClientPacket exactHandlerGeometry h (ClientPacket.PlayerAuthInput 1 false)
          (combatScene ⟨0, 0, 3⟩ ⟨0, 0, 0⟩ ⟨0, 0, 0⟩ false))).map
        (fun h => (h.Phase, h.RaycastResults))
      = some (CombatPhaseTicked, [13 / 5, 13 / 5, 13 / 5]) := by
  refine ⟨fun g h p InputMode MissedSwing find => rfl, ?_, by decide, ?_⟩
  · rw [afterAttack_front]
    decide
  · rw [afterAttack_front]
    decide!

theorem Vec3_blend_eq_iff (s e : Vec3) (t : ℚ) :
    s.Add ((s.Sub e).Mul t) = s.Add ((e.Sub s).Mul t) ↔ t = 0 ∨ s = e := by
  cases s with
  | mk sx sy sz =>
    cases e with
    | mk ex ey ez =>
      simp only [Vec3.Add, Vec3.Sub, Vec3.Mul, Vec3.mk.injEq]
      constructor
      · rintro ⟨hx, hy, hz⟩
        by_cases ht : t = 0
        · exact Or.inl ht
        · right
          have h2 : (2 : ℚ) * t ≠ 0 := mul_ne_zero two_ne_zero ht
          refine ⟨?_, ?_, ?_⟩
          · have : (2 * t) * (sx - ex) = 0 := by linarith
            rcases mul_eq_zero.mp this with h | h
            · exact absurd h h2
            · linarith
          · have : (2 * t) * (sy - ey) = 0 := by linarith
            rcases mul_eq_zero.mp this with h | h
            · exact absurd h h2
            · linarith
          · have : (2 * t) * (sz - ez) = 0 := by linarith
            rcases mul_eq_zero.mp this with h | h
            · exact absurd h h2
            · linarith
      · rintro (ht | ⟨hx, hy, hz⟩)
        · subst ht
          simp
        · subst hx hy hz
          simp

/-- C24 fails: the rotation of the sample at `t` is the start rotation plus `t`
times the start rotation minus the end rotation, which is the blend of the claim
only for `t = 0` or for equal rotations.  For an attacker who turned from yaw 0
to yaw -90 toward a target standing 3 units along the x axis, with the
interpolation step 1, the sample at `t = 1` looks along yaw 90, away from the
target: the handler gets no raycast result, where the ray of the blend of the
claim reaches the target at the distance 2.6. -/
theorem attackRotation_moves_away_from_end :
    (∀ (startRotation endRotation : Vec3) (t : ℚ),
      attackRotation startRotation (startRotation.Sub endRotation) t
          = startRotation.Add ((endRotation.Sub startRotation).Mul t)
        ↔ t = 0 ∨ startRotation = endRotation) ∧
    attackRotation ⟨0, 0, 0⟩ ((⟨0, 0, 0⟩ : Vec3).Sub ⟨0, 0, -90⟩) 1 = ⟨0, 0, 90⟩ ∧
    ((afterAttack 1 ⟨3, 0, 0⟩ ⟨0, 0, 0⟩ ⟨0, 0, -90⟩).bind
        (fun h => HandleClientPacket exactHandlerGeometry h (ClientPacket.PlayerAuthInput 1 false)
          (combatScene ⟨3, 0, 0⟩ ⟨0, 0, 0⟩ ⟨0, 0, -90⟩ true))).map
        (fun h => (h.Phase, h.RaycastResults))
      = some (CombatPhaseTicked, []) ∧
    pointingSample exactHandlerGeometry (playerAt ⟨3, 0, 0⟩) ⟨0, 162 / 100, 0⟩ ⟨0, 0, 0⟩
        ⟨0, 0, 0⟩ ((⟨0, 0, -90⟩ : Vec3).Sub ⟨0, 0, 0⟩) ⟨3, 0, 0⟩ ⟨0, 0, 0⟩
        ⟨1 / 10, 1 / 10, 1 / 10⟩ 1 []
      = [13 / 5] := by
  refine ⟨fun s e t => Vec3_blend_eq_iff s e t, by decide!, ?_, by decide!⟩
  rw [afterAttack_side]
  decide!

end CombatFacts

/-! ## The forward-or-drop decision and the two timestamp decoders -/

section ForwardFacts
open AcknowledgementHandler
variable {κ : Type}

/-- C35: `HandleClientPacket` returns false exactly when the packet is a
`NetworkStackLatency` whose decoded timestamp is a key of `AckMap`, and it then
runs the callbacks of that bucket; on a `NetworkStackLatency` whose decoded
timestamp is no key it runs nothing, changes nothing and returns true, as it
does on a packet of another type; on a `TickSync` packet it returns true, once
`Refresh` has found a free timestamp among the draws. -/
theorem HandleClientPacket_drops_iff_matched (a : AcknowledgementHandler κ) (pk : AckPacket)
    (orbis : Bool) (draws : List Nat) :
    (∀ r, a.HandleClientPacket pk orbis draws = some r →
      (r.ret = false ↔
        ∃ (Timestamp : Int) (fs : List κ), pk = AckPacket.NetworkStackLatency Timestamp ∧
          mapGet a.AckMap (a.decodeTimestamp Timestamp) = some fs ∧ r.calls = fs)) ∧
    (∀ Timestamp : Int, mapGet a.AckMap (a.decodeTimestamp Timestamp) = none →
      a.HandleClientPacket (AckPacket.NetworkStackLatency Timestamp) orbis draws
        = some { state := (a, draws), calls := [], ret := true }) ∧
    (∀ (Timestamp : Int) (fs : List κ),
      mapGet a.AckMap (a.decodeTimestamp Timestamp) = some fs →
      a.HandleClientPacket (AckPacket.NetworkStackLatency Timestamp) orbis draws
        = some { state := ({ a with AckMap := mapDelete a.AckMap (a.decodeTimestamp Timestamp) },
                           draws),
                 calls := fs, ret := false }) ∧
    a.HandleClientPacket AckPacket.otherPacket orbis draws
      = some { state := (a, draws), calls := [], ret := true } ∧
    ((∃ r ∈ draws, mapGet a.AckMap
        (if a.LegacyMode then drawTimestamp r * 1000 else drawTimestamp r) = none) →
      ∃ r, a.HandleClientPacket AckPacket.TickSync orbis draws = some r ∧ r.ret = true ∧
        r.calls = []) := by
  have hmiss : ∀ Timestamp : Int, mapGet a.AckMap (a.decodeTimestamp Timestamp) = none →
      a.HandleClientPacket (AckPacket.NetworkStackLatency Timestamp) orbis draws
        = some { state := (a, draws), calls := [], ret := true } := by
    intro ts h
    simp only [HandleClientPacket, Execute_eq_tryExecute, tryExecute, h, Bool.not_false]
  have hhit : ∀ (Timestamp : Int) (fs : List κ),
      mapGet a.AckMap (a.decodeTimestamp Timestamp) = some fs →
      a.HandleClientPacket (AckPacket.NetworkStackLatency Timestamp) orbis draws
        = some { state := ({ a with AckMap := mapDelete a.AckMap (a.decodeTimestamp Timestamp) },
                           draws),
                 calls := fs, ret := false } := by
    intro ts fs h
    simp only [HandleClientPacket, Execute_eq_tryExecute, tryExecute, h, Bool.not_true]
  refine ⟨?_, hmiss, hhit, rfl, ?_⟩
  · intro r hr
    cases pk with
    | otherPacket =>
      simp only [HandleClientPacket, Option.some.injEq] at hr
      subst hr
      simp
    | TickSync =>
      simp only [HandleClientPacket, Option.map_eq_some'] at hr
      obtain ⟨x, _, hx⟩ := hr
      subst hx
      simp
    | NetworkStackLatency ts =>
      cases hget : mapGet a.AckMap (a.decodeTimestamp ts) with
      | none =>
        rw [hmiss ts hget, Option.some.injEq] at hr
        subst hr
        simp [hget]
      | some fs =>
        rw [hhit ts fs hget, Option.some.injEq] at hr
        subst hr
        simp [hget]
  · intro hfree
    have hsome := handler_Refresh_isSome ({ a with Playstation := orbis }) draws hfree
    obtain ⟨x, hx⟩ := Option.isSome_iff_exists.mp hsome
    exact ⟨{ state := x, calls := [], ret := true }, by simp [HandleClientPacket, hx], rfl, rfl⟩

/-- C35, at a modern handler with the bucket 5 pending: the response 5000000 is
dropped and runs the callback, the response 7000000 is forwarded. -/
theorem HandleClientPacket_drops_iff_matched_witness :
    (({ LegacyMode := false, Playstation := false, AckMap := [(5, [42])],
        CurrentTimestamp := 9 } : AcknowledgementHandler Nat).HandleClientPacket
        (AckPacket.NetworkStackLatency 5000000) false []).map (fun r => (r.calls, r.ret))
      = some ([42], false) ∧
    (({ LegacyMode := false, Playstation := false, AckMap := [(5, [42])],
        CurrentTimestamp := 9 } : AcknowledgementHandler Nat).HandleClientPacket
        (AckPacket.NetworkStackLatency 7000000) false []).map (fun r => (r.calls, r.ret))
      = some ([], true) :=
  ⟨by
    rw [(HandleClientPacket_drops_iff_matched
      ({ LegacyMode := false, Playstation := false, AckMap := [(5, [42])],
         CurrentTimestamp := 9 } : AcknowledgementHandler Nat)
      (AckPacket.NetworkStackLatency 5000000) false []).2.2.1 5000000 [42] (by decide)]
    rfl,
   by decide⟩

theorem tdiv_tdiv_thousand (ts : Int) :
    Int.tdiv (Int.tdiv ts 1000) 1000 = Int.tdiv ts 1000000 := by
  rcases Int.le_total 0 ts with h | h
  · obtain ⟨n, rfl⟩ := Int.eq_ofNat_of_zero_le h
    have h1 : Int.tdiv (n : Int) 1000 = ((n / 1000 : Nat) : Int) := by
      rw [Int.tdiv_eq_ediv (by positivity) (by norm_num)]
      norm_cast
    have h2 : Int.tdiv ((n / 1000 : Nat) : Int) 1000 = ((n / 1000 / 1000 : Nat) : Int) := by
      rw [Int.tdiv_eq_ediv (by positivity) (by norm_num)]
      norm_cast
    have h3 : Int.tdiv (n : Int) 1000000 = ((n / 1000000 : Nat) : Int) := by
      rw [Int.tdiv_eq_ediv (by positivity) (by norm_num)]
      norm_cast
    rw [h1, h2, h3, Nat.div_div_eq_div_mul]
  · obtain ⟨n, hn⟩ := Int.eq_ofNat_of_zero_le (Int.neg_nonneg.mpr h)
    have hts : ts = -(n : Int) := by omega
    subst hts
    have h1 : Int.tdiv (n : Int) 1000 = ((n / 1000 : Nat) : Int) := by
      rw [Int.tdiv_eq_ediv (by positivity) (by norm_num)]
      norm_cast
    have h2 : Int.tdiv ((n / 1000 : Nat) : Int) 1000 = ((n / 1000 / 1000 : Nat) : Int) := by
      rw [Int.tdiv_eq_ediv (by positivity) (by norm_num)]
      norm_cast
    have h3 : Int.tdiv (n : Int) 1000000 = ((n / 1000000 : Nat) : Int) := by
      rw [Int.tdiv_eq_ediv (by positivity) (by norm_num)]
      norm_cast
    rw [Int.neg_tdiv, h1, Int.neg_tdiv, h2, Int.neg_tdiv, h3, Nat.div_div_eq_div_mul]

/-- C36: for a modern client that is not a Playstation, the timestamp
`(ts / 1000) / 1000` that `AcknowledgementHandler.Execute` looks up is the
timestamp `ts / 1000000` that `Player.handleNetworkStackLatency` looks up, for
every integer `ts`, negative ones included, the division truncating toward
zero; so on the same map both find the same bucket, run the same callbacks and
report the same value. -/
theorem modern_decoders_agree (h : AcknowledgementHandler κ) (a : Acknowledgements κ)
    (ts : Int) (hh : h.LegacyMode = false) (hp : h.Playstation = false)
    (ha : a.LegacyMode = false) (hmap : h.AckMap = a.AcknowledgeMap) :
    h.decodeTimestamp ts = Int.tdiv ts DefaultNetworkStackLatencyDivider ∧
    Int.tdiv (Int.tdiv ts AckDivider) AckDivider = Int.tdiv ts DefaultNetworkStackLatencyDivider ∧
    h.Execute ts = h.tryExecute (Int.tdiv ts DefaultNetworkStackLatencyDivider) ∧
    Player.handleNetworkStackLatency (some a) ts false
      = { state := some (a.tryHandle (Int.tdiv ts DefaultNetworkStackLatencyDivider)).state,
          calls := (a.tryHandle (Int.tdiv ts DefaultNetworkStackLatencyDivider)).calls,
          ret := (a.tryHandle (Int.tdiv ts DefaultNetworkStackLatencyDivider)).ret } ∧
    (h.Execute ts).calls = (Player.handleNetworkStackLatency (some a) ts false).calls ∧
    (h.Execute ts).ret = (Player.handleNetworkStackLatency (some a) ts false).ret := by
  have hdec : h.decodeTimestamp ts = Int.tdiv ts DefaultNetworkStackLatencyDivider := by
    simp only [decodeTimestamp, hh, hp, Bool.false_eq_true, if_false, Bool.not_false, if_true,
      AckDivider, DefaultNetworkStackLatencyDivider]
    exact tdiv_tdiv_thousand ts
  have hexec : h.Execute ts = h.tryExecute (Int.tdiv ts DefaultNetworkStackLatencyDivider) := by
    rw [Execute_eq_tryExecute, hdec]
  have hplayer : Player.handleNetworkStackLatency (some a) ts false
      = { state := some (a.tryHandle (Int.tdiv ts DefaultNetworkStackLatencyDivider)).state,
          calls := (a.tryHandle (Int.tdiv ts DefaultNetworkStackLatencyDivider)).calls,
          ret := (a.tryHandle (Int.tdiv ts DefaultNetworkStackLatencyDivider)).ret } := by
    simp [Player.handleNetworkStackLatency, ha]
  refine ⟨hdec, tdiv_tdiv_thousand ts, hexec, hplayer, ?_, ?_⟩
  · rw [hexec, hplayer]
    simp only [tryExecute, Acknowledgements.tryHandle, hmap]
    cases mapGet a.AcknowledgeMap (Int.tdiv ts DefaultNetworkStackLatencyDivider) <;> rfl
  · rw [hexec, hplayer]
    simp only [tryExecute, Acknowledgements.tryHandle, hmap]
    cases mapGet a.AcknowledgeMap (Int.tdiv ts DefaultNetworkStackLatencyDivider) <;> rfl

/-- C36, at the negative timestamp -1999999 with the bucket -1 pending: both
decode it to -1 and run the callback. -/
theorem modern_decoders_agree_witness :
    (({ LegacyMode := false, Playstation := false, AckMap := [(-1, [42])],
        CurrentTimestamp := 9 } : AcknowledgementHandler Nat).decodeTimestamp (-1999999))
      = Int.tdiv (-1999999) DefaultNetworkStackLatencyDivider ∧
    Int.tdiv (-1999999) DefaultNetworkStackLatencyDivider = -1 :=
  ⟨(modern_decoders_agree
      ({ LegacyMode := false, Playstation := false, AckMap := [(-1, [42])],
         CurrentTimestamp := 9 } : AcknowledgementHandler Nat)
      ({ AcknowledgeMap := [(-1, [42])], CurrentTimestamp := 9, HasTicked := true,
         LegacyMode := false, acknowledgementOrder := [], awaitResTicks := 3 } :
        Acknowledgements Nat)
      (-1999999) rfl rfl rfl rfl).1,
   by decide⟩

end ForwardFacts

/-! ## The velocity check of `check/velocity_b.go` -/

section VelocityFacts
open VelocityB

end VelocityFacts

/-! ## The detections of `detection/kill_aura_a.go` and `detection/bad_packet_b.go` -/

section DetectionFacts
open detection

theorem wrapInt64_of_range (x : Int) (hlo : -2 ^ 63 ≤ x) (hhi : x < 2 ^ 63) :
    wrapInt64 x = x := by
  unfold wrapInt64
  rw [Int.emod_eq_of_lt (by omega) (by omega)]
  omega

/-- C31: `HandleClientPacket` returns false exactly on an attack-type
`UseItemOnEntity` transaction with `tickDiff > maxTickDiff`, and it calls `Fail`
exactly then, once, with the tick difference, the current tick and the last
swing; on every other packet it returns true without a failure.  `tickDiff` is
the `int64` difference `ClientFrame - LastSwing` and `maxTickDiff` is 10, plus
the mining-fatigue level when the player has that effect: whenever the
difference and the sum fit an `int64` they are the integers
`ClientFrame - LastSwing` and `10 + L`. -/
theorem KillAuraA_drops_iff_no_swing (d : KillAuraA) (pk : detection.Packet) (p : KillAuraAPlayer) :
    ((d.HandleClientPacket pk p).ret = false ↔
      ∃ data : UseItemOnEntityTransactionData,
        pk = detection.Packet.InventoryTransaction (TransactionData.UseItemOnEntity data) ∧
        data.ActionType = UseItemOnEntityActionAttack ∧
        KillAuraA.tickDiff p > KillAuraA.maxTickDiff p) ∧
    ((d.HandleClientPacket pk p).ret = false →
      (d.HandleClientPacket pk p).fails
        = [[("tick_diff", KillAuraA.tickDiff p), ("current_tick", p.ClientFrame),
            ("last_tick", p.LastSwing)]]) ∧
    ((d.HandleClientPacket pk p).ret = true → (d.HandleClientPacket pk p).fails = []) ∧
    (-2 ^ 63 ≤ p.ClientFrame - p.LastSwing → p.ClientFrame - p.LastSwing < 2 ^ 63 →
      KillAuraA.tickDiff p = p.ClientFrame - p.LastSwing) ∧
    (p.MiningFatigue = none → KillAuraA.maxTickDiff p = 10) ∧
    (∀ L : Int, p.MiningFatigue = some L → -2 ^ 63 ≤ L → 10 + L < 2 ^ 63 →
      KillAuraA.maxTickDiff p = 10 + L) := by
  refine ⟨?_, ?_, ?_, ?_, ?_, ?_⟩
  · cases pk with
    | InventoryTransaction t =>
      cases t with
      | otherData => simp [KillAuraA.HandleClientPacket]
      | UseItemOnEntity data =>
        by_cases hact : data.ActionType = UseItemOnEntityActionAttack
        · by_cases hdiff : KillAuraA.tickDiff p > KillAuraA.maxTickDiff p
          · simp [KillAuraA.HandleClientPacket, hact, hdiff]
          · simp [KillAuraA.HandleClientPacket, hact, hdiff]
        · simp [KillAuraA.HandleClientPacket, hact]
    | MovePlayer pos => simp [KillAuraA.HandleClientPacket]
    | PlayerAuthInput => simp [KillAuraA.HandleClientPacket]
    | otherPacket => simp [KillAuraA.HandleClientPacket]
  · cases pk with
    | InventoryTransaction t =>
      cases t with
      | otherData => simp [KillAuraA.HandleClientPacket]
      | UseItemOnEntity data =>
        by_cases hact : data.ActionType = UseItemOnEntityActionAttack
        · by_cases hdiff : KillAuraA.tickDiff p > KillAuraA.maxTickDiff p
          · simp [KillAuraA.HandleClientPacket, hact, hdiff]
          · simp [KillAuraA.HandleClientPacket, hact, hdiff]
        · simp [KillAuraA.HandleClientPacket, hact]
    | MovePlayer pos => simp [KillAuraA.HandleClientPacket]
    | PlayerAuthInput => simp [KillAuraA.HandleClientPacket]
    | otherPacket => simp [KillAuraA.HandleClientPacket]
  · cases pk with
    | InventoryTransaction t =>
      cases t with
      | otherData => simp [KillAuraA.HandleClientPacket]
      | UseItemOnEntity data =>
        by_cases hact : data.ActionType = UseItemOnEntityActionAttack
        · by_cases hdiff : KillAuraA.tickDiff p > KillAuraA.maxTickDiff p
          · simp [KillAuraA.HandleClientPacket, hact, hdiff]
          · simp [KillAuraA.HandleClientPacket, hact, hdiff]
        · simp [KillAuraA.HandleClientPacket, hact]
    | MovePlayer pos => simp [KillAuraA.HandleClientPacket]
    | PlayerAuthInput => simp [KillAuraA.HandleClientPacket]
    | otherPacket => simp [KillAuraA.HandleClientPacket]
  · intro hlo hhi
    exact wrapInt64_of_range _ hlo hhi
  · intro hnone
    simp [KillAuraA.maxTickDiff, hnone]
  · intro L hsome hlo hhi
    simp only [KillAuraA.maxTickDiff, hsome]
    rw [wrapInt64_of_range L hlo (by omega), wrapInt64_of_range (10 + L) (by omega) hhi]

/-- C31, for a player with mining fatigue of level 2 who swung at the frame 100:
an attack at the frame 112 is forwarded, an attack at the frame 113 is dropped. -/
theorem KillAuraA_drops_iff_no_swing_witness :
    (KillAuraA.HandleClientPacket {}
        (detection.Packet.InventoryTransaction (TransactionData.UseItemOnEntity originAttack))
        { LastSwing := 100, ClientFrame := 112, MiningFatigue := some 2 }).ret = true ∧
    (KillAuraA.HandleClientPacket {}
        (detection.Packet.InventoryTransaction (TransactionData.UseItemOnEntity originAttack))
        { LastSwing := 100, ClientFrame := 113, MiningFatigue := some 2 }).ret = false :=
  ⟨by decide,
   (KillAuraA_drops_iff_no_swing {}
      (detection.Packet.InventoryTransaction (TransactionData.UseItemOnEntity originAttack))
      { LastSwing := 100, ClientFrame := 113, MiningFatigue := some 2 }).1.mpr
      ⟨originAttack, rfl, rfl, by decide⟩⟩

theorem BadPacketB_run_state (pks : List (detection.Packet × BadPacketBPlayer)) :
    ∀ d : BadPacketB, 0 ≤ d.tick → d.tick + authInputs pks < 2 ^ 63 →
      (BadPacketB.run d pks).1 = { last := d.last, tick := d.tick + authInputs pks } := by
  induction pks with
  | nil =>
    intro d _ _
    simp [BadPacketB.run, authInputs]
  | cons x rest ih =>
    intro d h0 hlt
    obtain ⟨pk, p⟩ := x
    cases pk with
    | PlayerAuthInput =>
      have hcount : authInputs ((detection.Packet.PlayerAuthInput, p) :: rest) = authInputs rest + 1 := by
        simp [authInputs]
      rw [hcount] at hlt ⊢
      push_cast at hlt ⊢
      have hwrap : wrapInt64 (d.tick + 1) = d.tick + 1 :=
        wrapInt64_of_range _ (by omega) (by omega)
      simp only [BadPacketB.run, BadPacketB.HandleClientPacket, hwrap]
      rw [ih { d with tick := d.tick + 1 } (by simp only; omega) (by simp only; omega)]
      simp only [BadPacketB.mk.injEq, true_and]
      ring
    | MovePlayer pos =>
      have hcount : authInputs ((detection.Packet.MovePlayer pos, p) :: rest) = authInputs rest := by
        simp [authInputs]
      rw [hcount] at hlt ⊢
      have hstate : (BadPacketB.HandleClientPacket d (detection.Packet.MovePlayer pos) p).state = d := by
        simp only [BadPacketB.HandleClientPacket]
        split <;> rfl
      simp only [BadPacketB.run, hstate]
      exact ih d h0 hlt
    | InventoryTransaction t =>
      have hcount : authInputs ((detection.Packet.InventoryTransaction t, p) :: rest)
          = authInputs rest := by
        simp [authInputs]
      rw [hcount] at hlt ⊢
      simp only [BadPacketB.run, BadPacketB.HandleClientPacket]
      exact ih d h0 hlt
    | otherPacket =>
      have hcount : authInputs ((detection.Packet.otherPacket, p) :: rest) = authInputs rest := by
        simp [authInputs]
      rw [hcount] at hlt ⊢
      simp only [BadPacketB.run, BadPacketB.HandleClientPacket]
      exact ih d h0 hlt

theorem BadPacketB_move_forwarded (d : BadPacketB) (pos : Vec3) (p : BadPacketBPlayer)
    (hlast : d.last = 0) (h2 : 2 ≤ d.tick) (hlt : d.tick < 2 ^ 63) :
    BadPacketB.HandleClientPacket d (detection.Packet.MovePlayer pos) p
      = { state := d, fails := [], ret := true } := by
  have hwrap : wrapInt64 (d.tick - d.last) = d.tick := by
    rw [hlast, sub_zero]
    exact wrapInt64_of_range _ (by omega) hlt
  have hnot : ¬ (d.tick < 2 ∧ p.NoClientPredictions = false ∧ p.ChunkLoaded pos = true) := by
    intro h
    omega
  simp only [BadPacketB.HandleClientPacket, hwrap, if_neg hnot]

theorem BadPacketB_moves_forwarded (d : BadPacketB) (hlast : d.last = 0) (h2 : 2 ≤ d.tick)
    (hlt : d.tick < 2 ^ 63) :
    ∀ moves : List (detection.Packet × BadPacketBPlayer),
      (∀ m ∈ moves, ∃ pos : Vec3, m.1 = detection.Packet.MovePlayer pos) →
      BadPacketB.run d moves = (d, moves.map (fun _ => ([], true))) := by
  intro moves
  induction moves with
  | nil =>
    intro _
    rfl
  | cons m rest ih =>
    intro hall
    obtain ⟨pk, p⟩ := m
    obtain ⟨pos, hpos⟩ := hall (pk, p) (List.mem_cons_self _ _)
    simp only at hpos
    subst hpos
    simp only [BadPacketB.run, BadPacketB_move_forwarded d pos p hlast h2 hlt, List.map_cons]
    rw [ih (fun m hm => hall m (List.mem_cons_of_mem _ hm))]

/-- C32: no call of `HandleClientPacket` writes the field `last`.  After a run
of packets from `NewBadPacketB()` holding `n` `PlayerAuthInput` packets, `n`
below `2^63`, `tick` is `n` and `last` is 0, so the speed computed on a
`MovePlayer` packet is `n`: for `n` below 2, with client predictions and a
loaded chunk, the packet is failed with the speed `n` and dropped; for `n` of at
least 2 the packet is forwarded without a failure, and so is every packet of
any run of `MovePlayer` packets that follows, the detection staying as it is. -/
theorem BadPacketB_speed_counts_inputs (pks : List (detection.Packet × BadPacketBPlayer))
    (hlt : authInputs pks < 2 ^ 63) :
    (∀ (d : BadPacketB) (pk : detection.Packet) (p : BadPacketBPlayer),
      (BadPacketB.HandleClientPacket d pk p).state.last = d.last) ∧
    (BadPacketB.run NewBadPacketB pks).1 = { last := 0, tick := authInputs pks } ∧
    (∀ (pos : Vec3) (p : BadPacketBPlayer), authInputs pks < 2 →
      p.NoClientPredictions = false → p.ChunkLoaded pos = true →
      BadPacketB.HandleClientPacket (BadPacketB.run NewBadPacketB pks).1 (detection.Packet.MovePlayer pos) p
        = { state := (BadPacketB.run NewBadPacketB pks).1,
            fails := [[("speed", (authInputs pks : Int))]], ret := false }) ∧
    (∀ (pos : Vec3) (p : BadPacketBPlayer), 2 ≤ authInputs pks →
      BadPacketB.HandleClientPacket (BadPacketB.run NewBadPacketB pks).1 (detection.Packet.MovePlayer pos) p
        = { state := (BadPacketB.run NewBadPacketB pks).1, fails := [], ret := true }) ∧
    (∀ moves : List (detection.Packet × BadPacketBPlayer), 2 ≤ authInputs pks →
      (∀ m ∈ moves, ∃ pos : Vec3, m.1 = detection.Packet.MovePlayer pos) →
      BadPacketB.run (BadPacketB.run NewBadPacketB pks).1 moves
        = ((BadPacketB.run NewBadPacketB pks).1, moves.map (fun _ => ([], true)))) := by
  have hstate : (BadPacketB.run NewBadPacketB pks).1 = { last := 0, tick := authInputs pks } := by
    have h := BadPacketB_run_state pks NewBadPacketB (le_refl _)
      (by simp only [NewBadPacketB, zero_add]; exact_mod_cast hlt)
    simpa [NewBadPacketB] using h
  have hlt' : ((authInputs pks : Nat) : Int) < 2 ^ 63 := by exact_mod_cast hlt
  refine ⟨?_, hstate, ?_, ?_, ?_⟩
  · intro d pk p
    cases pk with
    | MovePlayer pos =>
      simp only [BadPacketB.HandleClientPacket]
      split <;> rfl
    | PlayerAuthInput => rfl
    | InventoryTransaction t => rfl
    | otherPacket => rfl
  · intro pos p hn hpred hchunk
    rw [hstate]
    have hwrap : wrapInt64 (((authInputs pks : Nat) : Int) - 0) = authInputs pks := by
      rw [sub_zero]
      exact wrapInt64_of_range _ (by omega) hlt'
    have hcond : ((authInputs pks : Nat) : Int) < 2 ∧ p.NoClientPredictions = false ∧
        p.ChunkLoaded pos = true := ⟨by exact_mod_cast hn, hpred, hchunk⟩
    simp only [BadPacketB.HandleClientPacket, hwrap, if_pos hcond]
  · intro pos p hn
    rw [hstate]
    have h2 : (2 : Int) ≤ ((authInputs pks : Nat) : Int) := by exact_mod_cast hn
    exact BadPacketB_move_forwarded { last := 0, tick := authInputs pks } pos p rfl h2 hlt'
  · intro moves hn hall
    rw [hstate]
    have h2 : (2 : Int) ≤ ((authInputs pks : Nat) : Int) := by exact_mod_cast hn
    exact BadPacketB_moves_forwarded { last := 0, tick := authInputs pks } rfl h2 hlt' moves hall

/-- C32, after two `PlayerAuthInput` packets: three `MovePlayer` packets in a
row are all forwarded without a failure. -/
theorem BadPacketB_speed_counts_inputs_witness :
    BadPacketB.run
        (BadPacketB.run NewBadPacketB
          [(detection.Packet.PlayerAuthInput, predictingPlayer),
           (detection.Packet.PlayerAuthInput, predictingPlayer)]).1
        [(detection.Packet.MovePlayer ⟨0, 0, 0⟩, predictingPlayer),
         (detection.Packet.MovePlayer ⟨1, 0, 0⟩, predictingPlayer),
         (detection.Packet.MovePlayer ⟨2, 0, 0⟩, predictingPlayer)]
      = ((BadPacketB.run NewBadPacketB
          [(detection.Packet.PlayerAuthInput, predictingPlayer),
           (detection.Packet.PlayerAuthInput, predictingPlayer)]).1,
         [([], true), ([], true), ([], true)]) :=
  (BadPacketB_speed_counts_inputs
    [(detection.Packet.PlayerAuthInput, predictingPlayer), (detection.Packet.PlayerAuthInput, predictingPlayer)]
    (by decide)).2.2.2.2
    [(detection.Packet.MovePlayer ⟨0, 0, 0⟩, predictingPlayer),
     (detection.Packet.MovePlayer ⟨1, 0, 0⟩, predictingPlayer),
     (detection.Packet.MovePlayer ⟨2, 0, 0⟩, predictingPlayer)]
    (by decide) (by
      intro m hm
      simp only [List.mem_cons, List.mem_singleton, List.not_mem_nil, or_false] at hm
      rcases hm with rfl | rfl | rfl
      · exact ⟨_, rfl⟩
      · exact ⟨_, rfl⟩
      · exact ⟨_, rfl⟩)

end DetectionFacts

/-! ## The click window of `CombatHandler.click` and `Player.Click` -/

section ClickFacts
open CombatHandler

theorem wrapInt64_zero : wrapInt64 0 = 0 := by decide

theorem subUint64_self (a : Nat) : subUint64 a a = 0 := by
  unfold subUint64
  omega

theorem subUint64_of_le (a b : Nat) (hb : b ≤ a) (ha : a < 2 ^ 64) : subUint64 a b = a - b := by
  unfold subUint64
  omega

theorem click_fields (h : CombatHandler) (p : CombatPlayer) :
    (h.click p).Clicks
      = h.Clicks.filter (fun c => decide (wrapInt64 (p.ClientFrame - c) ≤ 20)) ++ [p.ClientFrame] ∧
    (h.click p).CPS = ((h.click p).Clicks.length : Int) ∧
    (h.click p).LastClickTick = p.ClientFrame ∧ (h.click p).Clicking = true ∧
    (h.click p).ClickDelay
      = if h.Clicks.length > 0 then wrapInt64 (wrapInt64 (p.ClientFrame - h.LastClickTick) * 50)
        else 0 := by
  have hself : decide (wrapInt64 (p.ClientFrame - p.ClientFrame) ≤ 20) = true := by
    rw [sub_self, wrapInt64_zero]
    decide
  by_cases hlen : h.Clicks.length > 0
  · simp only [click, hlen, if_true, List.filter_append, List.filter_cons, hself, List.filter_nil,
      and_self]
  · simp only [click, hlen, if_false, if_true, List.filter_append, List.filter_cons, hself,
      List.filter_nil, and_self]

theorem Player_Click_fields (p : PlayerClicks) :
    (Player.Click p).clicks
      = p.clicks.filter (fun c => decide (subUint64 p.clientTick c ≤ 20)) ++ [p.clientTick] ∧
    (Player.Click p).cps = ((Player.Click p).clicks.length : Int) ∧
    (Player.Click p).lastClickTick = p.clientTick ∧ (Player.Click p).clicking = true ∧
    (Player.Click p).clickDelay
      = if p.clicks.length > 0 then (subUint64 p.clientTick p.lastClickTick * 50) % 2 ^ 64
        else 0 := by
  have hself : decide (subUint64 p.clientTick p.clientTick ≤ 20) = true := by
    rw [subUint64_self]
    decide
  by_cases hlen : p.clicks.length > 0
  · simp only [Player.Click, hlen, if_true, List.filter_append, List.filter_cons, hself,
      List.filter_nil, and_self]
  · simp only [Player.Click, hlen, if_false, if_true, List.filter_append, List.filter_cons,
      hself, List.filter_nil, and_self]

/-- C34: after `CombatHandler.click` at the frame `T`, `Clicks` is the elements
`c` of the history with `T - c <= 20`, in their order, followed by `T`, `CPS` is
the length of `Clicks` and at least 1, `LastClickTick` is `T`, `Clicking` is
true, and `ClickDelay` is `(T - LastClickTick) * 50` for a non-empty history and
0 for an empty one, the differences and the product being those of `int64`;
`Player.Click` does the same on its fields with the `uint64` tick.  When the
differences fit (for `uint64`: no tick of the history lies after `T`) and the
product fits, these are the differences and the product of the integers. -/
theorem click_window (h : CombatHandler) (p : CombatPlayer) (q : PlayerClicks) :
    ((h.click p).Clicks
        = h.Clicks.filter (fun c => decide (wrapInt64 (p.ClientFrame - c) ≤ 20))
            ++ [p.ClientFrame] ∧
      (h.click p).CPS = ((h.click p).Clicks.length : Int) ∧ 1 ≤ (h.click p).CPS ∧
      (h.click p).LastClickTick = p.ClientFrame ∧ (h.click p).Clicking = true ∧
      (h.Clicks = [] → (h.click p).ClickDelay = 0) ∧
      (h.Clicks ≠ [] →
        (h.click p).ClickDelay = wrapInt64 (wrapInt64 (p.ClientFrame - h.LastClickTick) * 50)) ∧
      ((∀ c ∈ h.Clicks, -2 ^ 63 ≤ p.ClientFrame - c ∧ p.ClientFrame - c < 2 ^ 63) →
        (h.click p).Clicks
          = h.Clicks.filter (fun c => decide (p.ClientFrame - c ≤ 20)) ++ [p.ClientFrame]) ∧
      (h.Clicks ≠ [] → -2 ^ 63 ≤ (p.ClientFrame - h.LastClickTick) * 50 →
        (p.ClientFrame - h.LastClickTick) * 50 < 2 ^ 63 →
        (h.click p).ClickDelay = 50 * (p.ClientFrame - h.LastClickTick))) ∧
    ((Player.Click q).clicks
        = q.clicks.filter (fun c => decide (subUint64 q.clientTick c ≤ 20)) ++ [q.clientTick] ∧
      (Player.Click q).cps = ((Player.Click q).clicks.length : Int) ∧ 1 ≤ (Player.Click q).cps ∧
      (Player.Click q).lastClickTick = q.clientTick ∧ (Player.Click q).clicking = true ∧
      (q.clicks = [] → (Player.Click q).clickDelay = 0) ∧
      (q.clicks ≠ [] →
        (Player.Click q).clickDelay = (subUint64 q.clientTick q.lastClickTick * 50) % 2 ^ 64) ∧
      (q.clientTick < 2 ^ 64 → (∀ c ∈ q.clicks, c ≤ q.clientTick) →
        (Player.Click q).clicks
          = q.clicks.filter (fun c => decide (q.clientTick - c ≤ 20)) ++ [q.clientTick]) ∧
      (q.clicks ≠ [] → q.clientTick < 2 ^ 64 → q.lastClickTick ≤ q.clientTick →
        50 * (q.clientTick - q.lastClickTick) < 2 ^ 64 →
        (Player.Click q).clickDelay = 50 * (q.clientTick - q.lastClickTick))) := by
  obtain ⟨hc1, hc2, hc3, hc4, hc5⟩ := click_fields h p
  obtain ⟨hq1, hq2, hq3, hq4, hq5⟩ := Player_Click_fields q
  refine ⟨⟨hc1, hc2, ?_, hc3, hc4, ?_, ?_, ?_, ?_⟩, ⟨hq1, hq2, ?_, hq3, hq4, ?_, ?_, ?_, ?_⟩⟩
  · rw [hc2, hc1]
    simp only [List.length_append, List.length_singleton]
    omega
  · intro hnil
    rw [hc5, hnil]
    rfl
  · intro hne
    rw [hc5, if_pos (List.length_pos.mpr hne)]
  · intro hrange
    rw [hc1]
    congr 1
    apply List.filter_congr
    intro c hc
    rw [wrapInt64_of_range _ (hrange c hc).1 (hrange c hc).2]
  · intro hne hlo hhi
    rw [hc5, if_pos (List.length_pos.mpr hne),
      wrapInt64_of_range (p.ClientFrame - h.LastClickTick) (by omega) (by omega),
      wrapInt64_of_range _ hlo hhi]
    ring
  · rw [hq2, hq1]
    simp only [List.length_append, List.length_singleton]
    omega
  · intro hnil
    rw [hq5, hnil]
    rfl
  · intro hne
    rw [hq5, if_pos (List.length_pos.mpr hne)]
  · intro hT hle
    rw [hq1]
    congr 1
    apply List.filter_congr
    intro c hc
    rw [subUint64_of_le _ _ (hle c hc) hT]
  · intro hne hT hle hlt
    rw [hq5, if_pos (List.length_pos.mpr hne), subUint64_of_le _ _ hle hT]
    rw [Nat.mod_eq_of_lt (by omega)]
    ring

/-- C34, for a click at the frame 130 on the history 100, 110, 125 with the
last click at 125: the handler keeps 110 and 125 and adds 130, with the delay
250. -/
theorem click_window_witness :
    (({ heldAttack 1 with Clicks := [100, 110, 125], LastClickTick := 125 } : CombatHandler).click
        { combatScene ⟨0, 0, 3⟩ ⟨0, 0, 0⟩ ⟨0, 0, 0⟩ true with ClientFrame := 130 }).ClickDelay
      = 50 * (130 - 125) :=
  (click_window { heldAttack 1 with Clicks := [100, 110, 125], LastClickTick := 125 }
    { combatScene ⟨0, 0, 3⟩ ⟨0, 0, 0⟩ ⟨0, 0, 0⟩ true with ClientFrame := 130 }
    { clientTick := 130, clicking := false, clicks := [100, 110, 125], lastClickTick := 125,
      clickDelay := 0, cps := 3 }).1.2.2.2.2.2.2.2.2 (by decide) (by decide) (by decide)

end ClickFacts

/-! ## The raycast results of the combat handler across attacks -/

section StaleResultFacts
open CombatHandler

theorem click_RaycastResults (h : CombatHandler) (p : CombatPlayer) :
    (h.click p).RaycastResults = h.RaycastResults := by
  unfold click
  simp only
  split <;> rfl

theorem earlierAttackResolved_eq :
    earlierAttackResolved
      = some { heldAttack (1 / 2) with
          Phase := CombatPhaseTicked, RaycastResults := [13 / 5, 13 / 5, 13 / 5] } := by
  unfold earlierAttackResolved
  rw [afterAttack_front]
  decide!

theorem secondAttackHeld_eq :
    secondAttackHeld
      = some { heldAttack (1 / 2) with
          ClosestRawDistance := 38 / 5, RaycastResults := [13 / 5, 13 / 5, 13 / 5],
          Clicks := [10, 10], CPS := 2 } := by
  unfold secondAttackHeld
  rw [earlierAttackResolved_eq]
  decide!

/-- C37 fails: a `PlayerAuthInput` packet with touch input leaves
`RaycastResults` as it finds them, whatever the phase, and so does one with a
rotation change of 180 or more, since `RaycastResults` is emptied only after
both early returns.  After a first attack resolved with the three distances
2.6, `Defer` and a second attack on a target 8 units ahead, the
`PlayerAuthInput` packet of the second attack takes the phase from Transaction
to Ticked and `RaycastResults` still holds the three distances 2.6 of the first
attack, for touch input and for a turn by 180 degrees alike; with mouse input
and no turn it holds the distances 7.6 of the second attack. -/
theorem RaycastResults_outlive_their_attack :
    (∀ (g : HandlerGeometry) (h : CombatHandler) (p : CombatPlayer) (MissedSwing : Bool),
      (HandleClientPacket g h (ClientPacket.PlayerAuthInput InputModeTouch MissedSwing) p).map
          (fun h' => h'.RaycastResults)
        = some h.RaycastResults) ∧
    earlierAttackResolved.map (fun h => (h.Phase, h.RaycastResults))
      = some (CombatPhaseTicked, [13 / 5, 13 / 5, 13 / 5]) ∧
    secondAttackHeld.map (fun h => (h.Phase, h.RaycastResults))
      = some (CombatPhaseTransaction, [13 / 5, 13 / 5, 13 / 5]) ∧
    (secondAttackHeld.bind (fun h =>
        HandleClientPacket exactHandlerGeometry h
          (ClientPacket.PlayerAuthInput InputModeTouch false)
          (combatScene ⟨0, 0, 8⟩ ⟨0, 0, 0⟩ ⟨0, 0, 0⟩ true))).map
        (fun h => (h.Phase, h.RaycastResults))
      = some (CombatPhaseTicked, [13 / 5, 13 / 5, 13 / 5]) ∧
    (secondAttackHeld.bind (fun h =>
        HandleClientPacket exactHandlerGeometry h (ClientPacket.PlayerAuthInput 1 false)
          (combatScene ⟨0, 0, 8⟩ ⟨0, 0, 0⟩ ⟨0, 0, 180⟩ true))).map
        (fun h => (h.Phase, h.RaycastResults))
      = some (CombatPhaseTicked, [13 / 5, 13 / 5, 13 / 5]) ∧
    (secondAttackHeld.bind (fun h =>
        HandleClientPacket exactHandlerGeometry h (ClientPacket.PlayerAuthInput 1 false)
          (combatScene ⟨0, 0, 8⟩ ⟨0, 0, 0⟩ ⟨0, 0, 0⟩ true))).map
        (fun h => (h.Phase, h.RaycastResults))
      = some (CombatPhaseTicked, [38 / 5, 38 / 5, 38 / 5]) := by
  refine ⟨?_, ?_, ?_, ?_, ?_, ?_⟩
  · intro g h p ms
    simp only [HandleClientPacket]
    have hclick : (if p.ProtocolID ≥ p.GameVersion1_20_10 ∧ ms = true then h.click p
        else h).RaycastResults = h.RaycastResults := by
      split
      · exact click_RaycastResults h p
      · rfl
    generalize (if p.ProtocolID ≥ p.GameVersion1_20_10 ∧ ms = true then h.click p
        else h) = k at hclick
    split
    · simp only [Option.map_some', hclick]
    · split
      · simp only [Option.map_some', hclick]
      · simp only [if_true, Option.map_some', hclick]
  · rw [earlierAttackResolved_eq]
    decide!
  · rw [secondAttackHeld_eq]
    decide!
  · rw [secondAttackHeld_eq]
    decide!
  · rw [secondAttackHeld_eq]
    decide!
  · rw [secondAttackHeld_eq]
    decide!

end StaleResultFacts

/-! ## `CenterAlignText` of `utils/text.go` -/

section TextFacts

theorem stringsRepeat_space (n : Nat) :
    stringsRepeat [32] (n : Int) = some (List.replicate n 32) := by
  have hneg : ¬ ((n : Int) < 0) := by omega
  simp only [stringsRepeat, hneg, if_false, Int.toNat_ofNat, Option.some.injEq]
  induction n with
  | zero => rfl
  | succ k ih => simp [List.replicate_succ, ih]

theorem centerLine_of_le (max : Nat) (line : List Nat) (hle : line.length ≤ max) :
    centerLine (max : Int) line = some (centeredAsClaimed max line) := by
  have htotal : (max : Int) - (line.length : Int) = ((max - line.length : Nat) : Int) := by
    omega
  have hleft : Int.tdiv ((max - line.length : Nat) : Int) 2
      = (((max - line.length) / 2 : Nat) : Int) := by
    rw [Int.tdiv_eq_ediv (by positivity) (by norm_num)]
    norm_cast
  have hright : ((max - line.length : Nat) : Int) - (((max - line.length) / 2 : Nat) : Int)
      = (((max - line.length) - (max - line.length) / 2 : Nat) : Int) := by
    omega
  simp only [centerLine, htotal, hleft, hright, stringsRepeat_space, centeredAsClaimed]

theorem centerLines_of_le (max : Nat) (text : List (List Nat)) :
    ∀ centeredLines : List (List Nat), (∀ line ∈ text, line.length ≤ max) →
      centerLines (max : Int) text centeredLines
        = some (centeredLines ++ text.map (centeredAsClaimed max)) := by
  induction text with
  | nil =>
    intro acc _
    simp [centerLines]
  | cons line rest ih =>
    intro acc hle
    simp only [centerLines, centerLine_of_le max line (hle line (List.mem_cons_self _ _))]
    rw [ih _ (fun l hl => hle l (List.mem_cons_of_mem _ hl))]
    simp

theorem foldl_longest (text : List (List Nat)) :
    ∀ acc : Int,
      acc ≤ text.foldl
        (fun maxLength line =>
          if (line.length : Int) > maxLength then (line.length : Int) else maxLength) acc ∧
      (∀ line ∈ text, (line.length : Int) ≤ text.foldl
        (fun maxLength line =>
          if (line.length : Int) > maxLength then (line.length : Int) else maxLength) acc) ∧
      (text.foldl
        (fun maxLength line =>
          if (line.length : Int) > maxLength then (line.length : Int) else maxLength) acc = acc ∨
        ∃ line ∈ text, (line.length : Int) = text.foldl
          (fun maxLength line =>
            if (line.length : Int) > maxLength then (line.length : Int) else maxLength) acc) := by
  induction text with
  | nil =>
    intro acc
    simp
  | cons line rest ih =>
    intro acc
    simp only [List.foldl_cons]
    obtain ⟨h1, h2, h3⟩ := ih (if (line.length : Int) > acc then (line.length : Int) else acc)
    have hstep : acc ≤ (if (line.length : Int) > acc then (line.length : Int) else acc) ∧
        (line.length : Int) ≤ (if (line.length : Int) > acc then (line.length : Int) else acc) := by
      split <;> omega
    refine ⟨le_trans hstep.1 h1, ?_, ?_⟩
    · intro l hl
      rcases List.mem_cons.mp hl with rfl | hmem
      · exact le_trans hstep.2 h1
      · exact h2 l hmem
    · rcases h3 with h3 | ⟨l, hl, h3⟩
      · by_cases hgt : (line.length : Int) > acc
        · right
          refine ⟨line, List.mem_cons_self _ _, ?_⟩
          rw [h3, if_pos hgt]
        · left
          rw [h3, if_neg hgt]
      · exact Or.inr ⟨l, List.mem_cons_of_mem _ hl, h3⟩

theorem longestLength_spec (text : List (List Nat)) (hne : text ≠ []) :
    ∃ max : Nat, longestLength text = (max : Int) ∧ (∀ line ∈ text, line.length ≤ max) ∧
      ∃ line ∈ text, line.length = max := by
  obtain ⟨h1, h2, h3⟩ := foldl_longest text 0
  obtain ⟨max, hmax⟩ := Int.eq_ofNat_of_zero_le h1
  have hlong : longestLength text = (max : Int) := hmax
  refine ⟨max, hlong, ?_, ?_⟩
  · intro line hline
    have := h2 line hline
    rw [hmax] at this
    exact_mod_cast this
  · rcases h3 with h3 | ⟨line, hline, h3⟩
    · obtain ⟨first, rest, rfl⟩ := List.exists_cons_of_ne_nil hne
      refine ⟨first, List.mem_cons_self _ _, ?_⟩
      have hle := h2 first (List.mem_cons_self _ _)
      rw [h3] at hle
      have hzero : (max : Int) = 0 := by rw [← hmax, h3]
      omega
    · refine ⟨line, hline, ?_⟩
      rw [hmax] at h3
      exact_mod_cast h3

theorem centeredAsClaimed_length (max : Nat) (line : List Nat) (hle : line.length ≤ max) :
    (centeredAsClaimed max line).length = max := by
  simp only [centeredAsClaimed, List.length_append, List.length_replicate]
  omega

theorem centeredAsClaimed_count (max : Nat) (line : List Nat) (hline : 10 ∉ line) :
    (centeredAsClaimed max line).count 10 = 0 := by
  rw [List.count_eq_zero]
  intro hmem
  simp only [centeredAsClaimed, List.mem_append, List.mem_replicate] at hmem
  rcases hmem with (⟨_, h⟩ | h) | ⟨_, h⟩
  · omega
  · exact hline h
  · omega

theorem stringsJoin_count (lines : List (List Nat)) (hlines : ∀ line ∈ lines, line.count 10 = 0) :
    (stringsJoin lines [10]).count 10 = lines.length - 1 := by
  induction lines with
  | nil => rfl
  | cons a rest ih =>
    cases rest with
    | nil =>
      simp only [stringsJoin, List.length_singleton]
      exact hlines a (List.mem_cons_self _ _)
    | cons b rest =>
      have hrest := ih (fun l hl => hlines l (List.mem_cons_of_mem _ hl))
      simp only [stringsJoin, List.count_append, hlines a (List.mem_cons_self _ _), hrest,
        List.length_cons]
      simp
      omega

/-- C38: `CenterAlignText` of no strings is the empty string.  For a non-empty
list it returns, with `max` the byte length of a longest input, the lines of the
claim joined by newlines: one line for each input, in order, the input with
`(max - len) / 2` spaces before it and the remaining
`(max - len) - (max - len) / 2` spaces after it, every line `max` bytes long;
when no input holds a newline the result holds one newline less than there are
inputs. -/
theorem CenterAlignText_centers (text : List (List Nat)) :
    CenterAlignText [] = some [] ∧
    (text ≠ [] →
      ∃ max : Nat, (∀ line ∈ text, line.length ≤ max) ∧ (∃ line ∈ text, line.length = max) ∧
        CenterAlignText text = some (stringsJoin (text.map (centeredAsClaimed max)) [10]) ∧
        (text.map (centeredAsClaimed max)).length = text.length ∧
        (∀ line ∈ text, (centeredAsClaimed max line).length = max) ∧
        ((∀ line ∈ text, 10 ∉ line) →
          (stringsJoin (text.map (centeredAsClaimed max)) [10]).count 10 = text.length - 1)) := by
  refine ⟨rfl, ?_⟩
  intro hne
  obtain ⟨max, hlong, hle, hattained⟩ := longestLength_spec text hne
  refine ⟨max, hle, hattained, ?_, List.length_map _ _, ?_, ?_⟩
  · have hlen : ¬ text.length = 0 := by
      intro h
      exact hne (List.length_eq_zero.mp h)
    simp only [CenterAlignText, hlen, if_false, hlong, centerLines_of_le max text [] hle,
      List.nil_append, Option.map_some']
  · intro line hline
    exact centeredAsClaimed_length max line (hle line hline)
  · intro hnone
    rw [stringsJoin_count, List.length_map]
    intro l hl
    obtain ⟨line, hline, rfl⟩ := List.mem_map.mp hl
    exact centeredAsClaimed_count max line (hnone line hline)

/-- C38, for the strings "ab", "abcde" and "abc": the result is " ab  ",
"abcde" and " abc " joined by newlines. -/
theorem CenterAlignText_centers_witness :
    ∃ max : Nat, CenterAlignText [[97, 98], [97, 98, 99, 100, 101], [97, 98, 99]]
        = some (stringsJoin
            ([[97, 98], [97, 98, 99, 100, 101], [97, 98, 99]].map (centeredAsClaimed max)) [10]) ∧
      CenterAlignText [[97, 98], [97, 98, 99, 100, 101], [97, 98, 99]]
        = some [32, 97, 98, 32, 32, 10, 97, 98, 99, 100, 101, 10, 32, 97, 98, 99, 32] :=
  match (CenterAlignText_centers [[97, 98], [97, 98, 99, 100, 101], [97, 98, 99]]).2
      (by decide) with
  | ⟨max, _, _, h, _⟩ => ⟨max, h, by decide⟩

end TextFacts

/-! ## The rounding of the average, the mode gate and the cancelled attack of `check/reach.go` -/

section ReachCorrectionFacts
open ReachA

/-- C10 as stated fails on the rounding of the average: when each of the 64
rays hits at 3.0000999999999998, the largest `float64` below that of the
literal 3.0001, the box being 3 away, the average of the hit distances is that
value, which is at most 3.0001, but the 64 `float64` additions give
192.00640000000016 and the division gives 3.0001000000000024, above the
`float64` of the literal 3.0001:
`Process` sets `cancelNext`, raises `secondaryBuffer` from 1/2 to 3/2 and calls
`Flag` with the type "raycast". -/
theorem legal_average_rounds_above_threshold :
    justBelowLegal ≤ 30001 / 10000 ∧
    boxDistance (reportingGeometry 3 justBelowLegal) (stillTarget 2) (pendingCheck 2)
      originAttack.Position ≤ 315 / 100 ∧
    (raycast { reportingGeometry 3 justBelowLegal with
                AddFloat64 := fun a b => a + b, DivFloat64 := fun a b => a / b }
        (sceneProcessor 2) (stillTarget 2) (pendingCheck 2) originAttack.Position).distAvg
      = 64 * justBelowLegal ∧
    raycast (reportingGeometry 3 justBelowLegal) (sceneProcessor 2) (stillTarget 2)
        (pendingCheck 2) originAttack.Position
      = { entPos := ⟨0, -9 / 10, 2⟩, rot := ⟨0, 0, 1⟩, minDist := justBelowLegal, valid := true,
          distAvg := 3377812310518559 / 17592186044416, totalHits := 64 } ∧
    float64Div (3377812310518559 / 17592186044416) 64 = 3377812310518559 / 1125899906842624 ∧
    legalAverage < 3377812310518559 / 1125899906842624 ∧
    (pendingCheck 2).Process (reportingGeometry 3 justBelowLegal) (sceneProcessor 2)
        (Packet.PlayerAuthInput 1)
      = { check :=
            { violations := 3999 / 1000, buffer := 39 / 40, attackData := none,
              currentEntPos := ⟨0, -9 / 10, 2⟩, lastEntPos := ⟨0, -9 / 10, 2⟩,
              cancelNext := true, secondaryBuffer := 3 / 2 },
          flags := [{ severity := 1, kind := "raycast", dist := some (30001 / 10000) }],
          ret := false } := by
  refine ⟨by decide!, by decide!, by decide!, by decide!, by decide!, by decide!, by decide!⟩

/-- C13 as stated fails outside the semi-authoritative mode: in the
full-authoritative mode, with `originAttack` pending and its target no longer
found, `Process` returns false on the `PlayerAuthInput` packet before anything
else and the attack stays pending. -/
theorem Process_other_mode_keeps_pending_attack :
    (pendingCheck 2).attackData = some originAttack ∧
    (fullAuthorityProcessor 2).SearchEntity originAttack.TargetEntityRuntimeID = none ∧
    (pendingCheck 2).Process exactGeometry (fullAuthorityProcessor 2) (Packet.PlayerAuthInput 1)
      = { check := pendingCheck 2, flags := [], ret := false } ∧
    ((pendingCheck 2).Process exactGeometry (fullAuthorityProcessor 2)
      (Packet.PlayerAuthInput 1)).check.attackData = some originAttack := by
  refine ⟨rfl, rfl, by decide!, by decide!⟩

/-- C15 as stated fails on the second consecutive attack: with every ray
hitting at 3.5 and the box 3 away, from `NewReachA()` the resolution of the
first attack raises `secondaryBuffer` to 1 without a flag and sets `cancelNext`;
the attack packet of the second attack is then cancelled (`Process` returns
true) and never recorded, so its `PlayerAuthInput` packet resolves nothing and
raises no flag; the flag comes with the third attack. -/
theorem second_consecutive_attack_is_cancelled :
    attackRounds (reportingGeometry 3 (7 / 2)) (sceneProcessor 2) originAttack 1 3 NewReachA
      = [[], [], [{ severity := 1, kind := "raycast", dist := some (7 / 2) }]] ∧
    ((attackRound (reportingGeometry 3 (7 / 2)) (sceneProcessor 2) originAttack 1
        NewReachA).check.Process (reportingGeometry 3 (7 / 2)) (sceneProcessor 2)
        originAttackPacket).ret = true ∧
    (attackRound (reportingGeometry 3 (7 / 2)) (sceneProcessor 2) originAttack 1
      (attackRound (reportingGeometry 3 (7 / 2)) (sceneProcessor 2) originAttack 1
        NewReachA).check).check.secondaryBuffer = 1 := by
  refine ⟨by decide!, by decide!, by decide!⟩

end ReachCorrectionFacts

/-! ## The flag payload of `check/kill_aura_b.go` -/

section PayloadFacts
open KillAuraB

end PayloadFacts

end Oomph
